import Mathlib

/-!
# Pako evaluator: statement interpreter and call bridge

A shallow embedding of `vm/vmStmt.go` and `vm/vmExprFunction.go`.

* Go `reflect.Value`s are the inductive `Value`; the static type a
  `reflect.Value` carries is recovered by `Value.TypeOf`.
* The environment chain (`*env.Env`) lives in a heap of frames addressed by
  index, so "the environment pointer" is a natural number.
* Mutable `runInfoStruct` fields are threaded explicitly through `RunInfo`.
* Recursive calls (`runSingleStmt`, `invokeExpr`, `invokeLetExpr`, reflected
  `Call`) go through an `Eval` record; `eval` ties the knot with fuel.
* Source positions of AST nodes are not modelled: an error is its message.
-/

namespace Pako

/-! ## Results of running Go code -/

/-- What running a piece of Go code can do: return normally, panic, or fail
to return within the fuel of the model. -/
inductive Outcome (α : Type) where
  | ok (a : α)
  | panic (msg : String)
  | diverge

namespace Outcome

/-- Sequencing: a panic or divergence of the first part is the result. -/
def bind {α β : Type} (x : Outcome α) (f : α → Outcome β) : Outcome β :=
  match x with
  | ok a => f a
  | panic m => panic m
  | diverge => diverge

instance : Monad Outcome where
  pure := Outcome.ok
  bind := Outcome.bind

/-- The value returned, when the code returned. -/
def toOption {α : Type} : Outcome α → Option α
  | ok a => some a
  | _ => none

end Outcome

/-! ## Errors -/

/-- Go `error` values as the evaluator sees them: the four sentinels compared
by identity, `*vm.Error` values built by `newError` / `newStringError`, and
any other host error. -/
inductive GoError where
  | ErrBreak
  | ErrContinue
  | ErrReturn
  | ErrInterrupt
  | vm (message : String)
  | host (message : String)
  deriving DecidableEq, Repr

/-- Modelled from the spec: the sentinels are declared outside the given
sources; `Error()` of a sentinel is a fixed text, of any other error its
message. -/
def GoError.Error : GoError → String
  | .ErrBreak => "unexpected break statement"
  | .ErrContinue => "unexpected continue statement"
  | .ErrReturn => "unexpected return statement"
  | .ErrInterrupt => "execution interrupted"
  | .vm m => m
  | .host m => m

/-- Modelled from the spec: `newStringError(pos, msg)` builds a `*vm.Error`
carrying `msg` (the position is not modelled). -/
def newStringError (msg : String) : GoError := .vm msg

/-- Modelled from the spec: `newError(pos, err)` re-wraps `err` as a
`*vm.Error` with the same message; a nil error stays nil. -/
def newError : Option GoError → Option GoError
  | none => none
  | some e => some (.vm e.Error)

/-! ## Types and kinds -/

/-- The `reflect.Kind`s. -/
inductive Kind where
  | invalid | bool | int | int8 | int16 | int32 | int64
  | uint | uint8 | uint16 | uint32 | uint64 | uintptr
  | float32 | float64 | complex64 | complex128
  | array | chan | func | interface | map | ptr | slice | string | struct | unsafePointer
  deriving DecidableEq, Repr

/-- Name of a kind, as `Kind.String()` prints it. -/
def Kind.toStr : Kind → String
  | .invalid => "invalid" | .bool => "bool"
  | .int => "int" | .int8 => "int8" | .int16 => "int16" | .int32 => "int32" | .int64 => "int64"
  | .uint => "uint" | .uint8 => "uint8" | .uint16 => "uint16" | .uint32 => "uint32"
  | .uint64 => "uint64" | .uintptr => "uintptr"
  | .float32 => "float32" | .float64 => "float64"
  | .complex64 => "complex64" | .complex128 => "complex128"
  | .array => "array" | .chan => "chan" | .func => "func"
  | .interface => "interface" | .map => "map" | .ptr => "ptr"
  | .slice => "slice" | .string => "string" | .struct => "struct"
  | .unsafePointer => "unsafe.Pointer"

/-- Go types (`reflect.Type`) of parameters, results and values. `other name
kind` is any type the evaluator has no name for, with the name the host
prints for it and the kind the host gives it. -/
inductive GoType where
  | invalid
  | context
  | vmStruct
  | reflectValue
  | error
  | vmError
  | iface
  | bool
  | int64
  | string
  | slice (elem : GoType)
  | ptr (elem : GoType)
  | map (key val : GoType)
  | chan
  | func
  | env
  | other (name : String) (kind : Kind)
  deriving DecidableEq, Repr

abbrev contextType : GoType := .context
abbrev vmStructType : GoType := .vmStruct
abbrev reflectValueType : GoType := .reflectValue
abbrev errorType : GoType := .error
abbrev vmErrorType : GoType := .vmError
abbrev stringType : GoType := .string
abbrev interfaceSliceType : GoType := .slice .iface

/-- Kind of a type. -/
def GoType.kind : GoType → Kind
  | .invalid => .invalid
  | .context => .interface
  | .vmStruct => .ptr
  | .reflectValue => .struct
  | .error => .interface
  | .vmError => .ptr
  | .iface => .interface
  | .bool => .bool
  | .int64 => .int64
  | .string => .string
  | .slice _ => .slice
  | .ptr _ => .ptr
  | .map _ _ => .map
  | .chan => .chan
  | .func => .func
  | .env => .ptr
  | .other _ k => k

/-- Printed name of a type. -/
def GoType.String : GoType → String
  | .invalid => "<invalid>"
  | .context => "context.Context"
  | .vmStruct => "*vm.vmStruct"
  | .reflectValue => "reflect.Value"
  | .error => "error"
  | .vmError => "*vm.Error"
  | .iface => "interface {}"
  | .bool => "bool"
  | .int64 => "int64"
  | .string => "string"
  | .slice e => "[]" ++ e.String
  | .ptr e => "*" ++ e.String
  | .map k v => "map[" ++ k.String ++ "]" ++ v.String
  | .chan => "chan"
  | .func => "func"
  | .env => "*env.Env"
  | .other n _ => n

/-- Element type of a slice or pointer type (`Type.Elem()`). -/
def GoType.Elem : GoType → GoType
  | .slice e => e
  | .ptr e => e
  | .vmError => .other "vm.Error" .struct
  | .vmStruct => .other "vm.vmStruct" .struct
  | .env => .other "env.Env" .struct
  | _ => .invalid

/-- A function type: parameter types, result types, variadic flag. -/
structure FuncType where
  ins : List GoType
  outs : List GoType
  variadic : Bool
  deriving DecidableEq, Repr

namespace FuncType
def NumIn (rt : FuncType) : Nat := rt.ins.length
def NumOut (rt : FuncType) : Nat := rt.outs.length
def In (rt : FuncType) (i : Nat) : GoType := rt.ins.getD i .invalid
def Out (rt : FuncType) (i : Nat) : GoType := rt.outs.getD i .invalid
def IsVariadic (rt : FuncType) : Bool := rt.variadic
end FuncType

/-! ## Values -/

/-- What a reflected function value points to: a host function of the
registry or a closure made by `funcExpr`. -/
inductive FuncRef where
  | native (id : Nat)
  | script (id : Nat)
  deriving DecidableEq, Repr

/-- A `reflect.Value`.

* `invalid` is the zero `reflect.Value` (`zeroValue`).
* `nil t` is the nil value of static type `t` (`nilValue = nil .iface`).
* `iface t v` is a non-nil interface of static type `t` holding `v`.
* `error e` is a concrete error object, `env p` a `*env.Env`,
  `vmStruct v` a `*vmStruct` holding `v`, `carrier v` the
  `reflect.ValueOf` of the `reflect.Value` `v`, `ctx` the context.
* `map k v id` is a map, a reference to entry list `id` of the memory.
* `ptr v` is a pointer to a cell holding `v`.
* `index items failAt` is a host value with the Index capability: `Len()` is
  `items.length` and `Index(i)` returns `items[i]`, or an error when
  `failAt = some i`.
* `foreign t id` is any other host value, of type `t`: a float, an unsigned
  integer, a struct, a host pointer. A string is always a `str`, a non-nil
  slice a `slice`, a non-nil map a `map`, a non-nil channel a `chan`: no
  `foreign` or `deref` value has one of these kinds.
* `deref p` is the value a pointer `p` other than a `ptr` points to: the
  struct behind a `*vm.Error`, a `*env.Env`, a `*vmStruct` or a host
  pointer. -/
inductive Value where
  | invalid
  | nil (t : GoType)
  | iface (t : GoType) (v : Value)
  | bool (b : Bool)
  | int (i : Int)
  | str (s : String)
  | slice (elem : GoType) (xs : List Value)
  | map (key val : GoType) (id : Nat)
  | chan (id : Nat)
  | func (ft : FuncType) (ref : FuncRef)
  | error (e : GoError)
  | env (p : Nat)
  | vmStruct (v : Value)
  | carrier (v : Value)
  | ctx
  | ptr (v : Value)
  | index (items : List Value) (failAt : Option Nat)
  | type (t : GoType)
  | foreign (t : GoType) (id : Nat)
  | deref (p : Value)

abbrev nilValue : Value := .nil .iface
abbrev zeroValue : Value := .invalid
abbrev trueValue : Value := .bool true
abbrev falseValue : Value := .bool false
/-- The carrier of `nilValue`. -/
abbrev reflectValueNilValue : Value := .carrier nilValue
/-- The carrier of a nil `error`. -/
abbrev reflectValueErrorNilValue : Value := .carrier (.nil .error)

instance : Inhabited Value := ⟨nilValue⟩

namespace Value

/-- Static type of a value (`Value.Type()`). -/
def TypeOf : Value → GoType
  | .invalid => .invalid
  | .nil t => t
  | .iface t _ => t
  | .bool _ => .bool
  | .int _ => .int64
  | .str _ => .string
  | .slice e _ => .slice e
  | .map k v _ => .map k v
  | .chan _ => .chan
  | .func _ _ => .func
  | .error (.vm _) => .vmError
  | .error _ => .ptr (.other "errors.errorString" .struct)
  | .env _ => .env
  | .vmStruct _ => .vmStruct
  | .carrier _ => .reflectValue
  | .ctx => .context
  | .ptr v => .ptr v.TypeOf
  | .index _ _ => .other "over.Index" .struct
  | .type _ => .ptr (.other "reflect.rtype" .struct)
  | .foreign t _ => t
  | .deref p => p.TypeOf.Elem

def kind (v : Value) : Kind := v.TypeOf.kind

def IsValid : Value → Bool
  | .invalid => false
  | _ => true

def IsNil : Value → Bool
  | .nil _ => true
  | _ => false

/-- Dynamic content of an interface, pointee of a pointer (`Value.Elem()`):
a value of pointer kind that is not a `ptr` gives the struct it points to.
The callers test the kind first; on a value of another kind, where Go panics,
the value itself is returned. -/
def Elem : Value → Value
  | .iface _ v => v
  | .ptr v => v
  | .nil _ => .invalid
  | v => if v.kind = .ptr then .deref v else v

/-- The evaluator's recurring step
`if v.Kind() == reflect.Interface && !v.IsNil() { v = v.Elem() }`. -/
def unwrapInterface (v : Value) : Value :=
  if v.kind = .interface && !v.IsNil then v.Elem else v

/-- The boolean of a bool value (`Value.Bool()`). -/
def asBool : Value → Bool
  | .bool b => b
  | _ => false

/-- Length of a slice or string (`Value.Len()`). -/
def Len : Value → Nat
  | .slice _ xs => xs.length
  | .str s => s.length
  | _ => 0

/-- Element `i` of a slice (`Value.Index(i)`); out of range panics. -/
def Index : Value → Nat → Outcome Value
  | .slice _ xs, i =>
    match xs.get? i with
    | some x => .ok x
    | none => .panic "reflect: slice index out of range"
  | _, _ => .panic "reflect: call of reflect.Value.Index on non-slice Value"

/-- The result of `v.Interface()` put back into an `interface{}` slot: the dynamic content
of an interface value, the value itself otherwise; nil stays nil. -/
def toInterface : Value → Value
  | .nil _ => nilValue
  | .invalid => nilValue
  | .iface _ v => .iface .iface v
  | v => .iface .iface v

/-- Whether `v.Interface().(error)` succeeds: the dynamic content is an
error object. -/
def implementsError : Value → Bool
  | .error _ => true
  | .iface _ (.error _) => true
  | _ => false

/-- The error held by an error-typed value, if any. -/
def asError : Value → Option GoError
  | .error e => some e
  | .iface _ (.error e) => some e
  | _ => none

/-- The assertion `v.Interface().(reflect.Value)`: the value inside a carrier. -/
def uncarry : Value → Outcome Value
  | .carrier v => .ok v
  | _ => .panic "interface conversion: interface is not reflect.Value"

end Value

/-! ## Syntax

The `ast` package is outside the given sources; the node kinds and fields are
the ones the evaluator reads. A field the evaluator compares with `nil` is an
`Option`. -/

mutual
/-- Expression nodes. -/
inductive Expr where
  | LiteralExpr (Literal : Value)
  | IdentExpr (Lit : String)
  | MemberExpr (expr : Expr) (Name : String)
  | OpExpr (LHS : Expr) (Operator : String) (RHS : Expr)
  | AddrExpr (expr : Expr)
  | FuncExpr (Name : String) (Recv : String) (Params : List String) (VarArg : Bool) (stmt : Stmt)
  | CallExpr (Func : Value) (Name : String) (SubExprs : List Expr) (VarArg : Bool) (Go : Bool)
  | CallErrExpr (Func : Value) (Name : String) (SubExprs : List Expr) (VarArg : Bool)
  | AnonCallExpr (expr : Expr) (SubExprs : List Expr) (VarArg : Bool) (Go : Bool)
  | AnonCallErrExpr (expr : Expr) (SubExprs : List Expr) (VarArg : Bool)
/-- Statement nodes. `ElseIf` holds the condition and branch of each
`else if`; `Cases` holds the expressions and statement of each case. -/
inductive Stmt where
  | StmtsStmt (Stmts : List Stmt)
  | BreakStmt
  | ContinueStmt
  | ReturnStmt (Exprs : List Expr)
  | ExprStmt (expr : Expr)
  | ImportStmt (Name : Expr) (As : String) (Local : Bool)
  | StructStmt (Name : String) (Body : List (String × String))
  | VarStmt (Names : List String) (Exprs : List Expr)
  | LetsStmt (LHSS : List Expr) (RHSS : List Expr) (Unpack : Bool)
  | LetMapItemStmt (LHSS : List Expr) (RHS : Expr)
  | IfStmt (If : Expr) (Then : Stmt) (ElseIf : List (Expr × Stmt)) (Else : Option Stmt)
  | TryStmt (Try : Stmt) (Var : String) (Catch : Option Stmt) (Finally : Option Stmt)
  | LoopStmt (expr : Option Expr) (stmt : Stmt)
  | ForStmt (Vars : List String) (Value : Expr) (stmt : Stmt)
  | CForStmt (Stmt1 : Option Stmt) (Expr2 : Option Expr) (Expr3 : Option Expr) (stmt : Stmt)
  | ThrowStmt (expr : Expr)
  | ModuleStmt (Name : String) (stmt : Stmt)
  | SwitchStmt (expr : Expr) (Cases : List (List Expr × Stmt)) (Default : Option Stmt)
  | GoroutineStmt (expr : Expr)
  | DeleteStmt (Item : Expr) (Key : Option Expr)
  | CloseStmt (expr : Expr)
  | ChanStmt (LHS : Expr) (OkExpr : Option Expr) (RHS : Expr)
  | UnknownStmt
end

/-! ## Environments and the rest of memory -/

/-- What the host import resolver answers for a local package. -/
inductive ImportResult where
  | pack (values : List (String × Value))
  | vmError (text : String) (line : Nat)
  | parserError (message : String) (line : Nat)
  | otherError
  deriving Inhabited

/-- One environment frame: values, types, parent pointer, import resolver. -/
structure Frame where
  values : List (String × Value)
  types : List (String × GoType)
  parent : Option Nat
  Import : Option (String → ImportResult)

/-- Option flags of a run. -/
structure Options where
  Debug : Bool
  deriving DecidableEq, Repr

/-- What `funcExpr` captures for `runVMFunction`: the function expression,
the defining frame, the script type names and the options. -/
structure Closure where
  Recv : String
  Params : List String
  VarArg : Bool
  Stmt : Stmt
  envFunc : Nat
  vmTypes : List String
  options : Options

/-- Outcome of a `select` between the cancellation handle and a channel. -/
inductive SelectOutcome where
  | cancelled
  | closed
  | received (v : Value)

/-- Memory shared by every run state.

* `envs` is the heap of frames; a `*env.Env` is an index into it.
* `funcs` holds the closures made by `funcExpr`, `natives` the host
  functions (`none` stands for a panic of the host function).
* `maps` holds the entries of every map, in iteration order.
* `Packages` and `PackageTypes` are the package registry.
* `cancelAfter` decides the cancellation handle: `none` is never cancelled,
  `some k` is cancelled once `k` polls have seen it not done.
* `selects` lists the outcomes of the coming channel selects, `closed` the
  channels closed so far.
* `format` is the text the host's `fmt.Sprint` gives a value whose text the
  value alone does not determine (maps, pointers, channels, functions,
  structs and other host values), in a memory with the given frames and
  maps. -/
structure World where
  envs : List Frame
  funcs : List Closure
  natives : List (List Value → Option (List Value))
  maps : List (List (Value × Value))
  Packages : List (String × List (String × Value))
  PackageTypes : List (String × List (String × GoType))
  cancelAfter : Option Nat
  selects : List SelectOutcome
  closed : List Nat
  format : List Frame → List (List (Value × Value)) → Value → String := fun _ _ _ => ""

namespace World

/-- Whether `<-ctx.Done()` is ready. -/
def Done (w : World) : Bool := w.cancelAfter == some 0

/-- One poll of the cancellation handle that found it not done. -/
def poll (w : World) : World := { w with cancelAfter := w.cancelAfter.map Nat.pred }

/-- Replace a frame. -/
def setFrame (w : World) (p : Nat) (f : Frame) : World := { w with envs := w.envs.set p f }

/-- Store a binding in an association list, replacing an earlier one. -/
def bindIn {α : Type} (name : String) (v : α) : List (String × α) → List (String × α)
  | [] => [(name, v)]
  | (k, x) :: rest => if k == name then (k, v) :: rest else (k, x) :: bindIn name v rest

/-- Modelled from the spec: `e.NewEnv()` creates a child frame of `e`; the
resolver of local imports is inherited from the parent. -/
def NewEnv (w : World) (p : Nat) : World × Nat :=
  let imp := match w.envs.get? p with
    | some f => f.Import
    | none => none
  ({ w with envs := w.envs ++ [{ values := [], types := [], parent := some p, Import := imp }] },
    w.envs.length)

/-- Modelled from the spec: `e.DefineValue(name, v)` binds in frame `e`
itself. The callers in the sources handle an error of it; the spec names no
failure, and the one modelled is the refusal of a name containing a dot. -/
def DefineValue (w : World) (p : Nat) (name : String) (v : Value) : World × Option GoError :=
  if name.toList.contains '.' then (w, some (.host "symbol contains '.'"))
  else match w.envs.get? p with
    | some f => (w.setFrame p { f with values := bindIn name v f.values }, none)
    | none => (w, none)

/-- Modelled from the spec: `e.DefineReflectType(name, t)` binds a type
descriptor in frame `e` itself. -/
def DefineReflectType (w : World) (p : Nat) (name : String) (t : GoType) : World × Option GoError :=
  if name.toList.contains '.' then (w, some (.host "symbol contains '.'"))
  else match w.envs.get? p with
    | some f => (w.setFrame p { f with types := bindIn name t f.types }, none)
    | none => (w, none)

/-- Walk the frames from `p` outward looking for a value binding. -/
def findValue (w : World) (name : String) : Nat → Nat → Option (Nat × Value)
  | 0, _ => none
  | fuel + 1, p =>
    match w.envs.get? p with
    | none => none
    | some f =>
      match f.values.lookup name with
      | some v => some (p, v)
      | none =>
        match f.parent with
        | some q => findValue w name fuel q
        | none => none

/-- Modelled from the spec: `e.GetValue(name)` looks the name up from the
innermost frame outward and fails when no frame binds it. -/
def GetValue (w : World) (p : Nat) (name : String) : Value × Option GoError :=
  match w.findValue name (w.envs.length + 1) p with
  | some (_, v) => (v, none)
  | none => (nilValue, some (.host ("undefined symbol '" ++ name ++ "'")))

/-- Modelled from the spec: `e.SetValue(name, v)` assigns to the nearest frame
that binds the name and fails when there is none. -/
def SetValue (w : World) (p : Nat) (name : String) (v : Value) : World × Option GoError :=
  match w.findValue name (w.envs.length + 1) p with
  | some (q, _) =>
    match w.envs.get? q with
    | some f => (w.setFrame q { f with values := bindIn name v f.values }, none)
    | none => (w, none)
  | none => (w, some (.host ("undefined symbol '" ++ name ++ "'")))

/-- Walk the frames from `p` outward looking for a type binding. -/
def findType (w : World) (name : String) : Nat → Nat → Option GoType
  | 0, _ => none
  | fuel + 1, p =>
    match w.envs.get? p with
    | none => none
    | some f =>
      match f.types.lookup name with
      | some t => some t
      | none =>
        match f.parent with
        | some q => findType w name fuel q
        | none => none

/-- The root frame above `p`. -/
def root (w : World) : Nat → Nat → Nat
  | 0, p => p
  | fuel + 1, p =>
    match w.envs.get? p with
    | some f =>
      match f.parent with
      | some q => root w fuel q
      | none => p
    | none => p

/-- Modelled from the spec: `e.Delete(name)` removes the innermost binding
only. -/
def Delete (w : World) (p : Nat) (name : String) : World :=
  match w.envs.get? p with
  | some f => w.setFrame p { f with values := f.values.filter (fun kv => kv.1 != name) }
  | none => w

/-- Modelled from the spec: `e.DeleteGlobal(name)` walks to the root and
removes the binding there. -/
def DeleteGlobal (w : World) (p : Nat) (name : String) : World :=
  w.Delete (w.root (w.envs.length + 1) p) name

/-- Modelled from the spec: `e.NewModule(name)` creates a child frame and
registers it in `e` under `name`; it returns the child together with the error
of the registration. -/
def NewModule (w : World) (p : Nat) (name : String) : World × Nat × Option GoError :=
  let (w1, m) := w.NewEnv p
  let (w2, err) := w1.DefineValue p name (.env m)
  (w2, m, err)

/-- Modelled from the spec: `e.DeepCopy()` copies the bindings of a frame
into a fresh frame with the same parent; the values bound are shared. -/
def DeepCopy (w : World) (p : Nat) : World × Nat :=
  match w.envs.get? p with
  | some f => ({ w with envs := w.envs ++ [f] }, w.envs.length)
  | none => (w, p)

end World

/-! ## Run state -/

/-- The fields of `runInfoStruct`. The context of the Go struct is the
cancellation handle of `world`. -/
structure RunInfo where
  world : World
  env : Nat
  options : Options
  stmt : Option Stmt
  expr : Option Expr
  rv : Value
  err : Option GoError
  callErr : Int
  recv : Value
  vmTypes : List String

/-- The recursive calls of the evaluator: `runInfo.runSingleStmt()`,
`runInfo.invokeExpr()`, `runInfo.invokeLetExpr()`, the reflected `f.Call(args)`
and `f.CallSlice(args)`, and the number of iterations a `for { }` loop of the
model may take. -/
structure Eval where
  runSingleStmt : RunInfo → Outcome RunInfo
  invokeExpr : RunInfo → Outcome RunInfo
  invokeLetExpr : RunInfo → Outcome RunInfo
  Call : Value → List Value → World → Outcome (List Value × World)
  CallSlice : Value → List Value → World → Outcome (List Value × World)
  fuel : Nat

/-! ## Helpers of the evaluator that are outside the given sources -/

/-- Modelled from the spec: `toBool` is truthiness: nil is false, a bool is
itself, a zero number, an empty string or an empty container is false,
everything else is true. -/
def toBool (w : World) (v : Value) : Bool :=
  match v.unwrapInterface with
  | .invalid => false
  | .nil _ => false
  | .bool b => b
  | .int i => i != 0
  | .str s => s != ""
  | .slice _ xs => !xs.isEmpty
  | .map _ _ id => !(w.maps.getD id []).isEmpty
  | _ => true

/-- Modelled from the spec: `isNil` holds of an invalid value and of a nil
interface, pointer, map, slice, channel or function. -/
def isNil (v : Value) : Bool := !v.IsValid || v.IsNil

mutual
/-- Structural comparison of two values after interfaces are looked
through; two maps are compared by `mapEq` on their references. -/
def Value.sameBy (mapEq : Nat → Nat → Bool) : Value → Value → Bool
  | .iface _ a, b => Value.sameBy mapEq a b
  | a, .iface _ b => Value.sameBy mapEq a b
  | .invalid, .invalid => true
  | .nil _, .nil _ => true
  | .nil _, .invalid => true
  | .invalid, .nil _ => true
  | .bool a, .bool b => a == b
  | .int a, .int b => a == b
  | .str a, .str b => a == b
  | .slice _ a, .slice _ b => Value.sameListBy mapEq a b
  | .map _ _ a, .map _ _ b => mapEq a b
  | .chan a, .chan b => a == b
  | .func fa ra, .func fb rb => fa == fb && ra == rb
  | .error a, .error b => a == b
  | .env a, .env b => a == b
  | .vmStruct a, .vmStruct b => Value.sameBy mapEq a b
  | .carrier a, .carrier b => Value.sameBy mapEq a b
  | .ctx, .ctx => true
  | .ptr a, .ptr b => Value.sameBy mapEq a b
  | .index a fa, .index b fb => Value.sameListBy mapEq a b && fa == fb
  | .type a, .type b => a == b
  | .foreign ta a, .foreign tb b => ta == tb && a == b
  | .deref a, .deref b => Value.sameBy mapEq a b
  | _, _ => false
/-- Element-wise comparison of two sequences. -/
def Value.sameListBy (mapEq : Nat → Nat → Bool) : List Value → List Value → Bool
  | [], [] => true
  | a :: as, b :: bs => Value.sameBy mapEq a b && Value.sameListBy mapEq as bs
  | _, _ => false
end

/-- Comparison of two values as keys of a map: structural, with two maps
compared as references. -/
def Value.same (a b : Value) : Bool := Value.sameBy (fun x y => x == y) a b

/-- Whether the maps `a` and `b` of the memory have the same keys and, for
every key, equal values; a map met again after `fuel` nested maps is compared
as a reference. -/
def World.mapsEqual (w : World) : Nat → Nat → Nat → Bool
  | 0, a, b => a == b
  | fuel + 1, a, b =>
    a == b ||
      ((w.maps.getD a []).length == (w.maps.getD b []).length &&
        (w.maps.getD a []).all fun kv =>
          match (w.maps.getD b []).find? (fun kw => Value.same kw.1 kv.1) with
          | some kw => Value.sameBy (World.mapsEqual w fuel) kv.2 kw.2
          | none => false)

/-- Modelled from the spec: `equal` is structural equality after one
interface unwrap of either side: element-wise for sequences, key-set and
per-key equality for mappings (read in the memory `w`), identity for channels
and foreign values. -/
def equal (w : World) (a b : Value) : Bool :=
  Value.sameBy (w.mapsEqual (w.maps.length + 1)) a.unwrapInterface b.unwrapInterface

mutual
/-- Modelled from the spec: `convertReflectValueToType(rv, rt)` coerces a value
to a declared type. Every value goes into `interface{}`; a value of the
declared type is kept; an interface is looked through; an error object goes
into `error`; a sequence goes into a slice type element by element (an element
stored in an `interface{}` slot is an interface value); a nil goes into any
nilable type. Anything else fails and returns the value unchanged. Numeric
widening and string/bytes conversion are not modelled. -/
def convertReflectValueToType : Value → GoType → Value × Option GoError
  | .iface t v, rt =>
    if rt = .iface ∨ t = rt then (.iface t v, none)
    else
      match convertReflectValueToType v rt with
      | (c, none) => (c, none)
      | (_, some e) => (.iface t v, some e)
  | .slice e xs, rt =>
    if rt = .iface ∨ rt = .slice e then (.slice e xs, none)
    else
      match rt with
      | .slice e2 =>
        match convertList xs e2 with
        | some ys => (.slice e2 (if e2 == .iface then ys.map Value.toInterface else ys), none)
        | none => (.slice e xs, some (.host "invalid type conversion"))
      | _ => (.slice e xs, some (.host "invalid type conversion"))
  | .nil t, rt =>
    if rt = .iface ∨ t = rt then (.nil t, none)
    else if rt.kind = .interface ∨ rt.kind = .ptr ∨ rt.kind = .slice ∨ rt.kind = .map
        ∨ rt.kind = .chan ∨ rt.kind = .func then (.nil rt, none)
    else (.nil t, some (.host "invalid type conversion"))
  | .error e, rt =>
    if rt = .iface ∨ rt = .error ∨ (Value.error e).TypeOf = rt then (.error e, none)
    else (.error e, some (.host "invalid type conversion"))
  | v, rt =>
    if rt = .iface ∨ v.TypeOf = rt then (v, none)
    else (v, some (.host "invalid type conversion"))
/-- Coerce every element of a sequence. -/
def convertList : List Value → GoType → Option (List Value)
  | [], _ => some []
  | x :: xs, rt =>
    match convertReflectValueToType x rt, convertList xs rt with
    | (c, none), some cs => some (c :: cs)
    | _, _ => none
end

/-- Modelled from the spec: `reflectValueSlicetoInterfaceSlice(rvs)` exposes
the full return vector as a sequence of `interface{}` slots, in order. -/
def reflectValueSlicetoInterfaceSlice (rvs : List Value) : Value :=
  .slice .iface (rvs.map Value.toInterface)

/-- Error raised by `recoverFunc` for a recovered panic. -/
def recoverFunc (runInfo : RunInfo) (msg : String) : RunInfo :=
  { runInfo with err := some (.host msg) }

/-! ## vmExprFunction.go -/

/-- The function type `funcType` builds for a script function. -/
def funcType (params : Nat) (hasRecv varArg : Bool) : FuncType :=
  let n := if hasRecv then 2 else 1
  -- create the inTypes needed by reflect.FuncOf
  let inTypes := List.replicate (params + n) GoType.invalid
  -- for runVMFunction first arg is always context
  let inTypes := inTypes.set 0 contextType
  -- if has a recv then the second arg should be a vmStruct
  let inTypes := if hasRecv then inTypes.set 1 vmStructType else inTypes
  let inTypes := inTypes.take n ++ List.replicate (inTypes.length - n) reflectValueType
  let inTypes := if varArg then inTypes.set (inTypes.length - 1) interfaceSliceType else inTypes
  { ins := inTypes, outs := [reflectValueType, reflectValueType], variadic := varArg }

/-- Checks the number and types of a function type against the shape of a
`runVMFunction`. -/
def checkIfRunVMFunction (rt : FuncType) : Bool :=
  if rt.NumIn ≥ 2 && rt.In 0 == contextType && rt.In 1 == vmStructType then
    true
  else if rt.NumIn < 1 || rt.NumOut != 2 || rt.In 0 != contextType
      || rt.Out 0 != reflectValueType || rt.Out 1 != reflectValueType then
    false
  else if rt.NumIn > 1 then
    if rt.IsVariadic && rt.In (rt.NumIn - 1) != interfaceSliceType then false
    else if !rt.IsVariadic && rt.In (rt.NumIn - 1) != reflectValueType then false
    else ((List.range (rt.NumIn - 1)).drop 1).all (fun i => rt.In i == reflectValueType)
  else
    true

/-- Converts the values returned from a function call into the normal
`(reflect.Value, error)` form. -/
def processCallReturnValues (rvs : List Value) (isRunVMFunction convertToInterfaceSlice : Bool) :
    Value × Option GoError :=
  if !isRunVMFunction then
    -- the function was a Go function
    match rvs with
    | [] => (nilValue, none)
    | [v] => (v, none)
    | _ =>
      if convertToInterfaceSlice then (reflectValueSlicetoInterfaceSlice rvs, none)
      else (.slice reflectValueType (rvs.map Value.carrier), none)
  else
    match rvs with
    | [rv0, rv1] =>
      if rv0.TypeOf != reflectValueType then
        (nilValue, some (.host ("VM function value 1 did not return reflect value type but returned "
          ++ rv0.TypeOf.String ++ " type")))
      else if rv1.TypeOf != reflectValueType then
        (nilValue, some (.host ("VM function value 2 did not return reflect value type but returned "
          ++ rv1.TypeOf.String ++ " type")))
      else
        let rvError := match rv1 with
          | .carrier e => e
          | _ => .invalid
        if rvError.TypeOf != errorType && rvError.TypeOf != vmErrorType then
          (nilValue, some (.host ("VM function error type is " ++ rvError.TypeOf.String)))
        else if rvError.IsNil then
          -- no error, so return the normal VM reflect.Value form
          (match rv0 with
            | .carrier v => v
            | _ => .invalid, none)
        else
          (nilValue, rvError.asError)
    | _ =>
      (nilValue, some (.host ("VM function did not return 2 values but returned "
        ++ toString rvs.length ++ " values")))

/-- The step `makeCallArgs` applies to each evaluated argument: a script
function receives the value in a carrier, a native function receives it
coerced to the declared parameter type. `Except.error` is the early return. -/
def makeCallArgs.addArg (rt : FuncType) (isRunVMFunction : Bool) (runInfo : RunInfo)
    (args : List Value) (indexInReal : Nat) : Except RunInfo (RunInfo × List Value) :=
  if isRunVMFunction then
    .ok (runInfo, args ++ [.carrier runInfo.rv])
  else
    match convertReflectValueToType runInfo.rv (rt.In indexInReal) with
    | (rv, none) => .ok ({ runInfo with rv := rv, err := none }, args ++ [rv])
    | (rv, some _) =>
      .error { runInfo with
        err := some (newStringError ("function wants argument type " ++ (rt.In indexInReal).String
          ++ " but received type " ++ rv.TypeOf.String)),
        rv := nilValue }

/-- The loop of `makeCallArgs` that creates the arguments except the last
one. The result holds `args`, `indexIn`, `indexInReal` and `indexExpr`. -/
def makeCallArgs.loop (ev : Eval) (rt : FuncType) (isRunVMFunction : Bool) (SubExprs : List Expr) :
    Nat → RunInfo → List Value → Nat → Nat → Nat →
    Outcome (Except RunInfo (RunInfo × List Value × Nat × Nat × Nat))
  | 0, runInfo, args, indexIn, indexInReal, indexExpr =>
    if indexInReal < rt.NumIn - 1 && indexExpr < SubExprs.length - 1 then .diverge
    else .ok (.ok (runInfo, args, indexIn, indexInReal, indexExpr))
  | k + 1, runInfo, args, indexIn, indexInReal, indexExpr =>
    if indexInReal < rt.NumIn - 1 && indexExpr < SubExprs.length - 1 then
      match SubExprs.get? indexExpr with
      | none => .panic "index out of range"
      | some e =>
        (ev.invokeExpr { runInfo with expr := some e }).bind fun runInfo =>
        if runInfo.err.isSome then .ok (.error runInfo)
        else
          match makeCallArgs.addArg rt isRunVMFunction runInfo args indexInReal with
          | .error r => .ok (.error r)
          | .ok (runInfo, args) =>
            makeCallArgs.loop ev rt isRunVMFunction SubExprs k runInfo args
              (indexIn + 1) (indexInReal + 1) (indexExpr + 1)
    else .ok (.ok (runInfo, args, indexIn, indexInReal, indexExpr))

/-- Evaluate `SubExprs[indexExpr]`, then add it as an argument. -/
def makeCallArgs.lastArg (ev : Eval) (rt : FuncType) (isRunVMFunction : Bool) (SubExprs : List Expr)
    (runInfo : RunInfo) (args : List Value) (indexInReal indexExpr : Nat) :
    Outcome (RunInfo × List Value × Bool) :=
  match SubExprs.get? indexExpr with
  | none => .panic "index out of range"
  | some e =>
    (ev.invokeExpr { runInfo with expr := some e }).bind fun runInfo =>
    if runInfo.err.isSome then .ok (runInfo, [], false)
    else
      match makeCallArgs.addArg rt isRunVMFunction runInfo args indexInReal with
      | .error r => .ok (r, [], false)
      | .ok (runInfo, args) => .ok (runInfo, args, false)

/-- The loop of the branch "function is not variadic and call is variadic":
the elements of the evaluated sequence become the remaining arguments. -/
def makeCallArgs.spread (rt : FuncType) (isRunVMFunction : Bool) :
    Nat → RunInfo → List Value → Nat → Nat → Outcome (RunInfo × List Value × Bool)
  | 0, runInfo, args, _, _ => .ok (runInfo, args, false)
  | k + 1, runInfo, args, indexInReal, indexSlice =>
    (runInfo.rv.Index indexSlice).bind fun x =>
    if isRunVMFunction then
      makeCallArgs.spread rt isRunVMFunction k runInfo (args ++ [.carrier x])
        (indexInReal + 1) (indexSlice + 1)
    else
      match convertReflectValueToType x (rt.In indexInReal) with
      | (rv, none) =>
        makeCallArgs.spread rt isRunVMFunction k { runInfo with rv := rv, err := none }
          (args ++ [rv]) (indexInReal + 1) (indexSlice + 1)
      | (rv, some _) =>
        .ok ({ runInfo with
          err := some (newStringError ("function wants argument type "
            ++ (rt.In indexInReal).String ++ " but received type " ++ rv.TypeOf.String)),
          rv := nilValue }, [], false)

/-- The loop of the branch "function is variadic and call is not variadic":
every remaining expression is evaluated and coerced to the element type. -/
def makeCallArgs.collect (ev : Eval) (rt : FuncType) (SubExprs : List Expr) (sliceType : GoType)
    (indexInReal : Nat) : Nat → RunInfo → List Value → Nat → Outcome (RunInfo × List Value × Bool)
  | 0, runInfo, args, indexExpr =>
    if indexExpr < SubExprs.length then .diverge else .ok (runInfo, args, false)
  | k + 1, runInfo, args, indexExpr =>
    if indexExpr < SubExprs.length then
      match SubExprs.get? indexExpr with
      | none => .panic "index out of range"
      | some e =>
        (ev.invokeExpr { runInfo with expr := some e }).bind fun runInfo =>
        if runInfo.err.isSome then .ok (runInfo, [], false)
        else
          match convertReflectValueToType runInfo.rv sliceType with
          | (rv, none) =>
            makeCallArgs.collect ev rt SubExprs sliceType indexInReal k
              { runInfo with rv := rv, err := none } (args ++ [rv]) (indexExpr + 1)
          | (rv, some _) =>
            .ok ({ runInfo with
              err := some (newStringError ("function wants argument type "
                ++ (rt.In indexInReal).String ++ " but received type " ++ rv.TypeOf.String)),
              rv := nilValue }, [], false)
    else .ok (runInfo, args, false)

/-- The short-circuit test of `makeCallArgs` for a wrong number of
arguments. -/
def makeCallArgs.wrongCount (rt : FuncType) (VarArg : Bool) (numIn numExprs : Nat) : Bool :=
  (!rt.IsVariadic && !VarArg && numIn != numExprs) ||
  (rt.IsVariadic && VarArg && (numIn < numExprs || numIn > numExprs + 1)) ||
  (rt.IsVariadic && !VarArg && numIn > numExprs + 1) ||
  (!rt.IsVariadic && VarArg && numIn < numExprs)

/-- The arguments of `makeCallArgs` once the counts are accepted: the part of
the function from `var args []reflect.Value` on. -/
def makeCallArgs.build (ev : Eval) (runInfo : RunInfo) (rt : FuncType) (isRunVMFunction : Bool)
    (SubExprs : List Expr) (VarArg : Bool) (hasRecv : Bool) (numIn : Nat) :
    Outcome (RunInfo × List Value × Bool) :=
  let numInReal := rt.NumIn
  let numExprs := SubExprs.length
  -- for runVMFunction first arg is always context
  let args : List Value :=
    if isRunVMFunction then (if hasRecv then [.ctx, runInfo.recv] else [.ctx]) else []
  let indexInReal := if isRunVMFunction then 1 else 0
  -- create arguments except the last one
  (makeCallArgs.loop ev rt isRunVMFunction SubExprs numExprs runInfo args 0 indexInReal 0).bind fun r =>
  match r with
  | .error runInfo => .ok (runInfo, [], false)
  | .ok (runInfo, args, indexIn, indexInReal, indexExpr) =>
    if !rt.IsVariadic && !VarArg then
      -- function is not variadic and call is not variadic
      makeCallArgs.lastArg ev rt isRunVMFunction SubExprs runInfo args indexInReal indexExpr
    else if !rt.IsVariadic && VarArg then
      -- function is not variadic and call is variadic
      match SubExprs.get? indexExpr with
      | none => .panic "index out of range"
      | some e =>
        (ev.invokeExpr { runInfo with expr := some e }).bind fun runInfo =>
        if runInfo.err.isSome then .ok (runInfo, [], false)
        else if runInfo.rv.kind != .slice && runInfo.rv.kind != .array then
          .ok ({ runInfo with
            err := some (newStringError ("call is variadic but last parameter is of type "
              ++ runInfo.rv.TypeOf.String)),
            rv := nilValue }, [], false)
        else if runInfo.rv.Len < numIn - indexIn then
          .ok ({ runInfo with
            err := some (newStringError ("function wants " ++ toString numIn
              ++ " arguments but received " ++ toString (numExprs + runInfo.rv.Len - 1))),
            rv := nilValue }, [], false)
        else
          makeCallArgs.spread rt isRunVMFunction (numInReal - indexInReal) runInfo args indexInReal 0
    else if indexExpr == numExprs then
      -- no more expressions, return what we have
      .ok (runInfo, args, false)
    else if numIn > numExprs then
      -- there are more arguments after this one
      makeCallArgs.lastArg ev rt isRunVMFunction SubExprs runInfo args indexInReal indexExpr
    else if rt.IsVariadic && !VarArg then
      -- function is variadic and call is not variadic
      makeCallArgs.collect ev rt SubExprs (rt.In (numInReal - 1)).Elem indexInReal
        (numExprs - indexExpr) runInfo args indexExpr
    else
      -- function is variadic and call is variadic
      let sliceType := rt.In (numInReal - 1)
      let sliceType :=
        if sliceType.kind == .interface && !runInfo.rv.IsNil then sliceType.Elem else sliceType
      match SubExprs.get? indexExpr with
      | none => .panic "index out of range"
      | some e =>
        (ev.invokeExpr { runInfo with expr := some e }).bind fun runInfo =>
        if runInfo.err.isSome then .ok (runInfo, [], false)
        else
          match convertReflectValueToType runInfo.rv sliceType with
          | (rv, none) => .ok ({ runInfo with rv := rv, err := none }, args ++ [rv], true)
          | (rv, some _) =>
            .ok ({ runInfo with
              err := some (newStringError ("function wants argument type "
                ++ (rt.In indexInReal).String ++ " but received type " ++ rv.TypeOf.String)),
              rv := nilValue }, [], false)

/-- The flag `hasRecv` of `makeCallArgs`: a receiver is pending and the second
parameter is a `vmStruct`. -/
def makeCallArgs.hasRecv (runInfo : RunInfo) (rt : FuncType) : Bool :=
  runInfo.recv.IsValid && rt.NumIn ≥ 2 && rt.In 1 == vmStructType

/-- The count `numIn` of `makeCallArgs`: the number of parameters the argument
expressions are counted against; for a `runVMFunction` the context, and the
receiver when there is one, do not count. -/
def makeCallArgs.numIn (rt : FuncType) (isRunVMFunction hasRecv : Bool) : Nat :=
  if isRunVMFunction then (if hasRecv then rt.NumIn - 1 - 1 else rt.NumIn - 1) else rt.NumIn

/-- The receiver of `makeCallArgs` wrapped as a `vmStruct` when it is not
one yet. -/
def makeCallArgs.wrapRecv (runInfo : RunInfo) (hasRecv : Bool) : RunInfo :=
  if hasRecv && runInfo.recv.TypeOf != vmStructType then
    { runInfo with recv := .vmStruct runInfo.recv }
  else runInfo

/-- Creates the argument slice for the four kinds of function call; the flag
tells whether `CallSlice` is to be used. A failure is reported in `err`. -/
def makeCallArgs (ev : Eval) (runInfo : RunInfo) (rt : FuncType) (isRunVMFunction : Bool)
    (SubExprs : List Expr) (VarArg : Bool) : Outcome (RunInfo × List Value × Bool) :=
  -- number of arguments
  let numInReal := rt.NumIn
  let hasRecv := makeCallArgs.hasRecv runInfo rt
  -- for runVMFunction the first arg is context so does not count against number of SubExprs
  let numIn := makeCallArgs.numIn rt isRunVMFunction hasRecv
  let runInfo := makeCallArgs.wrapRecv runInfo hasRecv
  if numIn < 1 then
    -- no arguments needed
    if isRunVMFunction then
      .ok (runInfo, if hasRecv then [.ctx, runInfo.recv] else [.ctx], false)
    else
      .ok (runInfo, [], false)
  else
    -- number of expressions
    let numExprs := SubExprs.length
    -- checks to short circuit wrong number of arguments
    if makeCallArgs.wrongCount rt VarArg numIn numExprs then
      .ok ({ runInfo with
        err := some (newStringError ("function wants " ++ toString numIn
          ++ " arguments but received " ++ toString numExprs)),
        rv := nilValue }, [], false)
    else if rt.IsVariadic && (rt.In (numInReal - 1)).kind != .slice
        && (rt.In (numInReal - 1)).kind != .array then
      .ok ({ runInfo with
        err := some (newStringError ("function is variadic but last parameter is of type "
          ++ (rt.In (numInReal - 1)).String)),
        rv := nilValue }, [], false)
    else
      makeCallArgs.build ev runInfo rt isRunVMFunction SubExprs VarArg hasRecv numIn

/-- The scan of `callExpr` over the returned values of a native function:
the index of the first value whose type is `error` or whose content is an
error. -/
def callExpr.firstError : List Value → Nat → Option Nat
  | [], _ => none
  | v :: rest, i =>
    if v.TypeOf == errorType || v.implementsError then some i
    else callExpr.firstError rest (i + 1)

/-- The work-around of `callExpr` that sets pointers back to VM variables:
for every argument expression `&ident` the pointee of the argument is
assigned to `ident`. -/
def callExpr.writeBack (ev : Eval) (args : List Value) :
    List Expr → Nat → RunInfo → Outcome RunInfo
  | [], _, runInfo => .ok runInfo
  | .AddrExpr (.IdentExpr lit) :: rest, i, runInfo =>
    match args.get? i with
    | none => .panic "index out of range"
    | some a =>
      (ev.invokeLetExpr { runInfo with rv := a.Elem, expr := some (.IdentExpr lit) }).bind fun r =>
      callExpr.writeBack ev args rest (i + 1) r
  | _ :: rest, i, runInfo => callExpr.writeBack ev args rest (i + 1) runInfo

/-- The function value of a call: the one the node holds or, when that is
not valid, the one its name is bound to; with the error of the lookup. -/
def callExpr.resolve (runInfo : RunInfo) (Func : Value) (Name : String) : Value × Option GoError :=
  if !Func.IsValid then runInfo.world.GetValue runInfo.env Name else (Func, runInfo.err)

/-- The part of `callExpr` from `var rvs []reflect.Value` on: the arguments
are made, the function is called, the error slot is recorded and the returned
values are converted. -/
def callExpr.invoke (ev : Eval) (runInfo : RunInfo) (f : Value) (fType : FuncType)
    (SubExprs : List Expr) (VarArg Go : Bool) : Outcome RunInfo :=
  -- check if this is a runVMFunction type
  let isRunVMFunction := checkIfRunVMFunction fType
  -- create/convert the args to the function
  (makeCallArgs ev runInfo fType isRunVMFunction SubExprs VarArg).bind fun (runInfo, args, useCallSlice) =>
  if runInfo.err.isSome then .ok runInfo
  else
    let runInfo := { runInfo with rv := nilValue }
    if Go then .ok runInfo
    else
      let rest : Outcome RunInfo :=
        ((if useCallSlice then ev.CallSlice else ev.Call) f args runInfo.world).bind fun (rvs, world) =>
        let runInfo := { runInfo with world := world }
        -- virtual functions already handle errors (included in the return)
        let runInfo :=
          if !isRunVMFunction then
            match callExpr.firstError rvs 0 with
            | some i => { runInfo with callErr := i }
            | none => runInfo
          else runInfo
        (if !isRunVMFunction then callExpr.writeBack ev args SubExprs 0 runInfo
          else .ok runInfo).bind fun runInfo =>
        -- processCallReturnValues to get/convert return values to normal rv form
        let (rv, err) := processCallReturnValues rvs isRunVMFunction true
        .ok { runInfo with rv := rv, err := err }
      match rest with
      | .panic msg => if !runInfo.options.Debug then .ok (recoverFunc runInfo msg) else .panic msg
      | r => r

/-- Handles a `CallExpr`, which calls a function. -/
def callExpr (ev : Eval) (runInfo : RunInfo) : Outcome RunInfo :=
  match runInfo.expr with
  | some (.CallExpr Func Name SubExprs VarArg Go) =>
    -- if function is not valid try to get by function name
    let (f, err) := callExpr.resolve runInfo Func Name
    if !Func.IsValid && err.isSome then
      .ok { runInfo with err := newError err, rv := nilValue }
    else
      let runInfo := { runInfo with err := err }
      let f := f.unwrapInterface
      match f with
      | .func fType _ => callExpr.invoke ev runInfo f fType SubExprs VarArg Go
      | _ =>
        if f.kind != .func then
          .ok { runInfo with err := some (newStringError ("cannot call type " ++ f.kind.toStr)),
                             rv := nilValue }
        else if !runInfo.options.Debug then
          .ok (recoverFunc { runInfo with rv := nilValue } "reflect: call of nil function")
        else .panic "reflect: call of nil function"
  | _ => .panic "interface conversion: ast.Expr is not *ast.CallExpr"

/-- The test `v.IsNil()`, which panics on a value that cannot be nil. -/
def Value.IsNilOrPanic (v : Value) : Outcome Bool :=
  if v.kind = .chan ∨ v.kind = .func ∨ v.kind = .interface ∨ v.kind = .map ∨ v.kind = .ptr
      ∨ v.kind = .slice then .ok v.IsNil
  else .panic "reflect: call of reflect.Value.IsNil on a value that cannot be nil"

/-- The loop of `handleError` that copies every element but the one at
`idx`. -/
def handleError.strip (idx : Nat) : List Value → Nat → List Value
  | [], _ => []
  | x :: rest, j => if j == idx then handleError.strip idx rest (j + 1)
      else x :: handleError.strip idx rest (j + 1)

/-- After an error-propagating call: raise the recorded error slot when it is
not nil, strip it from the result otherwise. -/
def handleError (ev : Eval) (runInfo : RunInfo) : Outcome RunInfo :=
  if runInfo.err.isNone && runInfo.callErr ≥ 0 && runInfo.rv.kind == .slice then
    let rv := runInfo.rv
    let idx := runInfo.callErr.toNat
    (rv.Index idx).bind fun v =>
    v.IsNilOrPanic.bind fun isNil =>
    if !isNil then
      ev.runSingleStmt { runInfo with stmt := some (.ThrowStmt (.LiteralExpr v)) }
    else if rv.Len - 1 == 1 then
      -- error can be the first or the second arg
      (rv.Index (rv.Len - idx - 1)).bind fun ns => .ok { runInfo with rv := ns }
    else
      match rv with
      | .slice t xs => .ok { runInfo with rv := .slice t (handleError.strip idx xs 0) }
      | .nil t => .ok { runInfo with rv := .slice t [] }
      | _ => .panic "reflect.MakeSlice of non-slice type"
  else .ok runInfo

/-- Handles a `CallErrExpr`: the call followed by `handleError`. -/
def callErrExpr (ev : Eval) (runInfo : RunInfo) : Outcome RunInfo :=
  match runInfo.expr with
  | some (.CallErrExpr Func Name SubExprs VarArg) =>
    (callExpr ev { runInfo with expr := some (.CallExpr Func Name SubExprs VarArg false) }).bind fun r =>
    handleError ev r
  | _ => .panic "interface conversion: ast.Expr is not *ast.CallErrExpr"

/-- Handles an `AnonCallExpr`, which calls a function anonymously. -/
def anonCallExpr (ev : Eval) (runInfo : RunInfo) : Outcome RunInfo :=
  match runInfo.expr with
  | some (.AnonCallExpr e SubExprs VarArg Go) =>
    (ev.invokeExpr { runInfo with expr := some e }).bind fun runInfo =>
    if runInfo.err.isSome then .ok runInfo
    else
      let runInfo := { runInfo with rv := runInfo.rv.unwrapInterface }
      if runInfo.rv.kind != .func then
        .ok { runInfo with err := some (newStringError ("cannot call type " ++ runInfo.rv.kind.toStr)),
                           rv := nilValue }
      else
        (ev.invokeExpr { runInfo with expr := some (.CallExpr runInfo.rv "" SubExprs VarArg Go) }).bind
          fun runInfo => .ok { runInfo with recv := zeroValue }
  | _ => .panic "interface conversion: ast.Expr is not *ast.AnonCallExpr"

/-- Handles an `AnonCallErrExpr`: the anonymous call followed by
`handleError`. -/
def anonCallErrExpr (ev : Eval) (runInfo : RunInfo) : Outcome RunInfo :=
  match runInfo.expr with
  | some (.AnonCallErrExpr e SubExprs VarArg) =>
    (anonCallExpr ev { runInfo with expr := some (.AnonCallExpr e SubExprs VarArg false) }).bind fun r =>
    handleError ev r
  | _ => .panic "interface conversion: ast.Expr is not *ast.AnonCallErrExpr"

/-- Bind the parameters of `runVMFunction` except the last one. -/
def runVMFunction.params : List String → List Value → RunInfo → Outcome RunInfo
  | [], _, runInfo => .ok runInfo
  | [_], _, runInfo => .ok runInfo
  | p :: q :: ps, ins, runInfo =>
    match ins with
    | [] => .panic "index out of range"
    | x :: xs =>
      x.uncarry.bind fun rv =>
      runVMFunction.params (q :: ps) xs
        { runInfo with rv := rv, world := (runInfo.world.DefineValue runInfo.env p rv).1 }

/-- The translator `funcExpr` hands to `reflect.MakeFunc`: it converts a
function call into a run of the function statements and returns the pair of
the value and the error of the run. -/
def runVMFunction (ev : Eval) (c : Closure) (ins : List Value) (world : World) :
    Outcome (List Value × World) :=
  match ins with
  | .ctx :: ins =>
    let (world, env) := world.NewEnv c.envFunc
    let runInfo : RunInfo :=
      { world := world, env := env, options := c.options, stmt := some c.Stmt, expr := none,
        rv := nilValue, err := none, callErr := 0, recv := zeroValue, vmTypes := c.vmTypes }
    let hasRecv := c.Recv != ""
    let start : Outcome (RunInfo × List Value) :=
      if hasRecv then
        -- is a method
        match ins with
        | .vmStruct v :: rest =>
          .ok ({ runInfo with rv := v, world := (runInfo.world.DefineValue runInfo.env "self" v).1 }, rest)
        | _ => .panic "interface conversion: interface is not *vm.vmStruct"
      else .ok (runInfo, ins)
    start.bind fun (runInfo, ins) =>
    -- add Params to newEnv, except last Params
    (runVMFunction.params c.Params ins runInfo).bind fun runInfo =>
    -- add last Params to newEnv
    let last : Outcome RunInfo :=
      match c.Params.getLast? with
      | none => .ok runInfo
      | some name =>
        match ins.get? (c.Params.length - 1) with
        | none => .panic "index out of range"
        | some x =>
          if c.VarArg then
            .ok { runInfo with rv := x, world := (runInfo.world.DefineValue runInfo.env name x).1 }
          else
            x.uncarry.bind fun rv =>
            .ok { runInfo with rv := rv, world := (runInfo.world.DefineValue runInfo.env name rv).1 }
    last.bind fun runInfo =>
    -- run function statements
    (ev.runSingleStmt runInfo).bind fun runInfo =>
    if runInfo.err.isSome && runInfo.err != some .ErrReturn then
      .ok ([reflectValueNilValue,
        match newError (newError runInfo.err) with
        | some e => .carrier (.error e)
        | none => reflectValueErrorNilValue], runInfo.world)
    else
      .ok ([.carrier runInfo.rv, reflectValueErrorNilValue], runInfo.world)
  | _ => .panic "interface conversion: interface is not context.Context"

/-- Handles a `FuncExpr`: creates a function that reflect `Call` can use and
defines it in the environment when it is named and has no receiver. -/
def funcExpr (runInfo : RunInfo) : Outcome (RunInfo × FuncType) :=
  match runInfo.expr with
  | some (.FuncExpr Name Recv Params VarArg body) =>
    let hasRecv := Recv != ""
    let ft := funcType Params.length hasRecv VarArg
    -- for adding env into saved function
    let c : Closure :=
      { Recv := Recv, Params := Params, VarArg := VarArg, Stmt := body, envFunc := runInfo.env,
        vmTypes := runInfo.vmTypes, options := runInfo.options }
    -- make the reflect.Value function that calls runVMFunction
    let rv := Value.func ft (.script runInfo.world.funcs.length)
    let world := { runInfo.world with funcs := runInfo.world.funcs ++ [c] }
    -- if function name is not empty, define it in the env
    let world := if Name != "" && Recv == "" then (world.DefineValue runInfo.env Name rv).1 else world
    .ok ({ runInfo with rv := rv, world := world }, ft)
  | _ => .panic "interface conversion: ast.Expr is not *ast.FuncExpr"

/-- Whether reflect accepts `v` for a parameter of type `t`. -/
def assignable (v : Value) (t : GoType) : Bool :=
  t == .iface || v.TypeOf == t || (t == .error && v.implementsError)

/-- Modelled from the spec: the vector a function of type `ft` receives from
`f.Call(args)` (`slice = false`) or `f.CallSlice(args)` (`slice = true`).
`Call` on a variadic function collects the trailing arguments into a slice of
the declared element type; `none` is the panic of reflect on a wrong number of
arguments or a trailing argument of the wrong type. -/
def reflectCall.inputs (slice : Bool) (ft : FuncType) (args : List Value) : Option (List Value) :=
  let n := ft.NumIn
  if ft.IsVariadic && !slice then
    if args.length < n - 1 then none
    else
      let tail := args.drop (n - 1)
      let elem := (ft.In (n - 1)).Elem
      if tail.all (fun a => assignable a elem) then
        some (args.take (n - 1) ++ [.slice elem (if elem == .iface then tail.map Value.toInterface else tail)])
      else none
  else if args.length != n then none
  else some args

/-- Modelled from the spec: reflected invocation `f.Call(args)` or
`f.CallSlice(args)`. A wrong number or type of arguments panics; a native
function is run by the host, a script function by `runVMFunction`. -/
def reflectCall (ev : Eval) (slice : Bool) (f : Value) (args : List Value) (world : World) :
    Outcome (List Value × World) :=
  match f with
  | .func ft ref =>
    let n := ft.NumIn
    match reflectCall.inputs slice ft args with
    | none => .panic "reflect: Call with wrong input arguments"
    | some ins =>
      if !(List.range (min n ins.length)).all (fun i => assignable (ins.getD i .invalid) (ft.In i)) then
        .panic "reflect: Call using wrong argument type"
      else
        match ref with
        | .native id =>
          match world.natives.get? id with
          | some impl =>
            match impl ins with
            | some rvs => .ok (rvs, world)
            | none => .panic "host function panicked"
          | none => .panic "call of unknown function"
        | .script id =>
          match world.funcs.get? id with
          | some c => runVMFunction ev c ins world
          | none => .panic "call of unknown function"
  | _ => .panic "reflect: call of non-function"

/-! ## Expressions

`vmExpr.go` is outside the given sources. The dispatch below covers the
expression kinds whose handlers are in `vmExprFunction.go` and the few other
kinds the statements of this development use. -/

/-- Modelled from the spec: a binary operator demands both operands numeric
after unwrap (or both strings for `+`), otherwise it is a type error. -/
def binaryOp (op : String) (a b : Value) : Value × Option GoError :=
  match a.unwrapInterface, b.unwrapInterface with
  | .int x, .int y =>
    if op == "+" then (.int (x + y), none)
    else if op == "-" then (.int (x - y), none)
    else if op == "*" then (.int (x * y), none)
    else if op == "<" then (.bool (x < y), none)
    else if op == "==" then (.bool (x == y), none)
    else (nilValue, some (newStringError "unknown operator"))
  | .str x, .str y =>
    if op == "+" then (.str (x ++ y), none)
    else if op == "==" then (.bool (x == y), none)
    else (nilValue, some (newStringError "unknown operator"))
  | _, _ => (nilValue, some (newStringError "invalid operation"))

/-- Modelled from the spec: `invokeExpr` dispatches on the expression kind,
leaves the value in `rv` and the failure in `err`, and never moves the
environment pointer. A literal is its value; an identifier is looked up; a
member reads a binding of an environment value; an operator evaluates both
sides left to right; address-of makes a one-cell reference; function and
call expressions go to their handlers. -/
def invokeExpr (ev : Eval) (runInfo : RunInfo) : Outcome RunInfo :=
  match runInfo.expr with
  | some (.LiteralExpr v) => .ok { runInfo with rv := v }
  | some (.IdentExpr lit) =>
    match runInfo.world.GetValue runInfo.env lit with
    | (v, none) => .ok { runInfo with rv := v }
    | (_, some e) => .ok { runInfo with rv := nilValue, err := newError (some e) }
  | some (.MemberExpr e name) =>
    (ev.invokeExpr { runInfo with expr := some e }).bind fun r =>
    if r.err.isSome then .ok r
    else
      match r.rv.unwrapInterface with
      | .env p =>
        match r.world.GetValue p name with
        | (v, none) => .ok { r with rv := v }
        | (_, some e) => .ok { r with rv := nilValue, err := newError (some e) }
      | _ => .ok { r with rv := nilValue, err := some (newStringError ("no member named '" ++ name ++ "'")) }
  | some (.OpExpr lhs op rhs) =>
    (ev.invokeExpr { runInfo with expr := some lhs }).bind fun r1 =>
    if r1.err.isSome then .ok r1
    else
      (ev.invokeExpr { r1 with expr := some rhs }).bind fun r2 =>
      if r2.err.isSome then .ok r2
      else
        let (v, err) := binaryOp op r1.rv r2.rv
        .ok { r2 with rv := v, err := err }
  | some (.AddrExpr e) =>
    (ev.invokeExpr { runInfo with expr := some e }).bind fun r =>
    if r.err.isSome then .ok r else .ok { r with rv := .ptr r.rv }
  | some (.FuncExpr _ _ _ _ _) => (funcExpr runInfo).bind fun (r, _) => .ok r
  | some (.CallExpr _ _ _ _ _) => callExpr ev runInfo
  | some (.CallErrExpr _ _ _ _) => callErrExpr ev runInfo
  | some (.AnonCallExpr _ _ _ _) => anonCallExpr ev runInfo
  | some (.AnonCallErrExpr _ _ _) => anonCallErrExpr ev runInfo
  | none => .ok { runInfo with rv := nilValue, err := some (newStringError "unknown expression") }

/-- Modelled from the spec: `invokeLetExpr` writes `rv` to an assignable
expression. An identifier is assigned in the nearest frame that binds it and,
when no frame does, bound in the innermost frame. Other targets are not
modelled and fail. -/
def invokeLetExpr (_ev : Eval) (runInfo : RunInfo) : Outcome RunInfo :=
  match runInfo.expr with
  | some (.IdentExpr lit) =>
    match runInfo.world.SetValue runInfo.env lit runInfo.rv with
    | (w, none) => .ok { runInfo with world := w }
    | (_, some _) =>
      .ok { runInfo with world := (runInfo.world.DefineValue runInfo.env lit runInfo.rv).1, err := none }
  | _ => .ok { runInfo with rv := nilValue, err := some (newStringError "invalid operation") }

/-! ## vmStmt.go -/

/-- The statement sequence loop: `break`, `continue` and `return` are
recognised structurally. -/
def runStmtsStmt (ev : Eval) : List Stmt → RunInfo → Outcome RunInfo
  | [], runInfo => .ok runInfo
  | .BreakStmt :: _, runInfo => .ok { runInfo with err := some .ErrBreak }
  | .ContinueStmt :: _, runInfo => .ok { runInfo with err := some .ErrContinue }
  | .ReturnStmt es :: _, runInfo =>
    (ev.runSingleStmt { runInfo with stmt := some (.ReturnStmt es) }).bind fun runInfo =>
    if runInfo.err.isSome then .ok runInfo
    else .ok { runInfo with err := some .ErrReturn }
  | s :: rest, runInfo =>
    (ev.runSingleStmt { runInfo with stmt := some s }).bind fun runInfo =>
    if runInfo.err.isSome then .ok runInfo
    else runStmtsStmt ev rest runInfo

/-- Last index of a byte in a string, `-1` when it does not occur. -/
def lastIndexByte (c : Char) : List Char → Int → Int → Int
  | [], _, acc => acc
  | x :: xs, i, acc => lastIndexByte c xs (i + 1) (if x == c then i else acc)

/-- The operators of the multiply class of the grammar. -/
def isMultiplyOperator (op : String) : Bool :=
  op == "*" || op == "/" || op == "%" || op == ">>" || op == "<<" || op == "&"

/-- The import name read off the expression: members and operators are
joined into a path. A literal gives the empty name, since a `reflect.Value`
only compares equal to `reflect.ValueOf("")` when it is the empty string. -/
def getNameFromExpr : Expr → Outcome String
  | .MemberExpr e name => (getNameFromExpr e).bind fun n => .ok (n ++ "/" ++ name)
  | .IdentExpr lit => .ok lit
  | .LiteralExpr _ => .ok ""
  | .OpExpr lhs op rhs =>
    if isMultiplyOperator op then
      (getNameFromExpr lhs).bind fun l => (getNameFromExpr rhs).bind fun r => .ok (l ++ op ++ r)
    else .panic "interface conversion: ast.Operator is not *ast.MultiplyOperator"
  | _ => .ok ""

/-- Define every entry of a registry table in frame `p`; the first failure
stops the loop. -/
def defineAll {α : Type} (def1 : World → Nat → String → α → World × Option GoError) (p : Nat) :
    List (String × α) → World → World × Option GoError
  | [], w => (w, none)
  | (k, v) :: rest, w =>
    match def1 w p k v with
    | (w1, none) => defineAll def1 p rest w1
    | (w1, some e) => (w1, some e)

/-- The `ImportStmt` case of `runSingleStmt`. -/
def runImportStmt (ev : Eval) (runInfo : RunInfo) (Name : Expr) (As : String) (Local : Bool) :
    Outcome RunInfo :=
  (getNameFromExpr Name).bind fun name =>
  let named : Outcome (Except RunInfo (RunInfo × String)) :=
    if name.length == 0 then
      (ev.invokeExpr { runInfo with expr := some Name }).bind fun r =>
      if r.err.isSome then .ok (.error { r with rv := nilValue })
      else
        match convertReflectValueToType r.rv stringType with
        | (_, some e) => .ok (.error { r with rv := nilValue, err := some e })
        | (.str s, none) => .ok (.ok ({ r with rv := .str s, err := none }, s))
        | (v, none) => .ok (.ok ({ r with rv := v, err := none }, ""))
    else .ok (.ok (runInfo, name))
  named.bind fun x =>
  match x with
  | .error r => .ok r
  | .ok (runInfo, name) =>
    let runInfo := { runInfo with rv := nilValue }
    if name.length == 0 then
      .ok { runInfo with err := some (newStringError "cannot read import name") }
    else
      let asv :=
        if As.length == 0 then
          if lastIndexByte '.' name.toList 0 (-1) > 0 then
            String.mk (name.toList.drop ((lastIndexByte '.' name.toList 0 (-1)).toNat + 1))
          else if lastIndexByte '/' name.toList 0 (-1) > 0 then
            String.mk (name.toList.drop ((lastIndexByte '/' name.toList 0 (-1)).toNat + 1))
          else name
        else As
      if Local then
        match (runInfo.world.envs.get? runInfo.env).bind (fun f => f.Import) with
        | none => .ok { runInfo with err := some (newStringError "cannot import local packages") }
        | some imp =>
          match imp name with
          | .pack values =>
            let pack := runInfo.world.envs.length
            let world := { runInfo.world with
              envs := runInfo.world.envs ++
                [({ values := values, types := [], parent := none, Import := some imp } : Frame)] }
            .ok { runInfo with world := (world.DefineValue runInfo.env asv (.env pack)).1, err := none }
          | .vmError text line =>
            .ok { runInfo with err := some (newStringError ("error executing " ++ name ++ ": '"
              ++ text ++ " at " ++ toString line ++ "'")) }
          | .parserError message line =>
            .ok { runInfo with err := some (newStringError ("error reading " ++ name ++ ": '"
              ++ message ++ " at " ++ toString line ++ "'")) }
          | .otherError =>
            .ok { runInfo with err := some (newStringError ("local package not found: " ++ name)) }
      else
        let methods := runInfo.world.Packages.lookup name
        let runInfo :=
          if methods.isNone then
            { runInfo with err := some (newStringError ("package not found: " ++ name)) }
          else runInfo
        let (world, pack) := runInfo.world.NewEnv runInfo.env
        match defineAll World.DefineValue pack (methods.getD []) world with
        | (world, some e) =>
          .ok { runInfo with world := world,
                             err := some (newStringError ("import DefineValue error: " ++ e.Error)) }
        | (world, none) =>
          match defineAll World.DefineReflectType pack ((runInfo.world.PackageTypes.lookup name).getD []) world with
          | (world, some e) =>
            .ok { runInfo with world := world,
                               err := some (newStringError ("import DefineReflectType error: " ++ e.Error)) }
          | (world, none) =>
            .ok { runInfo with world := (world.DefineValue runInfo.env asv (.env pack)).1 }

/-- Modelled from the spec: `makeType` builds a type descriptor from the
field list; a field type is a built-in name or a type the environment
binds. -/
def makeType (runInfo : RunInfo) (name : String) : List (String × String) → RunInfo × Option GoType
  | [] => (runInfo, some (.other name .struct))
  | (_, t) :: rest =>
    if t == "int64" || t == "string" || t == "bool" || t == "error" || t == "interface"
        || (runInfo.world.findType t (runInfo.world.envs.length + 1) runInfo.env).isSome then
      makeType runInfo name rest
    else ({ runInfo with err := some (newStringError ("undefined type '" ++ t ++ "'")) }, none)

/-- The `StructStmt` case of `runSingleStmt`. -/
def runStructStmt (runInfo : RunInfo) (Name : String) (Body : List (String × String)) : Outcome RunInfo :=
  match makeType runInfo Name Body with
  | (runInfo, t) =>
    if runInfo.err.isSome then .ok { runInfo with rv := nilValue }
    else
      match t with
      | none => .ok { runInfo with err := some (newStringError "cannot make type nil"), rv := nilValue }
      | some t =>
        .ok { runInfo with vmTypes := runInfo.vmTypes ++ [Name],
                           world := (runInfo.world.DefineReflectType runInfo.env Name t).1,
                           rv := nilValue }

/-- The environment held by a value, when `v.Interface()` is a `*env.Env`. -/
def Value.asEnv : Value → Option Nat
  | .env p => some p
  | .iface _ (.env p) => some p
  | _ => none

/-- The loop of `VarStmt` and `LetsStmt` that gets the right side values; an
environment value is deep-copied. -/
def evalRightSide (ev : Eval) : List Expr → RunInfo → List Value →
    Outcome (Except RunInfo (RunInfo × List Value))
  | [], runInfo, rvs => .ok (.ok (runInfo, rvs))
  | e :: es, runInfo, rvs =>
    (ev.invokeExpr { runInfo with expr := some e }).bind fun runInfo =>
    if runInfo.err.isSome then .ok (.error runInfo)
    else
      match runInfo.rv.asEnv with
      | some p =>
        let (w, q) := runInfo.world.DeepCopy p
        evalRightSide ev es { runInfo with world := w } (rvs ++ [.env q])
      | none => evalRightSide ev es runInfo (rvs ++ [runInfo.rv])

/-- Define name `i` as value `i`, for every index both lists have. -/
def defineEach (p : Nat) : List String → List Value → World → World
  | n :: ns, v :: vs, w => defineEach p ns vs (w.DefineValue p n v).1
  | _, _, w => w

/-- The `VarStmt` case of `runSingleStmt`. -/
def runVarStmt (ev : Eval) (runInfo : RunInfo) (Names : List String) (Exprs : List Expr) :
    Outcome RunInfo :=
  -- get right side expression values
  (evalRightSide ev Exprs runInfo []).bind fun x =>
  match x with
  | .error r => .ok r
  | .ok (runInfo, rvs) =>
    if Names.length < rvs.length then
      .ok { runInfo with err := some (newStringError "Unassigned right values") }
    else
      let value := (rvs.headD nilValue).unwrapInterface
      if rvs.length == 1 && Names.length > 1
          && (value.kind == .slice || value.kind == .array) && value.Len > 0 then
        -- value is slice/array, add each value to left side names
        match value with
        | .slice _ xs =>
          .ok { runInfo with world := defineEach runInfo.env Names xs runInfo.world,
                             rv := xs.getLastD nilValue }
        | _ => .panic "reflect: call of reflect.Value.Index on non-slice Value"
      else
        -- define all names with right side values
        let world := defineEach runInfo.env Names rvs runInfo.world
        -- return last right side value
        match rvs.getLast? with
        | some v => .ok { runInfo with world := world, rv := v }
        | none => .panic "index out of range"

/-- Invoke left side expression `i` with value `i`, for every index both
lists have; the first failure stops the loop. -/
def letEach (ev : Eval) (pick : Value → Outcome Value) : List Expr → List Value → RunInfo →
    Outcome (Except RunInfo RunInfo)
  | e :: es, v :: vs, runInfo =>
    (pick v).bind fun value =>
    (ev.invokeLetExpr { runInfo with rv := value, expr := some e }).bind fun runInfo =>
    if runInfo.err.isSome then .ok (.error runInfo)
    else letEach ev pick es vs runInfo
  | _, _, runInfo => .ok (.ok runInfo)

/-- The `LetsStmt` case of `runSingleStmt`. -/
def runLetsStmt (ev : Eval) (runInfo : RunInfo) (LHSS RHSS : List Expr) (Unpack : Bool) :
    Outcome RunInfo :=
  (evalRightSide ev RHSS runInfo []).bind fun x =>
  match x with
  | .error r => .ok r
  | .ok (runInfo, rvs) =>
    -- can't check on the parser
    if !Unpack && LHSS.length < rvs.length then
      .ok { runInfo with err := some (newStringError "Unassigned right values") }
    else
      let value := (rvs.headD nilValue).unwrapInterface
      if rvs.length == 1 && LHSS.length > 1
          && (value.kind == .slice || value.kind == .array) && value.Len > 0 then
        match value with
        | .slice _ xs =>
          (letEach ev Outcome.ok LHSS xs runInfo).bind fun y =>
          match y with
          | .error r => .ok r
          | .ok runInfo => .ok { runInfo with rv := xs.getLastD nilValue }
        | _ => .panic "reflect: call of reflect.Value.Index on non-slice Value"
      else
        let pick : Value → Outcome Value := fun v =>
          let value := v.unwrapInterface
          if Unpack && value.kind == .slice then value.Index 0 else .ok value
        (letEach ev pick LHSS rvs runInfo).bind fun y =>
        match y with
        | .error r => .ok r
        | .ok runInfo =>
          match rvs.getLast? with
          | some v => .ok { runInfo with rv := v }
          | none => .panic "index out of range"

/-- The loop of `LetMapItemStmt` over the left side expressions. -/
def runLetMapItemStmt.loop (ev : Eval) (rvs : List Value) : List Expr → Nat → RunInfo →
    Outcome (Except RunInfo RunInfo)
  | [], _, runInfo => .ok (.ok runInfo)
  | e :: es, i, runInfo =>
    match rvs.get? i with
    | none => .panic "index out of range"
    | some v =>
      (ev.invokeLetExpr { runInfo with expr := some e, rv := v.unwrapInterface }).bind fun runInfo =>
      if runInfo.err.isSome then .ok (.error runInfo)
      else runLetMapItemStmt.loop ev rvs es (i + 1) runInfo

/-- The `LetMapItemStmt` case of `runSingleStmt`. -/
def runLetMapItemStmt (ev : Eval) (runInfo : RunInfo) (LHSS : List Expr) (RHS : Expr) :
    Outcome RunInfo :=
  (ev.invokeExpr { runInfo with expr := some RHS }).bind fun runInfo =>
  if runInfo.err.isSome then .ok runInfo
  else
    let rvs := if isNil runInfo.rv then [nilValue, falseValue] else [runInfo.rv, trueValue]
    (runLetMapItemStmt.loop ev rvs LHSS 0 runInfo).bind fun y =>
    match y with
    | .error r => .ok r
    | .ok runInfo => .ok { runInfo with rv := rvs.headD nilValue }

/-- The loop of `IfStmt` over the `else if` parts; `none` means that no
condition held. -/
def runIfStmt.elseIf (ev : Eval) (env : Nat) : List (Expr × Stmt) → RunInfo →
    Outcome (Except RunInfo RunInfo)
  | [], runInfo => .ok (.ok runInfo)
  | (cond, thenStmt) :: rest, runInfo =>
    -- else if - if
    let (world, child) := runInfo.world.NewEnv env
    (ev.invokeExpr { runInfo with world := world, env := child, expr := some cond }).bind fun runInfo =>
    if runInfo.err.isSome then .ok (.error { runInfo with env := env })
    else if !toBool runInfo.world runInfo.rv then runIfStmt.elseIf ev env rest runInfo
    else
      -- else if - then
      let (world, child) := runInfo.world.NewEnv env
      (ev.runSingleStmt { runInfo with rv := nilValue, stmt := some thenStmt, world := world,
                                       env := child }).bind fun runInfo =>
      .ok (.error { runInfo with env := env })

/-- The `IfStmt` case of `runSingleStmt`. -/
def runIfStmt (ev : Eval) (runInfo : RunInfo) (If : Expr) (Then : Stmt) (ElseIf : List (Expr × Stmt))
    (Else : Option Stmt) : Outcome RunInfo :=
  -- if
  (ev.invokeExpr { runInfo with expr := some If }).bind fun runInfo =>
  if runInfo.err.isSome then .ok runInfo
  else
    let env := runInfo.env
    if toBool runInfo.world runInfo.rv then
      -- then
      let (world, child) := runInfo.world.NewEnv env
      (ev.runSingleStmt { runInfo with rv := nilValue, stmt := some Then, world := world,
                                       env := child }).bind fun runInfo =>
      .ok { runInfo with env := env }
    else
      (runIfStmt.elseIf ev env ElseIf runInfo).bind fun y =>
      match y with
      | .error r => .ok r
      | .ok runInfo =>
        match Else with
        | some els =>
          -- else
          let (world, child) := runInfo.world.NewEnv env
          (ev.runSingleStmt { runInfo with rv := nilValue, stmt := some els, world := world,
                                           env := child }).bind fun runInfo =>
          .ok { runInfo with env := env }
        | none => .ok { runInfo with env := env }

/-- The `TryStmt` case of `runSingleStmt`: only the try statement ignores
any error except `ErrInterrupt`; all other parts return the error. -/
def runTryStmt (ev : Eval) (runInfo : RunInfo) (Try : Stmt) (Var : String) (Catch : Option Stmt)
    (Finally : Option Stmt) : Outcome RunInfo :=
  let env := runInfo.env
  let (world, child) := runInfo.world.NewEnv env
  (ev.runSingleStmt { runInfo with world := world, env := child, stmt := some Try }).bind fun runInfo =>
  let caught : Outcome (Except RunInfo RunInfo) :=
    match runInfo.err with
    | some e =>
      if e = .ErrInterrupt then .ok (.error { runInfo with env := env })
      else
        -- Catch
        let runInfo := { runInfo with stmt := Catch }
        let runInfo :=
          if Var != "" then
            { runInfo with world := (runInfo.world.DefineValue runInfo.env Var (.error e)).1 }
          else runInfo
        (ev.runSingleStmt { runInfo with err := none }).bind fun runInfo =>
        if runInfo.err.isSome then .ok (.error { runInfo with env := env })
        else .ok (.ok runInfo)
    | none => .ok (.ok runInfo)
  caught.bind fun y =>
  match y with
  | .error r => .ok r
  | .ok runInfo =>
    match Finally with
    | some fin =>
      -- Finally
      (ev.runSingleStmt { runInfo with stmt := some fin }).bind fun runInfo =>
      .ok { runInfo with env := env }
    | none => .ok { runInfo with env := env }

/-- What a loop does with the error its body left: go on with the next
iteration, return from the statement, or leave the loop. -/
inductive LoopStep where
  | next (runInfo : RunInfo)
  | ret (runInfo : RunInfo)
  | brk (runInfo : RunInfo)

/-- The error handling after the body of a loop: `ErrContinue` is cleared
and the loop goes on, `ErrReturn` returns with the environment restored,
`ErrBreak` is cleared and the loop is left, any other error leaves the loop. -/
def afterBody (env : Nat) (runInfo : RunInfo) : LoopStep :=
  match runInfo.err with
  | none => .next runInfo
  | some e =>
    if e = .ErrContinue then .next { runInfo with err := none }
    else if e = .ErrReturn then .ret { runInfo with env := env }
    else if e = .ErrBreak then .brk { runInfo with err := none }
    else .brk runInfo

/-- The `for { }` of `LoopStmt`. -/
def runLoopStmt.loop (ev : Eval) (env : Nat) (cond : Option Expr) (body : Stmt) :
    Nat → RunInfo → Outcome RunInfo
  | 0, _ => .diverge
  | k + 1, runInfo =>
    if runInfo.world.Done then
      .ok { runInfo with err := some .ErrInterrupt, rv := nilValue, env := env }
    else
      let runInfo := { runInfo with world := runInfo.world.poll }
      let test : Outcome (Bool × RunInfo) :=
        match cond with
        | some e =>
          (ev.invokeExpr { runInfo with expr := some e }).bind fun r =>
          if r.err.isSome then .ok (false, r)
          else if !toBool r.world r.rv then .ok (false, r)
          else .ok (true, r)
        | none => .ok (true, runInfo)
      test.bind fun (go, runInfo) =>
      if !go then .ok { runInfo with rv := nilValue, env := env }
      else
        (ev.runSingleStmt { runInfo with stmt := some body }).bind fun runInfo =>
        match afterBody env runInfo with
        | .next r => runLoopStmt.loop ev env cond body k r
        | .ret r => .ok r
        | .brk r => .ok { r with rv := nilValue, env := env }

/-- The `LoopStmt` case of `runSingleStmt`. -/
def runLoopStmt (ev : Eval) (runInfo : RunInfo) (cond : Option Expr) (body : Stmt) : Outcome RunInfo :=
  let env := runInfo.env
  let (world, child) := runInfo.world.NewEnv env
  runLoopStmt.loop ev env cond body ev.fuel { runInfo with world := world, env := child }

/-- The lookup `m.MapIndex(key)`: the value stored under a key, the zero Value when
there is none. -/
def MapIndex (w : World) (mapId : Nat) (key : Value) : Value :=
  match (w.maps.getD mapId []).find? (fun kv => Value.same kv.1 key) with
  | some kv => kv.2
  | none => .invalid

/-- Run the body of a for-in loop with the loop variables just defined. -/
def runForStmt.body (ev : Eval) (env : Nat) (body : Stmt) (runInfo : RunInfo) : Outcome LoopStep :=
  (ev.runSingleStmt { runInfo with stmt := some body }).bind fun runInfo =>
  .ok (afterBody env runInfo)

/-- The value `reflect.ValueOf(vi)` of an `interface{}` result: its dynamic content. -/
def Value.ofInterface : Value → Value
  | .nil _ => .invalid
  | .iface _ v => v
  | v => v

/-- The loop of `ForStmt` over a host value with the Index capability. The
list holds the items from index `i` on. -/
def runForStmt.index (ev : Eval) (env : Nat) (var : String) (body : Stmt) (failAt : Option Nat) :
    List Value → Nat → RunInfo → Outcome RunInfo
  | [], _, runInfo => .ok { runInfo with rv := nilValue, env := env }
  | x :: rest, i, runInfo =>
    if runInfo.world.Done then
      .ok { runInfo with err := some .ErrInterrupt, rv := nilValue, env := env }
    else
      let runInfo := { runInfo with world := runInfo.world.poll }
      if failAt = some i then
        .ok { runInfo with err := newError (some (.host "index failed")) }
      else
        let iv := x.ofInterface.unwrapInterface
        let runInfo := { runInfo with world := (runInfo.world.DefineValue runInfo.env var iv).1 }
        (runForStmt.body ev env body runInfo).bind fun step =>
        match step with
        | .next r => runForStmt.index ev env var body failAt rest (i + 1) r
        | .ret r => .ok r
        | .brk r => .ok { r with rv := nilValue, env := env }

/-- The loop of `ForStmt` over a slice or array. -/
def runForStmt.slice (ev : Eval) (env : Nat) (var : String) (body : Stmt) :
    List Value → RunInfo → Outcome RunInfo
  | [], runInfo => .ok { runInfo with rv := nilValue, env := env }
  | x :: rest, runInfo =>
    if runInfo.world.Done then
      .ok { runInfo with err := some .ErrInterrupt, rv := nilValue, env := env }
    else
      let runInfo := { runInfo with world := runInfo.world.poll }
      let iv := x.unwrapInterface
      let iv := if iv.kind == .ptr then iv.Elem else iv
      let runInfo := { runInfo with world := (runInfo.world.DefineValue runInfo.env var iv).1 }
      (runForStmt.body ev env body runInfo).bind fun step =>
      match step with
      | .next r => runForStmt.slice ev env var body rest r
      | .ret r => .ok r
      | .brk r => .ok { r with rv := nilValue, env := env }

/-- The loop of `ForStmt` over the keys of a map; the value of a key is read
from the map when its iteration starts. -/
def runForStmt.map (ev : Eval) (env : Nat) (Vars : List String) (var : String) (body : Stmt)
    (mapId : Nat) : List (Value × Value) → RunInfo → Outcome RunInfo
  | [], runInfo => .ok { runInfo with rv := nilValue, env := env }
  | (key, _) :: rest, runInfo =>
    if runInfo.world.Done then
      .ok { runInfo with err := some .ErrInterrupt, rv := nilValue, env := env }
    else
      let runInfo := { runInfo with world := runInfo.world.poll }
      let runInfo := { runInfo with world := (runInfo.world.DefineValue runInfo.env var key).1 }
      let runInfo :=
        match Vars with
        | _ :: second :: _ =>
          { runInfo with world := (runInfo.world.DefineValue runInfo.env second
              (MapIndex runInfo.world mapId key)).1 }
        | _ => runInfo
      (runForStmt.body ev env body runInfo).bind fun step =>
      match step with
      | .next r => runForStmt.map ev env Vars var body mapId rest r
      | .ret r => .ok r
      | .brk r => .ok { r with rv := nilValue, env := env }

/-- The loop of `ForStmt` over a channel. Each iteration takes the outcome
of its select from `world.selects`; the loop blocks when there is none. -/
def runForStmt.chan (ev : Eval) (env : Nat) (var : String) (body : Stmt) :
    Nat → RunInfo → Outcome RunInfo
  | 0, _ => .diverge
  | k + 1, runInfo =>
    match runInfo.world.selects with
    | [] => .diverge
    | .cancelled :: sel =>
      .ok { runInfo with world := { runInfo.world with selects := sel },
                         err := some .ErrInterrupt, rv := nilValue, env := env }
    | .closed :: sel =>
      .ok { runInfo with world := { runInfo.world with selects := sel }, rv := nilValue, env := env }
    | .received v :: sel =>
      let rv := v.unwrapInterface
      let rv := if rv.kind == .ptr then rv.Elem else rv
      let world := { runInfo.world with selects := sel }
      let runInfo := { runInfo with rv := rv, world := (world.DefineValue runInfo.env var rv).1 }
      (runForStmt.body ev env body runInfo).bind fun step =>
      match step with
      | .next r => runForStmt.chan ev env var body k r
      | .ret r => .ok r
      | .brk r => .ok { r with rv := nilValue, env := env }

/-- The `ForStmt` case of `runSingleStmt`. -/
def runForStmt (ev : Eval) (runInfo : RunInfo) (Vars : List String) (Value : Expr) (body : Stmt) :
    Outcome RunInfo :=
  (ev.invokeExpr { runInfo with expr := some Value }).bind fun runInfo =>
  if runInfo.err.isSome then .ok runInfo
  else
    let value := runInfo.rv.unwrapInterface
    let env := runInfo.env
    let (world, child) := runInfo.world.NewEnv env
    let runInfo := { runInfo with world := world, env := child }
    match value with
    | .invalid => .panic "reflect: call of reflect.Value.Type on zero Value"
    | .index items failAt =>
      match Vars with
      | var :: _ => runForStmt.index ev env var body failAt items 0 runInfo
      | [] => if items.isEmpty then .ok { runInfo with rv := nilValue, env := env }
              else .panic "index out of range"
    | .slice _ xs =>
      match Vars with
      | var :: _ => runForStmt.slice ev env var body xs runInfo
      | [] => if xs.isEmpty then .ok { runInfo with rv := nilValue, env := env }
              else .panic "index out of range"
    | .map _ _ id =>
      -- keys := value.MapKeys()
      match Vars with
      | var :: _ => runForStmt.map ev env Vars var body id (runInfo.world.maps.getD id []) runInfo
      | [] => if (runInfo.world.maps.getD id []).isEmpty then .ok { runInfo with rv := nilValue, env := env }
              else .panic "index out of range"
    | .chan _ =>
      match Vars with
      | var :: _ => runForStmt.chan ev env var body ev.fuel runInfo
      | [] => .panic "index out of range"
    | _ =>
      if value.kind == .slice || value.kind == .map then
        .ok { runInfo with rv := nilValue, env := env }
      else if value.kind == .chan then
        -- a nil channel is never ready
        match runInfo.world.selects with
        | .cancelled :: sel =>
          .ok { runInfo with world := { runInfo.world with selects := sel },
                             err := some .ErrInterrupt, rv := nilValue, env := env }
        | _ => .diverge
      else
        .ok { runInfo with err := some (newStringError ("for cannot loop over type " ++ value.kind.toStr)),
                           rv := nilValue, env := env }

/-- The `for { }` of `CForStmt`. -/
def runCForStmt.loop (ev : Eval) (env : Nat) (Expr2 Expr3 : Option Expr) (body : Stmt) :
    Nat → RunInfo → Outcome RunInfo
  | 0, _ => .diverge
  | k + 1, runInfo =>
    if runInfo.world.Done then
      .ok { runInfo with err := some .ErrInterrupt, rv := nilValue, env := env }
    else
      let runInfo := { runInfo with world := runInfo.world.poll }
      let test : Outcome (Bool × RunInfo) :=
        match Expr2 with
        | some e =>
          (ev.invokeExpr { runInfo with expr := some e }).bind fun r =>
          if r.err.isSome then .ok (false, r)
          else if !toBool r.world r.rv then .ok (false, r)
          else .ok (true, r)
        | none => .ok (true, runInfo)
      test.bind fun (go, runInfo) =>
      if !go then .ok { runInfo with rv := nilValue, env := env }
      else
        (ev.runSingleStmt { runInfo with stmt := some body }).bind fun runInfo =>
        let runInfo := if runInfo.err = some .ErrContinue then { runInfo with err := none } else runInfo
        match runInfo.err with
        | some e =>
          if e = .ErrReturn then .ok { runInfo with env := env }
          else if e = .ErrBreak then .ok { runInfo with err := none, rv := nilValue, env := env }
          else .ok { runInfo with rv := nilValue, env := env }
        | none =>
          match Expr3 with
          | some e =>
            (ev.invokeExpr { runInfo with expr := some e }).bind fun r =>
            if r.err.isSome then .ok { r with rv := nilValue, env := env }
            else runCForStmt.loop ev env Expr2 Expr3 body k r
          | none => runCForStmt.loop ev env Expr2 Expr3 body k runInfo

/-- The `CForStmt` case of `runSingleStmt`. -/
def runCForStmt (ev : Eval) (runInfo : RunInfo) (Stmt1 : Option Stmt) (Expr2 Expr3 : Option Expr)
    (body : Stmt) : Outcome RunInfo :=
  let env := runInfo.env
  let (world, child) := runInfo.world.NewEnv env
  let runInfo := { runInfo with world := world, env := child }
  let init : Outcome RunInfo :=
    match Stmt1 with
    | some s => ev.runSingleStmt { runInfo with stmt := some s }
    | none => .ok runInfo
  init.bind fun runInfo =>
  if Stmt1.isSome && runInfo.err.isSome then .ok { runInfo with env := env }
  else runCForStmt.loop ev env Expr2 Expr3 body ev.fuel runInfo

/-- The loop of `ReturnStmt` over several expressions. -/
def runReturnStmt.loop (ev : Eval) : List Expr → RunInfo → List Value →
    Outcome (Except RunInfo (RunInfo × List Value))
  | [], runInfo, rvs => .ok (.ok (runInfo, rvs))
  | e :: es, runInfo, rvs =>
    (ev.invokeExpr { runInfo with expr := some e }).bind fun runInfo =>
    if runInfo.err.isSome then .ok (.error runInfo)
    else runReturnStmt.loop ev es runInfo (rvs ++ [runInfo.rv.toInterface])

/-- The `ReturnStmt` case of `runSingleStmt`. -/
def runReturnStmt (ev : Eval) (runInfo : RunInfo) (Exprs : List Expr) : Outcome RunInfo :=
  match Exprs with
  | [] => .ok { runInfo with rv := nilValue }
  | [e] => ev.invokeExpr { runInfo with expr := some e }
  | _ =>
    (runReturnStmt.loop ev Exprs runInfo []).bind fun y =>
    match y with
    | .error r => .ok r
    | .ok (runInfo, rvs) => .ok { runInfo with rv := .slice .iface rvs }

mutual
/-- Whether the text `fmt.Sprint` gives a value is determined by the value
alone: a nil, a boolean, an integer, a string, an error, an interface
holding such a value, or a sequence of such values. -/
def Value.printable : Value → Bool
  | .nil _ => true
  | .iface _ v => v.printable
  | .bool _ => true
  | .int _ => true
  | .str _ => true
  | .error _ => true
  | .slice _ xs => Value.printableList xs
  | _ => false
termination_by structural v => v
/-- Whether every value of the list is printable. -/
def Value.printableList : List Value → Bool
  | [] => true
  | x :: xs => x.printable && Value.printableList xs
termination_by structural l => l
end

mutual
/-- The text `fmt.Sprint(v.Interface())` gives a printable value: a string is
itself, an integer its decimal form, a boolean `true` or `false`, an error its
message, a sequence the texts of its elements between brackets, separated by
a space, a nil slice `[]`, a nil map `map[]` and any other nil `<nil>`. On a
value that is not printable the result is not used. -/
def Value.Sprint : Value → String
  | .nil t =>
    if t.kind = .slice then "[]" else if t.kind = .map then "map[]" else "<nil>"
  | .iface _ v => v.Sprint
  | .bool b => if b then "true" else "false"
  | .int i => toString i
  | .str s => s
  | .error e => e.Error
  | .slice _ xs => "[" ++ " ".intercalate (Value.SprintList xs) ++ "]"
  | _ => ""
termination_by structural v => v
/-- The texts of the values of a list. -/
def Value.SprintList : List Value → List String
  | [] => []
  | x :: xs => x.Sprint :: Value.SprintList xs
termination_by structural l => l
end

/-- The coercion `fmt.Sprint(v.Interface())` of a value to a string. The text
of a printable value is `Value.Sprint`; the text of any other value is the one
the host gives (`World.format`). -/
def World.Sprint (w : World) (v : Value) : String :=
  if v.printable then v.Sprint else w.format w.envs w.maps v

/-- The `ThrowStmt` case of `runSingleStmt`. `Interface()` panics on the zero
`reflect.Value`. -/
def runThrowStmt (ev : Eval) (runInfo : RunInfo) (e : Expr) : Outcome RunInfo :=
  (ev.invokeExpr { runInfo with expr := some e }).bind fun runInfo =>
  if runInfo.err.isSome then .ok runInfo
  else if !runInfo.rv.IsValid then
    .panic "reflect: call of reflect.Value.Interface on zero Value"
  else .ok { runInfo with err := some (newStringError (runInfo.world.Sprint runInfo.rv)) }

/-- The `ModuleStmt` case of `runSingleStmt`. -/
def runModuleStmt (ev : Eval) (runInfo : RunInfo) (Name : String) (body : Stmt) : Outcome RunInfo :=
  let e := runInfo.env
  let (world, m, err) := runInfo.world.NewModule e Name
  let runInfo := { runInfo with world := world, env := m, err := err }
  if runInfo.err.isSome then .ok runInfo
  else
    (ev.runSingleStmt { runInfo with stmt := some body }).bind fun runInfo =>
    let runInfo := { runInfo with env := e }
    if runInfo.err.isSome then .ok runInfo
    else .ok { runInfo with rv := nilValue }

/-- The loop of `SwitchStmt` over the expressions of one case: `Except.error`
is the return of the statement, `true` a case that did not match. -/
def runSwitchStmt.exprs (ev : Eval) (env : Nat) (value : Value) (caseStmt : Stmt) :
    List Expr → RunInfo → Outcome (Except RunInfo RunInfo)
  | [], runInfo => .ok (.ok runInfo)
  | e :: es, runInfo =>
    (ev.invokeExpr { runInfo with expr := some e }).bind fun runInfo =>
    if runInfo.err.isSome then .ok (.error { runInfo with env := env })
    else if equal runInfo.world runInfo.rv value then
      (ev.runSingleStmt { runInfo with stmt := some caseStmt }).bind fun runInfo =>
      .ok (.error { runInfo with env := env })
    else runSwitchStmt.exprs ev env value caseStmt es runInfo

/-- The loop of `SwitchStmt` over the cases. -/
def runSwitchStmt.cases (ev : Eval) (env : Nat) (value : Value) :
    List (List Expr × Stmt) → RunInfo → Outcome (Except RunInfo RunInfo)
  | [], runInfo => .ok (.ok runInfo)
  | (exprs, caseStmt) :: rest, runInfo =>
    (runSwitchStmt.exprs ev env value caseStmt exprs runInfo).bind fun y =>
    match y with
    | .error r => .ok (.error r)
    | .ok runInfo => runSwitchStmt.cases ev env value rest runInfo

/-- The `SwitchStmt` case of `runSingleStmt`. -/
def runSwitchStmt (ev : Eval) (runInfo : RunInfo) (e : Expr) (Cases : List (List Expr × Stmt))
    (Default : Option Stmt) : Outcome RunInfo :=
  let env := runInfo.env
  let (world, child) := runInfo.world.NewEnv env
  (ev.invokeExpr { runInfo with world := world, env := child, expr := some e }).bind fun runInfo =>
  if runInfo.err.isSome then .ok { runInfo with env := env }
  else
    let value := runInfo.rv
    (runSwitchStmt.cases ev env value Cases runInfo).bind fun y =>
    match y with
    | .error r => .ok r
    | .ok runInfo =>
      match Default with
      | none => .ok { runInfo with rv := nilValue, env := env }
      | some d =>
        (ev.runSingleStmt { runInfo with stmt := some d }).bind fun runInfo =>
        .ok { runInfo with env := env }

/-- The `DeleteStmt` case of `runSingleStmt`. -/
def runDeleteStmt (ev : Eval) (runInfo : RunInfo) (Item : Expr) (Key : Option Expr) : Outcome RunInfo :=
  (ev.invokeExpr { runInfo with expr := some Item }).bind fun runInfo =>
  if runInfo.err.isSome then .ok runInfo
  else
    let item := runInfo.rv
    let keyed : Outcome RunInfo :=
      match Key with
      | some k => ev.invokeExpr { runInfo with expr := some k }
      | none => .ok runInfo
    keyed.bind fun runInfo =>
    if Key.isSome && runInfo.err.isSome then .ok runInfo
    else
      let item := item.unwrapInterface
      match item with
      | .str name =>
        if Key.isSome && runInfo.rv.kind == .bool && runInfo.rv.asBool then
          .ok { runInfo with world := runInfo.world.DeleteGlobal runInfo.env name, rv := nilValue }
        else
          .ok { runInfo with world := runInfo.world.Delete runInfo.env name, rv := nilValue }
      | .map keyType _ id =>
        if Key.isNone then
          .ok { runInfo with
            err := some (newStringError "second argument to delete cannot be nil for map"),
            rv := nilValue }
        else
          match convertReflectValueToType runInfo.rv keyType with
          | (rv, some _) =>
            .ok { runInfo with
              err := some (newStringError ("cannot use type " ++ keyType.String ++ " as type "
                ++ rv.TypeOf.String ++ " in delete")),
              rv := nilValue }
          | (rv, none) =>
            let entries := (runInfo.world.maps.getD id []).filter (fun kv => !Value.same kv.1 rv)
            .ok { runInfo with world := { runInfo.world with maps := runInfo.world.maps.set id entries },
                               err := none, rv := nilValue }
      | _ =>
        -- every value of kind string is a `str`
        if item.kind == .string then .panic "unreachable"
        else if item.kind == .map then
          if Key.isNone then
            .ok { runInfo with
              err := some (newStringError "second argument to delete cannot be nil for map"),
              rv := nilValue }
          else .ok { runInfo with rv := nilValue }
        else
          .ok { runInfo with
            err := some (newStringError ("first argument to delete cannot be type " ++ item.kind.toStr)),
            rv := nilValue }

/-- The `CloseStmt` case of `runSingleStmt`. -/
def runCloseStmt (ev : Eval) (runInfo : RunInfo) (e : Expr) : Outcome RunInfo :=
  (ev.invokeExpr { runInfo with expr := some e }).bind fun runInfo =>
  if runInfo.err.isSome then .ok runInfo
  else
    match runInfo.rv with
    | .chan id =>
      if runInfo.world.closed.contains id then .panic "close of closed channel"
      else
        .ok { runInfo with world := { runInfo.world with closed := id :: runInfo.world.closed },
                           rv := nilValue }
    | v =>
      if v.kind == .chan then .panic "close of nil channel"
      else
        .ok { runInfo with err := some (newStringError ("type cannot be " ++ v.kind.toStr ++ " for close")),
                           rv := nilValue }

/-- The `ChanStmt` case of `runSingleStmt`; the outcome of the select is
taken from `world.selects`, and the statement blocks when there is none. -/
def runChanStmt (ev : Eval) (runInfo : RunInfo) (LHS : Expr) (OkExpr : Option Expr) (RHS : Expr) :
    Outcome RunInfo :=
  (ev.invokeExpr { runInfo with expr := some RHS }).bind fun runInfo =>
  if runInfo.err.isSome then .ok runInfo
  else
    let runInfo := { runInfo with rv := runInfo.rv.unwrapInterface }
    if runInfo.rv.kind != .chan then
      -- rhs is not channel
      .ok { runInfo with err := some (newStringError ("receive from non-chan type " ++ runInfo.rv.kind.toStr)),
                         rv := nilValue }
    else
      -- rhs is channel, receive from rhs channel
      match runInfo.world.selects with
      | [] => .diverge
      | .cancelled :: sel =>
        .ok { runInfo with world := { runInfo.world with selects := sel },
                           err := some .ErrInterrupt, rv := nilValue }
      | outcome :: sel =>
        let (rhs, ok) : Value × Bool :=
          match outcome with
          | .received v => (v, true)
          | _ => (nilValue, false)
        let runInfo := { runInfo with world := { runInfo.world with selects := sel }, rv := rhs }
        let okSet : Outcome RunInfo :=
          match OkExpr with
          | some okExpr =>
            -- set ok to OkExpr
            ev.invokeLetExpr { runInfo with rv := if ok then trueValue else falseValue,
                                            expr := some okExpr }
          | none => .ok runInfo
        okSet.bind fun runInfo =>
        if ok then
          -- set rv to lhs
          ev.invokeLetExpr { runInfo with rv := rhs, expr := some LHS }
        else
          .ok { runInfo with rv := nilValue }

/-- Executes the statement in `runInfo.stmt`. -/
def runSingleStmt (ev : Eval) (runInfo : RunInfo) : Outcome RunInfo :=
  if runInfo.world.Done then
    .ok { runInfo with rv := nilValue, err := some .ErrInterrupt }
  else
    let runInfo := { runInfo with world := runInfo.world.poll }
    match runInfo.stmt with
    | none => .ok runInfo
    | some (.StmtsStmt stmts) => runStmtsStmt ev stmts runInfo
    | some (.ExprStmt e) => ev.invokeExpr { runInfo with expr := some e }
    | some (.ImportStmt name as loc) => runImportStmt ev runInfo name as loc
    | some (.StructStmt name body) => runStructStmt runInfo name body
    | some (.VarStmt names exprs) => runVarStmt ev runInfo names exprs
    | some (.LetsStmt lhss rhss unpack) => runLetsStmt ev runInfo lhss rhss unpack
    | some (.LetMapItemStmt lhss rhs) => runLetMapItemStmt ev runInfo lhss rhs
    | some (.IfStmt c t ei el) => runIfStmt ev runInfo c t ei el
    | some (.TryStmt t v c f) => runTryStmt ev runInfo t v c f
    | some (.LoopStmt e body) => runLoopStmt ev runInfo e body
    | some (.ForStmt vars value body) => runForStmt ev runInfo vars value body
    | some (.CForStmt s1 e2 e3 body) => runCForStmt ev runInfo s1 e2 e3 body
    | some (.ReturnStmt exprs) => runReturnStmt ev runInfo exprs
    | some (.ThrowStmt e) => runThrowStmt ev runInfo e
    | some (.ModuleStmt name body) => runModuleStmt ev runInfo name body
    | some (.SwitchStmt e cases d) => runSwitchStmt ev runInfo e cases d
    | some (.GoroutineStmt e) => ev.invokeExpr { runInfo with expr := some e }
    | some (.DeleteStmt item key) => runDeleteStmt ev runInfo item key
    | some (.CloseStmt e) => runCloseStmt ev runInfo e
    | some (.ChanStmt lhs okExpr rhs) => runChanStmt ev runInfo lhs okExpr rhs
    | some _ => .ok { runInfo with err := some (newStringError "unknown statement"), rv := nilValue }

/-! ## Tying the knot -/

/-- The evaluator with `fuel` levels of nested calls left: with none left a
call does not return. -/
def eval : Nat → Eval
  | 0 =>
    { runSingleStmt := fun _ => .diverge, invokeExpr := fun _ => .diverge,
      invokeLetExpr := fun _ => .diverge, Call := fun _ _ _ => .diverge,
      CallSlice := fun _ _ _ => .diverge, fuel := 0 }
  | n + 1 =>
    { runSingleStmt := runSingleStmt (eval n), invokeExpr := invokeExpr (eval n),
      invokeLetExpr := invokeLetExpr (eval n), Call := reflectCall (eval n) false,
      CallSlice := reflectCall (eval n) true, fuel := n }

/-- The run state `RunContext` starts from: the struct literal with the
default options put in for nil options. -/
def RunContext.start (world : World) (env : Nat) (options : Option Options) (stmt : Option Stmt) :
    RunInfo :=
  { world := world, env := env, options := options.getD { Debug := false }, stmt := stmt,
    expr := none, rv := nilValue, err := none, callErr := 0, recv := zeroValue, vmTypes := [] }

/-- Function `RunContext` executes a statement in the given environment with a
context. `runDecls` is outside the given sources and is a parameter. The
result is the pair the Go function returns, with the final memory. -/
def RunContext (runDecls : RunInfo → RunInfo) (fuel : Nat) (world : World) (env : Nat)
    (options : Option Options) (stmt : Option Stmt) : Outcome (Value × Option GoError × World) :=
  let runInfo := runDecls (RunContext.start world env options stmt)
  if runInfo.err.isNone then
    ((eval fuel).runSingleStmt runInfo).bind fun runInfo =>
    let runInfo := if runInfo.err = some .ErrReturn then { runInfo with err := none } else runInfo
    .ok (runInfo.rv.toInterface, runInfo.err, runInfo.world)
  else
    .ok (runInfo.rv.toInterface, runInfo.err, runInfo.world)

/-- Function `Run` executes a statement with the background context, which is never
cancelled. -/
def Run (runDecls : RunInfo → RunInfo) (fuel : Nat) (world : World) (env : Nat)
    (options : Option Options) (stmt : Option Stmt) : Outcome (Value × Option GoError × World) :=
  RunContext runDecls fuel { world with cancelAfter := none } env options stmt

/-! ## Parts of the sources and predicates the properties are stated with -/

/-- The part of `runVMFunction` before "run function statements": the run
state the body starts from, with the receiver and the parameters bound in a
fresh child of the defining environment. -/
def runVMFunction.enter (c : Closure) (ins : List Value) (world : World) : Outcome RunInfo :=
  match ins with
  | .ctx :: ins =>
    let (world, env) := world.NewEnv c.envFunc
    let runInfo : RunInfo :=
      { world := world, env := env, options := c.options, stmt := some c.Stmt, expr := none,
        rv := nilValue, err := none, callErr := 0, recv := zeroValue, vmTypes := c.vmTypes }
    let hasRecv := c.Recv != ""
    let start : Outcome (RunInfo × List Value) :=
      if hasRecv then
        -- is a method
        match ins with
        | .vmStruct v :: rest =>
          .ok ({ runInfo with rv := v, world := (runInfo.world.DefineValue runInfo.env "self" v).1 }, rest)
        | _ => .panic "interface conversion: interface is not *vm.vmStruct"
      else .ok (runInfo, ins)
    start.bind fun (runInfo, ins) =>
    -- add Params to newEnv, except last Params
    (runVMFunction.params c.Params ins runInfo).bind fun runInfo =>
    -- add last Params to newEnv
    match c.Params.getLast? with
    | none => .ok runInfo
    | some name =>
      match ins.get? (c.Params.length - 1) with
      | none => .panic "index out of range"
      | some x =>
        if c.VarArg then
          .ok { runInfo with rv := x, world := (runInfo.world.DefineValue runInfo.env name x).1 }
        else
          x.uncarry.bind fun rv =>
          .ok { runInfo with rv := rv, world := (runInfo.world.DefineValue runInfo.env name rv).1 }
  | _ => .panic "interface conversion: interface is not context.Context"

/-- The pair `runVMFunction` returns for the state the body ended in. -/
def runVMFunction.leave (runInfo : RunInfo) : List Value :=
  if runInfo.err.isSome && runInfo.err != some .ErrReturn then
    [reflectValueNilValue,
      match newError (newError runInfo.err) with
      | some e => .carrier (.error e)
      | none => reflectValueErrorNilValue]
  else
    [.carrier runInfo.rv, reflectValueErrorNilValue]

/-- The statements the sequence loop recognises structurally: `break`,
`continue` and `return`. -/
def Stmt.isControl : Stmt → Bool
  | .BreakStmt => true
  | .ContinueStmt => true
  | .ReturnStmt _ => true
  | _ => false

/-- The chain `RunsAll ev stmts s t`: run one after the other from state `s`,
every statement of `stmts` returns and leaves no error, and `t` is the state
after the last one. -/
inductive RunsAll (ev : Eval) : List Stmt → RunInfo → RunInfo → Prop where
  | nil (s : RunInfo) : RunsAll ev [] s s
  | cons {st : Stmt} {rest : List Stmt} {s s1 t : RunInfo}
      (hrun : ev.runSingleStmt { s with stmt := some st } = .ok s1)
      (hok : s1.err = none)
      (hrest : RunsAll ev rest s1 t) : RunsAll ev (st :: rest) s t

/-- The chain `AllFalsy ev env conds s t`: evaluated one after the other
from state `s`, each in a fresh child of `env`, every condition of `conds`
returns without error a value that is not truthy, and `t` is the state after
the last one. -/
inductive AllFalsy (ev : Eval) (env : Nat) : List (Expr × Stmt) → RunInfo → RunInfo → Prop where
  | nil (s : RunInfo) : AllFalsy ev env [] s s
  | cons {cond : Expr} {thenStmt : Stmt} {rest : List (Expr × Stmt)} {s s1 t : RunInfo}
      (hcond : ev.invokeExpr { s with world := (s.world.NewEnv env).1, env := (s.world.NewEnv env).2,
                                      expr := some cond } = .ok s1)
      (hok : s1.err = none)
      (hfalse : toBool s1.world s1.rv = false)
      (hrest : AllFalsy ev env rest s1 t) : AllFalsy ev env ((cond, thenStmt) :: rest) s t

/-- What a loop owes to the state `r` its body ended in: when the body ended
with `ErrBreak` the loop `result` is `r` with no error, a nil result value and
the environment `env` of the loop statement; when it ended with `ErrContinue`
the loop goes on (`next`) from `r` with the error cleared; when it ended with
`ErrReturn` the loop result is `r`, error and result value included, with the
environment `env`. -/
def LoopSignals (env : Nat) (r : RunInfo) (result : Outcome RunInfo)
    (next : RunInfo → Outcome RunInfo) : Prop :=
  (r.err = some .ErrBreak → result = .ok { r with err := none, rv := nilValue, env := env }) ∧
  (r.err = some .ErrContinue → result = next { r with err := none }) ∧
  (r.err = some .ErrReturn → result = .ok { r with env := env })

/-- The error is neither `ErrBreak` nor `ErrContinue`. -/
def NoLoopSignal (err : Option GoError) : Prop :=
  err ≠ some .ErrBreak ∧ err ≠ some .ErrContinue

/-- The evaluation of `e` raises no loop signal: from a state whose error is
neither `ErrBreak` nor `ErrContinue` it leaves an error that is neither. -/
def KeepsNoSignal (ev : Eval) (e : Expr) : Prop :=
  ∀ s q : RunInfo, NoLoopSignal s.err → ev.invokeExpr { s with expr := some e } = .ok q →
    NoLoopSignal q.err

/-- The chain `Iterates ev var body xs s t`: for the elements of `xs` in
order, each iteration is entered while the context is not done, the body is
run from the state in which `var` is defined in the current frame as the
element (after one interface unwrap and one pointer unwrap), it returns and
leaves no error, and `t` is the state after the last iteration. There is one
run of the body per element. -/
inductive Iterates (ev : Eval) (var : String) (body : Stmt) :
    List Value → RunInfo → RunInfo → Prop where
  | nil (s : RunInfo) : Iterates ev var body [] s s
  | cons {x : Value} {rest : List Value} {s s1 t : RunInfo}
      (hlive : s.world.Done = false)
      (hbody : ev.runSingleStmt
        { s with world := (s.world.poll.DefineValue s.env var
                   (if x.unwrapInterface.kind == .ptr then x.unwrapInterface.Elem
                    else x.unwrapInterface)).1,
                 stmt := some body } = .ok s1)
      (hok : s1.err = none)
      (hrest : Iterates ev var body rest s1 t) : Iterates ev var body (x :: rest) s t

/-- The chain `EvalsTo ev es s vs t`: evaluated one after the other from
state `s`, every expression of `es` returns and leaves no error, `vs` lists
their values in order, and `t` is the state after the last one. -/
inductive EvalsTo (ev : Eval) : List Expr → RunInfo → List Value → RunInfo → Prop where
  | nil (s : RunInfo) : EvalsTo ev [] s [] s
  | cons {e : Expr} {es : List Expr} {s s1 t : RunInfo} {vs : List Value}
      (hrun : ev.invokeExpr { s with expr := some e } = .ok s1)
      (hok : s1.err = none)
      (hrest : EvalsTo ev es s1 vs t) : EvalsTo ev (e :: es) s (s1.rv :: vs) t

/-- Whether `x` can be an element of a slice with element type `t`: its
static type is `t`, and in an `interface{}` slot it is an interface value. -/
def Value.storedAs (t : GoType) : Value → Bool
  | .iface s _ => s == t
  | .nil s => s == t
  | x => t != .iface && x.TypeOf == t

/-- The chain `ArgsTo ev ty i es s vs cs t`: evaluated one after the other
from state `s`, as `makeCallArgs` does for a native function, every expression
of `es` returns and leaves no error and its value is coerced without error to
the type `ty` of its position (positions count from `i`); `vs` lists the
values, `cs` the coerced values, and `t` is the state after the last one. -/
inductive ArgsTo (ev : Eval) (ty : Nat → GoType) :
    Nat → List Expr → RunInfo → List Value → List Value → RunInfo → Prop where
  | nil (i : Nat) (s : RunInfo) : ArgsTo ev ty i [] s [] [] s
  | cons {i : Nat} {e : Expr} {es : List Expr} {s s1 t : RunInfo} {c : Value} {vs cs : List Value}
      (hrun : ev.invokeExpr { s with expr := some e } = .ok s1)
      (hok : s1.err = none)
      (hconv : convertReflectValueToType s1.rv (ty i) = (c, none))
      (hrest : ArgsTo ev ty (i + 1) es { s1 with rv := c, err := none } vs cs t) :
      ArgsTo ev ty i (e :: es) s (s1.rv :: vs) (c :: cs) t

/-- The part of the `TryStmt` case from `// Catch` on, for a try block that
left the error `e` in state `runInfo`: the catch block is run with the error
cleared and, when the name is not empty, the catch variable defined as the
error value; its error ends the statement, otherwise the finally block
follows. `env` is the environment of the Try statement. -/
def runTryStmt.caught (ev : Eval) (env : Nat) (Var : String) (Catch Finally : Option Stmt)
    (runInfo : RunInfo) (e : GoError) : Outcome RunInfo :=
  -- Catch
  let runInfo := { runInfo with stmt := Catch }
  let runInfo :=
    if Var != "" then
      { runInfo with world := (runInfo.world.DefineValue runInfo.env Var (.error e)).1 }
    else runInfo
  (ev.runSingleStmt { runInfo with err := none }).bind fun runInfo =>
  if runInfo.err.isSome then .ok { runInfo with env := env }
  else
    match Finally with
    | some fin =>
      -- Finally
      (ev.runSingleStmt { runInfo with stmt := some fin }).bind fun runInfo =>
      .ok { runInfo with env := env }
    | none => .ok { runInfo with env := env }


/-- The case expressions of a Switch statement in declaration order: cases in
order, the expressions of a case in order. -/
def SwitchStmt.allExprs : List (List Expr × Stmt) → List Expr
  | [] => []
  | (exprs, _) :: rest => exprs ++ SwitchStmt.allExprs rest

/-- The expressions of the list are evaluated one after the other from the
first state to the second, each without error and none equal to `value`. -/
inductive NoneEqual (ev : Eval) (value : Value) : List Expr → RunInfo → RunInfo → Prop
  | nil (s : RunInfo) : NoneEqual ev value [] s s
  | cons (e : Expr) (es : List Expr) (s s1 t : RunInfo) :
      ev.invokeExpr { s with expr := some e } = .ok s1 → s1.err = none →
      equal s1.world s1.rv value = false → NoneEqual ev value es s1 t →
      NoneEqual ev value (e :: es) s t


/-- The number of parameters `makeCallArgs` counts the argument expressions
of a call to a script function against: the `n` declared parameters, and the
receiver slot as well when the function has a receiver and no receiver is
pending at the call. -/
def makeCallArgs.counted (runInfo : RunInfo) (n : Nat) (hr : Bool) : Nat :=
  n + (if hr && !runInfo.recv.IsValid then 1 else 0)

/-! ## Sample inputs -/

/-- A memory with one empty root frame and no cancellation. -/
def World.root0 : World :=
  { envs := [{ values := [], types := [], parent := none, Import := none }],
    funcs := [], natives := [], maps := [], Packages := [], PackageTypes := [],
    cancelAfter := none, selects := [], closed := [] }

/-- A `runDecls` that finds no declaration to run. -/
def noDecls (runInfo : RunInfo) : RunInfo := runInfo

/-- The script `break`. -/
def Sample.topLevelBreak : Stmt := .StmtsStmt [.BreakStmt]

/-- The script `return 1`. -/
def Sample.topLevelReturn : Stmt := .StmtsStmt [.ReturnStmt [.LiteralExpr (.int 1)]]

/-- A run state whose cancellation handle is already done, about to run
`var a = 1`. -/
def Sample.cancelled : RunInfo :=
  RunContext.start { World.root0 with cancelAfter := some 0 } 0 none
    (some (.VarStmt ["a"] [.LiteralExpr (.int 1)]))

/-- The statement `try { throw "a" } catch e { throw "b" } finally { throw "c" }`. -/
def Sample.tryCatchThrows : Stmt :=
  .TryStmt (.StmtsStmt [.ThrowStmt (.LiteralExpr (.str "a"))]) "e"
    (some (.StmtsStmt [.ThrowStmt (.LiteralExpr (.str "b"))]))
    (some (.StmtsStmt [.ThrowStmt (.LiteralExpr (.str "c"))]))

/-- The statement `try { throw "a" } catch e { } finally { throw "c" }`. -/
def Sample.tryFinallyThrows : Stmt :=
  .TryStmt (.StmtsStmt [.ThrowStmt (.LiteralExpr (.str "a"))]) "e"
    (some (.StmtsStmt []))
    (some (.StmtsStmt [.ThrowStmt (.LiteralExpr (.str "c"))]))

/-- The statement `try { throw "boom" } catch e { e }`. -/
def Sample.tryBoom : Stmt :=
  .TryStmt (.StmtsStmt [.ThrowStmt (.LiteralExpr (.str "boom"))]) "e"
    (some (.StmtsStmt [.ExprStmt (.IdentExpr "e")])) none

/-- The run state `RunContext` starts from for a statement in the root
frame of `World.root0`. -/
def Sample.start (stmt : Stmt) : RunInfo := RunContext.start World.root0 0 none (some stmt)

/-- The statement `for x in v { }` where `v` is a host value with the Index
capability whose `Index(0)` returns an error. -/
def Sample.forIndexFails : Stmt :=
  .ForStmt ["x"] (.LiteralExpr (.index [.int 1] (some 0))) (.StmtsStmt [])

/-- The statement `module a.b { }`, whose name cannot be registered. -/
def Sample.moduleFails : Stmt := .ModuleStmt "a.b" (.StmtsStmt [])

/-- The type of `ioutil.WriteFile`:
`func(filename string, data []byte, perm os.FileMode) error`. -/
def Sample.writeFileType : FuncType :=
  { ins := [.string, .slice (.other "uint8" .uint8), .other "os.FileMode" .uint32], outs := [.error],
    variadic := false }

/-- A memory whose registry holds `io/ioutil` with a `WriteFile` that fails,
as it does for a path that cannot be written. -/
def Sample.ioutilWorld : World :=
  { World.root0 with
    natives := [fun _ => some [.iface .error (.error (.host "open /nonexistent/x: no such file or directory"))]],
    Packages := [("io/ioutil", [("WriteFile", .func Sample.writeFileType (.native 0))])] }

/-- The script
`import "io/ioutil"; ioutil.WriteFile("/nonexistent/x", data, perm)?`. -/
def Sample.writeFileScript : Stmt :=
  .StmtsStmt [
    .ImportStmt (.LiteralExpr (.str "io/ioutil")) "" false,
    .ExprStmt (.AnonCallErrExpr (.MemberExpr (.IdentExpr "ioutil") "WriteFile")
      [.LiteralExpr (.str "/nonexistent/x"), .LiteralExpr (.slice (.other "uint8" .uint8) []),
       .LiteralExpr (.foreign (.other "os.FileMode" .uint32) 420)] false)]

/-- A host function `div(a, b int64) (int64, error)` that fails on a zero
divisor. -/
def Sample.div : List Value → Option (List Value)
  | [.int a, .int b] =>
    if b = 0 then some [.int 0, .iface .error (.error (.host "division by zero"))]
    else some [.int (a / b), .nil .error]
  | _ => none

/-- The type of `Sample.div`. -/
def Sample.divType : FuncType := { ins := [.int64, .int64], outs := [.int64, .error], variadic := false }

/-- A memory whose root frame binds `div`. -/
def Sample.divWorld : World :=
  { World.root0 with
    envs := [{ values := [("div", .func Sample.divType (.native 0))], types := [], parent := none,
               Import := none }],
    natives := [Sample.div] }

/-- The run state about to evaluate the expression `div(a, b)?`. -/
def Sample.divCall (a b : Int) : RunInfo :=
  { RunContext.start Sample.divWorld 0 none none with
    expr := some (.CallErrExpr .invalid "div" [.LiteralExpr (.int a), .LiteralExpr (.int b)] false) }

/-- The run state about to make the arguments of a call with no
receiver pending. -/
def Sample.plain : RunInfo := RunContext.start World.root0 0 none none

/-- The closure of `func() { return 1 }` defined in the root frame. -/
def Sample.returnsOne : Closure :=
  { Recv := "", Params := [], VarArg := false, Stmt := Sample.topLevelReturn, envFunc := 0,
    vmTypes := [], options := { Debug := false } }

/-- The sequence `1; return 2; throw "late"`. -/
def Sample.returnInSequence : Stmt :=
  .StmtsStmt ([.ExprStmt (.LiteralExpr (.int 1))] ++
    .ReturnStmt [.LiteralExpr (.int 2)] :: [.ThrowStmt (.LiteralExpr (.str "late"))])

/-- The statement
`if false { break } else if false { break } else if true { continue }
else if nope { } else { throw "else" }`. -/
def Sample.ifChain : Stmt :=
  .IfStmt (.LiteralExpr (.bool false)) (.StmtsStmt [.BreakStmt])
    ([(.LiteralExpr (.bool false), .StmtsStmt [.BreakStmt])] ++
      (.LiteralExpr (.bool true), .StmtsStmt [.ContinueStmt]) ::
      [(.IdentExpr "nope", .StmtsStmt [])])
    (some (.ThrowStmt (.LiteralExpr (.str "else"))))

/-- The statement `if func f() { } { }`, whose leading condition binds `f`. -/
def Sample.ifDefines : Stmt :=
  .IfStmt (.FuncExpr "f" "" [] false (.StmtsStmt [])) (.StmtsStmt []) [] none

/-- The statement `if false { } else if func g() { } { }`, whose `else if`
condition binds `g`. -/
def Sample.elseIfDefines : Stmt :=
  .IfStmt (.LiteralExpr (.bool false)) (.StmtsStmt [])
    [(.FuncExpr "g" "" [] false (.StmtsStmt []), .StmtsStmt [])] none

/-- The statement `for { break }`. -/
def Sample.loopBreak : Stmt := .LoopStmt none (.StmtsStmt [.BreakStmt])

/-- The statement `for ; ; nope { continue }`, whose post expression is an
undefined name. -/
def Sample.cforContinue : Stmt :=
  .CForStmt none none (some (.IdentExpr "nope")) (.StmtsStmt [.ContinueStmt])

/-- The statement `for ; ; nope { break }`. -/
def Sample.cforBreak : Stmt :=
  .CForStmt none none (some (.IdentExpr "nope")) (.StmtsStmt [.BreakStmt])

/-- The statement `for x in [1, 2] { x }`. -/
def Sample.forSequence : Stmt :=
  .ForStmt ["x"] (.LiteralExpr (.slice .int64 [.int 1, .int 2])) (.ExprStmt (.IdentExpr "x"))

/-- The statement `for x in 5 { x }`. -/
def Sample.forNumber : Stmt :=
  .ForStmt ["x"] (.LiteralExpr (.int 5)) (.ExprStmt (.IdentExpr "x"))

/-- The statement `for x in f { }` with `f` a host `float64`. -/
def Sample.forFloat : Stmt :=
  .ForStmt ["x"] (.LiteralExpr (.foreign (.other "float64" .float64) 0)) (.StmtsStmt [])

/-- The statement `for x in [e] { x }` with `e` an error value (a pointer)
held in an `interface{}` slot. -/
def Sample.forPointers : Stmt :=
  .ForStmt ["x"] (.LiteralExpr (.slice .iface [.iface .iface (.error (.vm "boom"))]))
    (.ExprStmt (.IdentExpr "x"))

/-- The argument expressions of the call `f(1, 2)`. -/
def Sample.twoArgs : List Expr := [.LiteralExpr (.int 1), .LiteralExpr (.int 2)]

/-- A run state in which the receiver `"obj"` of a method call is pending. -/
def Sample.withRecv : RunInfo := { Sample.plain with recv := .str "obj" }

/-- The type of a variadic host function `func(string, ...int64) int64`. -/
def Sample.sumType : FuncType :=
  { ins := [.string, .slice .int64], outs := [.int64], variadic := true }

/-- The statement `import nothere`, for a package the registry does not
hold. -/
def Sample.importMissing : Stmt := .ImportStmt (.IdentExpr "nothere") "" false

/-- A memory whose registry holds an (empty) package `github.com/x/y`. -/
def Sample.githubWorld : World := { World.root0 with Packages := [("github.com/x/y", [])] }

/-- The statement `import "github.com/x/y"`. -/
def Sample.importGithub : Stmt := .ImportStmt (.LiteralExpr (.str "github.com/x/y")) "" false

/-- A host function `pair() (int64, int64)`, none of whose results is an
error. -/
def Sample.pair : List Value → Option (List Value)
  | [] => some [.int 1, .int 2]
  | _ => none

/-- The type of `Sample.pair`. -/
def Sample.pairType : FuncType := { ins := [], outs := [.int64, .int64], variadic := false }

/-- A memory whose root frame binds `pair`. -/
def Sample.pairWorld : World :=
  { World.root0 with
    envs := [{ values := [("pair", .func Sample.pairType (.native 0))], types := [], parent := none,
               Import := none }],
    natives := [Sample.pair] }

/-- The statement `try { return 1 } catch e { e }`. -/
def Sample.tryReturn : Stmt :=
  .TryStmt (.StmtsStmt ([] ++ .ReturnStmt [.LiteralExpr (.int 1)] :: []))
    "e" (some (.StmtsStmt [.ExprStmt (.IdentExpr "e")])) none

/-- A memory whose root frame binds the channel `ch` and `v = 7`, and in
which the next select finds the channel closed. -/
def Sample.closedChanWorld : World :=
  { World.root0 with
    envs := [{ values := [("ch", .chan 0), ("v", .int 7)], types := [], parent := none,
               Import := none }],
    selects := [.closed] }

/-- The statement `v, ok <- ch`. -/
def Sample.receive : Stmt :=
  .ChanStmt (.IdentExpr "v") (some (.IdentExpr "ok")) (.IdentExpr "ch")

/-- A memory whose root frame binds `a = 1`. -/
def Sample.boundWorld : World :=
  { World.root0 with
    envs := [{ values := [("a", .int 1)], types := [], parent := none, Import := none }] }

/-- The statement `delete("a", false)`. -/
def Sample.deleteWithFalse : Stmt :=
  .DeleteStmt (.LiteralExpr (.str "a")) (some (.LiteralExpr (.bool false)))


/-- The statement `switch 2 { case 1: 10  case 2, 3: 20  default: 30 }`. -/
def Sample.switchSecond : Stmt :=
  .SwitchStmt (.LiteralExpr (.int 2))
    ([([.LiteralExpr (.int 1)], .ExprStmt (.LiteralExpr (.int 10)))]
      ++ ([] ++ .LiteralExpr (.int 2) :: [.LiteralExpr (.int 3)], .ExprStmt (.LiteralExpr (.int 20)))
      :: [])
    (some (.ExprStmt (.LiteralExpr (.int 30))))


/-- The state of `Sample.switchSecond` in the root environment after the
scrutinee. -/
def Sample.switchScrutinee : RunInfo :=
  { RunContext.start World.root0 0 none none with
    world := (World.root0.NewEnv 0).1, env := (World.root0.NewEnv 0).2,
    expr := some (.LiteralExpr (.int 2)), rv := .int 2 }

/-- The state of `Sample.switchSecond` after the expression of the first case. -/
def Sample.switchPassed : RunInfo :=
  { Sample.switchScrutinee with expr := some (.LiteralExpr (.int 1)), rv := .int 1 }

/-- The state of `Sample.switchSecond` after the first expression of the
second case. -/
def Sample.switchMatched : RunInfo :=
  { Sample.switchPassed with expr := some (.LiteralExpr (.int 2)), rv := .int 2 }

/-- A memory with two maps that both hold `"a": 1`. -/
def Sample.twoMapsWorld : World :=
  { World.root0 with maps := [[(.str "a", .int 1)], [(.str "a", .int 1)]] }

/-- The statement `try { throw [1, 2] } catch e { e }`. -/
def Sample.trySequence : Stmt :=
  .TryStmt (.StmtsStmt [.ThrowStmt (.LiteralExpr (.slice .int64 [.int 1, .int 2]))]) "e"
    (some (.StmtsStmt [.ExprStmt (.IdentExpr "e")])) none

/-! ## Basic facts -/

theorem World.lookup_bindIn {α : Type} (name : String) (v : α) (l : List (String × α)) :
    (World.bindIn name v l).lookup name = some v := by
  induction l with
  | nil => simp [World.bindIn, List.lookup]
  | cons kv rest ih =>
    obtain ⟨k, x⟩ := kv
    by_cases hk : k = name
    · subst hk
      simp [World.bindIn, List.lookup]
    · have hk2 : (name == k) = false := by
        simp only [beq_eq_false_iff_ne, ne_eq]
        exact fun h => hk h.symm
      have hk3 : (k == name) = false := by simpa using hk
      simp [World.bindIn, hk3, List.lookup, hk2, ih]

/-- A name defined in a frame is found there by a lookup from that frame. -/
theorem World.GetValue_DefineValue (w : World) (p : Nat) (name : String) (v : Value)
    (hdot : name.toList.contains '.' = false) (hp : p < w.envs.length) :
    (w.DefineValue p name v).1.GetValue p name = (v, none) := by
  obtain ⟨f, hf⟩ : ∃ f, w.envs.get? p = some f := by
    cases h : w.envs.get? p with
    | some f => exact ⟨f, rfl⟩
    | none => rw [List.get?_eq_none] at h; omega
  have hdot2 : ¬ '.' ∈ name.data := by simpa using hdot
  have hf2 : w.envs[p]? = some f := by simpa using hf
  simp [World.DefineValue, hdot2, hf2, World.GetValue, World.setFrame, World.findValue,
    List.getElem?_set, hp, World.lookup_bindIn]

@[simp] theorem Outcome.bind_ok {α β : Type} (a : α) (f : α → Outcome β) :
    (Outcome.ok a).bind f = f a := rfl

@[simp] theorem Outcome.bind_panic {α β : Type} (m : String) (f : α → Outcome β) :
    (Outcome.panic m : Outcome α).bind f = .panic m := rfl

@[simp] theorem Outcome.bind_diverge {α β : Type} (f : α → Outcome β) :
    (Outcome.diverge : Outcome α).bind f = .diverge := rfl

theorem eval_succ_runSingleStmt (n : Nat) :
    (eval (n + 1)).runSingleStmt = runSingleStmt (eval n) := rfl

theorem eval_succ_invokeExpr (n : Nat) : (eval (n + 1)).invokeExpr = invokeExpr (eval n) := rfl

theorem eval_succ_invokeLetExpr (n : Nat) :
    (eval (n + 1)).invokeLetExpr = invokeLetExpr (eval n) := rfl

/-- A context that is never cancelled is not done. -/
theorem World.Done_of_never (w : World) (h : w.cancelAfter = none) : w.Done = false := by
  simp [World.Done, h]

/-- Polling a context that is never cancelled changes nothing. -/
theorem World.poll_of_never (w : World) (h : w.cancelAfter = none) : w.poll = w := by
  cases w
  simp only [World.poll] at *
  simp [h]

/-- Creating a frame leaves the cancellation handle alone. -/
theorem World.NewEnv_cancelAfter (w : World) (p : Nat) :
    (w.NewEnv p).1.cancelAfter = w.cancelAfter := rfl

/-- Defining a value leaves the cancellation handle alone. -/
theorem World.DefineValue_cancelAfter (w : World) (p : Nat) (name : String) (v : Value) :
    (w.DefineValue p name v).1.cancelAfter = w.cancelAfter := by
  unfold World.DefineValue
  split
  · rfl
  · split <;> rfl

/-- Defining a value keeps the number of frames. -/
theorem World.DefineValue_length (w : World) (p : Nat) (name : String) (v : Value) :
    (w.DefineValue p name v).1.envs.length = w.envs.length := by
  unfold World.DefineValue
  split
  · rfl
  · split
    · simp [World.setFrame]
    · rfl

/-- The index `callExpr` records lies inside the returned values. -/
theorem callExpr.firstError_bound (rvs : List Value) (i idx : Nat)
    (h : callExpr.firstError rvs i = some idx) : i ≤ idx ∧ idx < i + rvs.length := by
  induction rvs generalizing i with
  | nil => simp [callExpr.firstError] at h
  | cons v rest ih =>
    simp only [callExpr.firstError] at h
    split at h
    · simp only [Option.some.injEq] at h
      subst h
      simp
    · have := ih (i + 1) h
      simp only [List.length_cons]
      omega

/-- An assignment leaves the recorded error index alone. -/
theorem invokeLetExpr_callErr (ev : Eval) (s r : RunInfo) (h : invokeLetExpr ev s = .ok r) :
    r.callErr = s.callErr := by
  unfold invokeLetExpr at h
  split at h
  · split at h
    · simp only [Outcome.ok.injEq] at h
      subst h
      rfl
    · simp only [Outcome.ok.injEq] at h
      subst h
      rfl
  · simp only [Outcome.ok.injEq] at h
    subst h
    rfl

/-- The write-back of address arguments leaves the recorded error index
alone. -/
theorem callExpr.writeBack_callErr (n : Nat) (args : List Value) (es : List Expr) (i : Nat)
    (s r : RunInfo) (h : callExpr.writeBack (eval (n + 1)) args es i s = .ok r) :
    r.callErr = s.callErr := by
  induction es generalizing i s with
  | nil =>
    simp only [callExpr.writeBack, Outcome.ok.injEq] at h
    subst h
    rfl
  | cons e rest ih =>
    by_cases hshape : ∃ lit, e = .AddrExpr (.IdentExpr lit)
    · obtain ⟨lit, rfl⟩ := hshape
      simp only [callExpr.writeBack] at h
      cases ha : args.get? i with
      | none => rw [ha] at h; cases h
      | some a =>
        rw [ha] at h
        simp only at h
        cases hlet : (eval (n + 1)).invokeLetExpr
            { s with rv := a.Elem, expr := some (.IdentExpr lit) } with
        | ok r2 =>
          rw [hlet] at h
          simp only [Outcome.bind_ok] at h
          have h1 := ih _ _ h
          rw [eval_succ_invokeLetExpr] at hlet
          have h2 := invokeLetExpr_callErr (eval n) _ _ hlet
          rw [h1, h2]
        | panic m => rw [hlet] at h; cases h
        | diverge => rw [hlet] at h; cases h
    · have hskip : callExpr.writeBack (eval (n + 1)) args (e :: rest) i s
          = callExpr.writeBack (eval (n + 1)) args rest (i + 1) s := by
        cases e with
        | AddrExpr inner =>
          cases inner with
          | IdentExpr lit => exact absurd ⟨lit, rfl⟩ hshape
          | _ => simp [callExpr.writeBack]
        | _ => simp [callExpr.writeBack]
      rw [hskip] at h
      exact ih _ _ h

/-- The loop of `handleError` keeps the elements before and after `idx`, in
order. -/
theorem handleError.strip_eq (idx : Nat) (xs : List Value) (j : Nat) (hj : j ≤ idx) :
    handleError.strip idx xs j = xs.take (idx - j) ++ xs.drop (idx - j + 1) := by
  induction xs generalizing j with
  | nil => simp [handleError.strip]
  | cons x rest ih =>
    by_cases hji : j = idx
    · subst hji
      have hafter : ∀ (ys : List Value) (k : Nat), j < k → handleError.strip j ys k = ys := by
        intro ys
        induction ys with
        | nil => intro k _; simp [handleError.strip]
        | cons y ys ihy =>
          intro k hk
          have hne : (k == j) = false := by simp; omega
          simp [handleError.strip, hne, ihy (k + 1) (by omega)]
      simp [handleError.strip, hafter rest (j + 1) (by omega)]
    · have hne : (j == idx) = false := by simpa using hji
      have hlt : j < idx := by omega
      have hsub : idx - j = (idx - (j + 1)) + 1 := by omega
      simp only [handleError.strip, hne, Bool.false_eq_true, if_false, ih (j + 1) (by omega)]
      rw [hsub]
      simp

/-- When the result of a call is not a slice, `handleError` does nothing. -/
theorem handleError_not_slice (ev : Eval) (runInfo : RunInfo) (h : runInfo.rv.kind ≠ .slice) :
    handleError ev runInfo = .ok runInfo := by
  unfold handleError
  have hk : (runInfo.rv.kind == Kind.slice) = false := by simpa using h
  simp [hk]

/-- A value put into an `interface{}` slot has kind interface. -/
theorem Value.toInterface_kind (v : Value) : v.toInterface.kind = .interface := by
  cases v <;> rfl

/-- A native call that returns: `callExpr.invoke` records the first error
slot, writes the address arguments back and converts the returned values. -/
theorem callExpr.invoke_native (ev : Eval) (runInfo : RunInfo) (f : Value) (ft : FuncType)
    (SubExprs : List Expr) (VarArg : Bool) (r1 : RunInfo) (args : List Value) (slice : Bool)
    (rvs : List Value) (w2 : World) (r3 : RunInfo)
    (hnat : checkIfRunVMFunction ft = false)
    (hargs : makeCallArgs ev runInfo ft false SubExprs VarArg = .ok (r1, args, slice))
    (hok : r1.err = none)
    (hcall : (if slice then ev.CallSlice else ev.Call) f args r1.world = .ok (rvs, w2))
    (hwb : callExpr.writeBack ev args SubExprs 0
        (match callExpr.firstError rvs 0 with
          | some i => { r1 with rv := nilValue, world := w2, callErr := i }
          | none => { r1 with rv := nilValue, world := w2 }) = .ok r3) :
    callExpr.invoke ev runInfo f ft SubExprs VarArg false
      = .ok { r3 with rv := (processCallReturnValues rvs false true).1,
                      err := (processCallReturnValues rvs false true).2 } := by
  unfold callExpr.invoke
  simp only [hnat, hargs, Outcome.bind_ok, hok, Option.isSome_none, Bool.false_eq_true, if_false,
    Bool.not_false, if_true]
  rw [hcall]
  simp only [Outcome.bind_ok]
  cases hfe : callExpr.firstError rvs 0 with
  | none =>
    rw [hfe] at hwb
    simp only [hok] at hwb
    simp only [hwb, Outcome.bind_ok]
  | some i =>
    rw [hfe] at hwb
    simp only [hok] at hwb
    simp only [hwb, Outcome.bind_ok]

/-- A call whose function value resolves to a function goes on to
`callExpr.invoke`. -/
theorem callExpr_resolved (ev : Eval) (runInfo : RunInfo) (Func : Value) (name : String)
    (SubExprs : List Expr) (VarArg Go : Bool) (fv : Value) (ft : FuncType) (ref : FuncRef)
    (hexpr : runInfo.expr = some (.CallExpr Func name SubExprs VarArg Go))
    (hres : callExpr.resolve runInfo Func name = (fv, none))
    (hfunc : fv.unwrapInterface = .func ft ref) :
    callExpr ev runInfo
      = callExpr.invoke ev { runInfo with err := none } (.func ft ref) ft SubExprs VarArg Go := by
  unfold callExpr
  simp only [hexpr, hres, Option.isSome_none, Bool.and_false, Bool.false_eq_true, if_false, hfunc]

theorem Outcome.bind_assoc {α β γ : Type} (x : Outcome α) (f : α → Outcome β) (g : β → Outcome γ) :
    (x.bind f).bind g = x.bind fun a => (f a).bind g := by
  cases x <;> rfl

/-- The translator `runVMFunction` is its prelude, the run of the body and
the construction of the returned pair, in this order. -/
theorem runVMFunction_eq (ev : Eval) (c : Closure) (ins : List Value) (world : World) :
    runVMFunction ev c ins world
      = (runVMFunction.enter c ins world).bind fun s =>
        (ev.runSingleStmt s).bind fun r => .ok (runVMFunction.leave r, r.world) := by
  unfold runVMFunction runVMFunction.enter
  split
  · simp only [Outcome.bind_assoc, runVMFunction.leave]
    congr 1
    funext x
    congr 1
    funext y
    congr 1
    funext r
    congr 1
    funext q
    split <;> rfl
  · rfl

/-- The sequence loop passes over a prefix of statements that are not control
statements and that all run without error. -/
theorem runStmtsStmt_append (ev : Eval) (pre rest : List Stmt) (s t : RunInfo)
    (hpre : ∀ st ∈ pre, st.isControl = false) (hrun : RunsAll ev pre s t) :
    runStmtsStmt ev (pre ++ rest) s = runStmtsStmt ev rest t := by
  induction hrun with
  | nil s => rfl
  | @cons st tl s s1 t h1 hok _ ih =>
    have hst : st.isControl = false := hpre st (List.mem_cons_self _ _)
    have htl : ∀ x ∈ tl, x.isControl = false := fun x hx => hpre x (List.mem_cons_of_mem _ hx)
    rw [← ih htl]
    cases st <;>
      first
      | (simp [Stmt.isControl] at hst; done)
      | simp [runStmtsStmt, h1, hok]

/-- The `else if` loop passes over a prefix of conditions that all evaluate
without error to a value that is not truthy. -/
theorem runIfStmt.elseIf_append (ev : Eval) (env : Nat) (pre rest : List (Expr × Stmt))
    (s t : RunInfo) (hrun : AllFalsy ev env pre s t) :
    runIfStmt.elseIf ev env (pre ++ rest) s = runIfStmt.elseIf ev env rest t := by
  induction hrun with
  | nil s => rfl
  | @cons cond thenStmt tl s s1 t h1 hok hfalse _ ih =>
    rw [← ih]
    simp [runIfStmt.elseIf, h1, hok, hfalse]

theorem afterBody_break (env : Nat) (r : RunInfo) (h : r.err = some .ErrBreak) :
    afterBody env r = .brk { r with err := none } := by
  simp [afterBody, h]

theorem afterBody_continue (env : Nat) (r : RunInfo) (h : r.err = some .ErrContinue) :
    afterBody env r = .next { r with err := none } := by
  simp [afterBody, h]

theorem afterBody_return (env : Nat) (r : RunInfo) (h : r.err = some .ErrReturn) :
    afterBody env r = .ret { r with env := env } := by
  simp [afterBody, h]

/-- One iteration of the `LoopStmt` loop whose condition holds. -/
theorem runLoopStmt.loop_signals (ev : Eval) (env : Nat) (cond : Option Expr) (body : Stmt)
    (k : Nat) (s c r : RunInfo) (hlive : s.world.Done = false)
    (htest : cond.elim (c = { s with world := s.world.poll })
      (fun e => ev.invokeExpr { s with world := s.world.poll, expr := some e } = .ok c
        ∧ c.err = none ∧ toBool c.world c.rv = true))
    (hbody : ev.runSingleStmt { c with stmt := some body } = .ok r) :
    LoopSignals env r (runLoopStmt.loop ev env cond body (k + 1) s)
      (runLoopStmt.loop ev env cond body k) := by
  cases cond with
  | none =>
    simp only [Option.elim] at htest
    subst htest
    refine ⟨fun h => ?_, fun h => ?_, fun h => ?_⟩
    · simp [runLoopStmt.loop, hlive, hbody, afterBody_break env r h]
    · simp [runLoopStmt.loop, hlive, hbody, afterBody_continue env r h]
    · simp [runLoopStmt.loop, hlive, hbody, afterBody_return env r h]
  | some e =>
    simp only [Option.elim] at htest
    obtain ⟨hc, hok, htrue⟩ := htest
    simp only [hok] at hbody
    refine ⟨fun h => ?_, fun h => ?_, fun h => ?_⟩
    · simp [runLoopStmt.loop, hlive, hc, hok, htrue, hbody, afterBody_break env r h]
    · simp [runLoopStmt.loop, hlive, hc, hok, htrue, hbody, afterBody_continue env r h]
    · simp [runLoopStmt.loop, hlive, hc, hok, htrue, hbody, afterBody_return env r h]

/-- A loop that treats the state its body left as `afterBody` says meets
`LoopSignals`. -/
theorem LoopSignals.of_afterBody (env : Nat) (r : RunInfo) (result : Outcome RunInfo)
    (next : RunInfo → Outcome RunInfo)
    (h : result = match afterBody env r with
      | .next r => next r
      | .ret r => .ok r
      | .brk r => .ok { r with rv := nilValue, env := env }) :
    LoopSignals env r result next := by
  subst h
  refine ⟨fun h => ?_, fun h => ?_, fun h => ?_⟩
  · simp [afterBody_break env r h]
  · simp [afterBody_continue env r h]
  · simp [afterBody_return env r h]

/-- One iteration of the for-in loop over an Index-capable value. -/
theorem runForStmt.index_signals (ev : Eval) (env : Nat) (var : String) (body : Stmt)
    (failAt : Option Nat) (x : Value) (rest : List Value) (i : Nat) (s r : RunInfo)
    (hlive : s.world.Done = false) (hfail : failAt ≠ some i)
    (hbody : ev.runSingleStmt
      { s with world := (s.world.poll.DefineValue s.env var x.ofInterface.unwrapInterface).1,
               stmt := some body } = .ok r) :
    LoopSignals env r (runForStmt.index ev env var body failAt (x :: rest) i s)
      (runForStmt.index ev env var body failAt rest (i + 1)) := by
  apply LoopSignals.of_afterBody
  simp only [runForStmt.index, runForStmt.body, hlive, hfail, hbody, Outcome.bind_ok,
    Bool.false_eq_true, if_false]

/-- One iteration of the for-in loop over a slice or array. -/
theorem runForStmt.slice_signals (ev : Eval) (env : Nat) (var : String) (body : Stmt)
    (x : Value) (rest : List Value) (s r : RunInfo) (hlive : s.world.Done = false)
    (hbody : ev.runSingleStmt
      { s with world := (s.world.poll.DefineValue s.env var
                 (if x.unwrapInterface.kind == .ptr then x.unwrapInterface.Elem
                  else x.unwrapInterface)).1,
               stmt := some body } = .ok r) :
    LoopSignals env r (runForStmt.slice ev env var body (x :: rest) s)
      (runForStmt.slice ev env var body rest) := by
  apply LoopSignals.of_afterBody
  simp only [runForStmt.slice, runForStmt.body, hlive, hbody, Outcome.bind_ok,
    Bool.false_eq_true, if_false]

/-- One iteration of the for-in loop over the keys of a map; `s1` is the
state in which the loop variables are defined. -/
theorem runForStmt.map_signals (ev : Eval) (env : Nat) (Vars : List String) (var : String)
    (body : Stmt) (mapId : Nat) (key val : Value) (rest : List (Value × Value)) (s s1 r : RunInfo)
    (hlive : s.world.Done = false)
    (hvars : s1 = (match Vars with
      | _ :: second :: _ =>
        { s with world := ((s.world.poll.DefineValue s.env var key).1.DefineValue s.env second
            (MapIndex (s.world.poll.DefineValue s.env var key).1 mapId key)).1 }
      | _ => { s with world := (s.world.poll.DefineValue s.env var key).1 }))
    (hbody : ev.runSingleStmt { s1 with stmt := some body } = .ok r) :
    LoopSignals env r (runForStmt.map ev env Vars var body mapId ((key, val) :: rest) s)
      (runForStmt.map ev env Vars var body mapId rest) := by
  subst hvars
  apply LoopSignals.of_afterBody
  match Vars with
  | [] =>
    simp only [runForStmt.map, runForStmt.body, hlive, Bool.false_eq_true, if_false] at hbody ⊢
    simp only [hbody, Outcome.bind_ok]
  | [_] =>
    simp only [runForStmt.map, runForStmt.body, hlive, Bool.false_eq_true, if_false] at hbody ⊢
    simp only [hbody, Outcome.bind_ok]
  | _ :: _ :: _ =>
    simp only [runForStmt.map, runForStmt.body, hlive, Bool.false_eq_true, if_false] at hbody ⊢
    simp only [hbody, Outcome.bind_ok]

/-- One iteration of the for-in loop over a channel that delivers a value. -/
theorem runForStmt.chan_signals (ev : Eval) (env : Nat) (var : String) (body : Stmt)
    (k : Nat) (v : Value) (sel : List SelectOutcome) (s r : RunInfo)
    (hsel : s.world.selects = .received v :: sel)
    (hbody : ev.runSingleStmt
      { s with rv := (if v.unwrapInterface.kind == .ptr then v.unwrapInterface.Elem
                      else v.unwrapInterface),
               world := (World.DefineValue { s.world with selects := sel } s.env var
                 (if v.unwrapInterface.kind == .ptr then v.unwrapInterface.Elem
                  else v.unwrapInterface)).1,
               stmt := some body } = .ok r) :
    LoopSignals env r (runForStmt.chan ev env var body (k + 1) s)
      (runForStmt.chan ev env var body k) := by
  apply LoopSignals.of_afterBody
  simp only [runForStmt.chan, runForStmt.body, hsel, hbody, Outcome.bind_ok]

/-- One iteration of the `CForStmt` loop whose condition holds: what the loop
does with the state `r` its body left. -/
theorem runCForStmt.loop_step (ev : Eval) (env : Nat) (Expr2 Expr3 : Option Expr) (body : Stmt)
    (k : Nat) (s c r : RunInfo) (hlive : s.world.Done = false)
    (htest : Expr2.elim (c = { s with world := s.world.poll })
      (fun e => ev.invokeExpr { s with world := s.world.poll, expr := some e } = .ok c
        ∧ c.err = none ∧ toBool c.world c.rv = true))
    (hbody : ev.runSingleStmt { c with stmt := some body } = .ok r) :
    runCForStmt.loop ev env Expr2 Expr3 body (k + 1) s =
      if r.err = none ∨ r.err = some .ErrContinue then
        match Expr3 with
        | some e =>
          (ev.invokeExpr { r with err := none, expr := some e }).bind fun q =>
          if q.err.isSome then .ok { q with rv := nilValue, env := env }
          else runCForStmt.loop ev env Expr2 Expr3 body k q
        | none => runCForStmt.loop ev env Expr2 Expr3 body k { r with err := none }
      else if r.err = some .ErrReturn then .ok { r with env := env }
      else if r.err = some .ErrBreak then .ok { r with err := none, rv := nilValue, env := env }
      else .ok { r with rv := nilValue, env := env } := by
  have hrun : runCForStmt.loop ev env Expr2 Expr3 body (k + 1) s =
      (ev.runSingleStmt { c with stmt := some body }).bind fun runInfo =>
        let runInfo := if runInfo.err = some .ErrContinue then { runInfo with err := none } else runInfo
        match runInfo.err with
        | some e =>
          if e = .ErrReturn then .ok { runInfo with env := env }
          else if e = .ErrBreak then .ok { runInfo with err := none, rv := nilValue, env := env }
          else .ok { runInfo with rv := nilValue, env := env }
        | none =>
          match Expr3 with
          | some e =>
            (ev.invokeExpr { runInfo with expr := some e }).bind fun r =>
            if r.err.isSome then .ok { r with rv := nilValue, env := env }
            else runCForStmt.loop ev env Expr2 Expr3 body k r
          | none => runCForStmt.loop ev env Expr2 Expr3 body k runInfo := by
    cases Expr2 with
    | none =>
      simp only [Option.elim] at htest
      subst htest
      simp only [runCForStmt.loop, hlive, Bool.false_eq_true, if_false, Outcome.bind_ok,
        Bool.not_true]
    | some e =>
      simp only [Option.elim] at htest
      obtain ⟨hc, hok, htrue⟩ := htest
      simp only [runCForStmt.loop, hlive, Bool.false_eq_true, if_false, Outcome.bind_ok, hc, hok,
        htrue, Option.isSome_none, Bool.not_true]
  rw [hrun, hbody, Outcome.bind_ok]
  obtain ⟨w, en, op, st, ex, rv, err, ce, rc, vt⟩ := r
  cases err with
  | none => cases Expr3 <;> simp
  | some e => cases e <;> cases Expr3 <;> simp

theorem Outcome.bind_eq_ok {α β : Type} (x : Outcome α) (f : α → Outcome β) (b : β) :
    x.bind f = .ok b ↔ ∃ a, x = .ok a ∧ f a = .ok b := by
  cases x <;> simp [Outcome.bind]

/-- The three ways `afterBody` classifies the state a loop body left. -/
theorem afterBody_cases (env : Nat) (r : RunInfo) :
    (∃ q, afterBody env r = .next q ∧ q.err = none) ∨
    (∃ q, afterBody env r = .ret q ∧ q.err = some .ErrReturn) ∨
    (∃ q, afterBody env r = .brk q ∧ NoLoopSignal q.err) := by
  cases herr : r.err with
  | none => exact .inl ⟨r, by simp [afterBody, herr], herr⟩
  | some e =>
    cases e with
    | ErrContinue => exact .inl ⟨_, afterBody_continue env r herr, rfl⟩
    | ErrReturn => exact .inr (.inl ⟨_, afterBody_return env r herr, herr⟩)
    | ErrBreak => exact .inr (.inr ⟨_, afterBody_break env r herr, by simp [NoLoopSignal]⟩)
    | ErrInterrupt =>
      exact .inr (.inr ⟨r, by simp [afterBody, herr], by simp [NoLoopSignal, herr]⟩)
    | vm m => exact .inr (.inr ⟨r, by simp [afterBody, herr], by simp [NoLoopSignal, herr]⟩)
    | host m => exact .inr (.inr ⟨r, by simp [afterBody, herr], by simp [NoLoopSignal, herr]⟩)

/-- What a loop built on `afterBody` returns is free of loop signals when the
next iteration is. -/
theorem afterBody_noSignal (env : Nat) (b r : RunInfo) (next : RunInfo → Outcome RunInfo)
    (hnext : ∀ q, q.err = none → next q = .ok r → NoLoopSignal r.err)
    (h : (match afterBody env b with
      | .next q => next q
      | .ret q => .ok q
      | .brk q => .ok { q with rv := nilValue, env := env }) = .ok r) :
    NoLoopSignal r.err := by
  rcases afterBody_cases env b with ⟨q, hq, he⟩ | ⟨q, hq, he⟩ | ⟨q, hq, he⟩
  · rw [hq] at h
    exact hnext q he h
  · rw [hq] at h
    simp only [Outcome.ok.injEq] at h
    subst h
    simp [NoLoopSignal, he]
  · rw [hq] at h
    simp only [Outcome.ok.injEq] at h
    subst h
    exact he

theorem NoLoopSignal.of_none {err : Option GoError} (h : err = none) : NoLoopSignal err := by
  subst h
  simp [NoLoopSignal]

/-- The `LoopStmt` loop entered without a loop signal never ends with
`ErrBreak` or `ErrContinue` when the evaluation of its condition raises
none. -/
theorem runLoopStmt.loop_noSignal (ev : Eval) (env : Nat) (cond : Option Expr) (body : Stmt)
    (hcond : ∀ e, cond = some e → KeepsNoSignal ev e) :
    ∀ k s r, NoLoopSignal s.err → runLoopStmt.loop ev env cond body k s = .ok r →
      NoLoopSignal r.err := by
  intro k
  induction k with
  | zero => intro s r _ h; simp [runLoopStmt.loop] at h
  | succ k ih =>
    intro s r hs h
    unfold runLoopStmt.loop at h
    split at h
    · simp only [Outcome.ok.injEq] at h
      subst h
      simp [NoLoopSignal]
    · simp only [Outcome.bind_eq_ok] at h
      obtain ⟨⟨go, c⟩, htest, h⟩ := h
      have hc : go = false → NoLoopSignal c.err := by
        intro hgo
        subst hgo
        cases cond with
        | none => simp at htest
        | some e =>
          simp only [Outcome.bind_eq_ok] at htest
          obtain ⟨q, hq, htest⟩ := htest
          have := hcond e rfl { s with world := s.world.poll } q hs hq
          split at htest
          · simp only [Outcome.ok.injEq, Prod.mk.injEq] at htest
            rw [← htest.2]; exact this
          · split at htest
            · simp only [Outcome.ok.injEq, Prod.mk.injEq] at htest
              rw [← htest.2]; exact this
            · simp at htest
      cases go with
      | false =>
        simp only [Bool.not_false, if_true, Outcome.ok.injEq] at h
        subst h
        exact hc rfl
      | true =>
        simp only [Bool.not_true, Bool.false_eq_true, if_false, Outcome.bind_eq_ok] at h
        obtain ⟨b, -, h⟩ := h
        exact afterBody_noSignal env b r _
          (fun q hqn hq => ih q r (by rw [hqn]; simp [NoLoopSignal]) hq) h

/-- The for-in loop over an Index-capable value never ends with `ErrBreak` or
`ErrContinue`. -/
theorem runForStmt.index_noSignal (ev : Eval) (env : Nat) (var : String) (body : Stmt)
    (failAt : Option Nat) :
    ∀ xs i s r, NoLoopSignal s.err →
      runForStmt.index ev env var body failAt xs i s = .ok r → NoLoopSignal r.err := by
  intro xs
  induction xs with
  | nil =>
    intro i s r hs h
    simp only [runForStmt.index, Outcome.ok.injEq] at h
    subst h
    exact hs
  | cons x rest ih =>
    intro i s r hs h
    unfold runForStmt.index at h
    split at h
    · simp only [Outcome.ok.injEq] at h
      subst h
      simp [NoLoopSignal]
    · split at h
      · simp only [Outcome.ok.injEq] at h
        subst h
        simp [NoLoopSignal, newError]
      · simp only [runForStmt.body, Outcome.bind_eq_ok] at h
        obtain ⟨step, ⟨b, -, hstep⟩, h⟩ := h
        simp only [Outcome.ok.injEq] at hstep
        subst hstep
        exact afterBody_noSignal env b r _
          (fun q hq hres => ih (i + 1) q r (NoLoopSignal.of_none hq) hres) h

/-- The for-in loop over a slice never ends with `ErrBreak` or
`ErrContinue`. -/
theorem runForStmt.slice_noSignal (ev : Eval) (env : Nat) (var : String) (body : Stmt) :
    ∀ xs s r, NoLoopSignal s.err →
      runForStmt.slice ev env var body xs s = .ok r → NoLoopSignal r.err := by
  intro xs
  induction xs with
  | nil =>
    intro s r hs h
    simp only [runForStmt.slice, Outcome.ok.injEq] at h
    subst h
    exact hs
  | cons x rest ih =>
    intro s r hs h
    unfold runForStmt.slice at h
    split at h
    · simp only [Outcome.ok.injEq] at h
      subst h
      simp [NoLoopSignal]
    · simp only [runForStmt.body, Outcome.bind_eq_ok] at h
      obtain ⟨step, ⟨b, -, hstep⟩, h⟩ := h
      simp only [Outcome.ok.injEq] at hstep
      subst hstep
      exact afterBody_noSignal env b r _
        (fun q hq hres => ih q r (NoLoopSignal.of_none hq) hres) h

/-- The for-in loop over a map never ends with `ErrBreak` or `ErrContinue`. -/
theorem runForStmt.map_noSignal (ev : Eval) (env : Nat) (Vars : List String) (var : String)
    (body : Stmt) (mapId : Nat) :
    ∀ kvs s r, NoLoopSignal s.err →
      runForStmt.map ev env Vars var body mapId kvs s = .ok r → NoLoopSignal r.err := by
  intro kvs
  induction kvs with
  | nil =>
    intro s r hs h
    simp only [runForStmt.map, Outcome.ok.injEq] at h
    subst h
    exact hs
  | cons kv rest ih =>
    intro s r hs h
    obtain ⟨key, val⟩ := kv
    unfold runForStmt.map at h
    split at h
    · simp only [Outcome.ok.injEq] at h
      subst h
      simp [NoLoopSignal]
    · simp only [runForStmt.body, Outcome.bind_eq_ok] at h
      obtain ⟨step, ⟨b, -, hstep⟩, h⟩ := h
      simp only [Outcome.ok.injEq] at hstep
      subst hstep
      exact afterBody_noSignal env b r _
        (fun q hq hres => ih q r (NoLoopSignal.of_none hq) hres) h

/-- The for-in loop over a channel never ends with `ErrBreak` or
`ErrContinue`. -/
theorem runForStmt.chan_noSignal (ev : Eval) (env : Nat) (var : String) (body : Stmt) :
    ∀ k s r, NoLoopSignal s.err →
      runForStmt.chan ev env var body k s = .ok r → NoLoopSignal r.err := by
  intro k
  induction k with
  | zero => intro s r _ h; simp [runForStmt.chan] at h
  | succ k ih =>
    intro s r hs h
    unfold runForStmt.chan at h
    split at h
    · simp at h
    · simp only [Outcome.ok.injEq] at h
      subst h
      simp [NoLoopSignal]
    · simp only [Outcome.ok.injEq] at h
      subst h
      exact hs
    · simp only [runForStmt.body, Outcome.bind_eq_ok] at h
      obtain ⟨step, ⟨b, -, hstep⟩, h⟩ := h
      simp only [Outcome.ok.injEq] at hstep
      subst hstep
      exact afterBody_noSignal env b r _
        (fun q hq hres => ih q r (NoLoopSignal.of_none hq) hres) h

/-- The `CForStmt` loop entered without a loop signal never ends with
`ErrBreak` or `ErrContinue` when the evaluation of its condition and of its
post expression raise none. -/
theorem runCForStmt.cfor_noSignal (ev : Eval) (env : Nat) (Expr2 Expr3 : Option Expr) (body : Stmt)
    (hcond : ∀ e, Expr2 = some e → KeepsNoSignal ev e)
    (hpostK : ∀ e, Expr3 = some e → KeepsNoSignal ev e) :
    ∀ k s r, NoLoopSignal s.err → runCForStmt.loop ev env Expr2 Expr3 body k s = .ok r →
      NoLoopSignal r.err := by
  intro k
  induction k with
  | zero => intro s r _ h; simp [runCForStmt.loop] at h
  | succ k ih =>
    intro s r hs h
    unfold runCForStmt.loop at h
    split at h
    · simp only [Outcome.ok.injEq] at h
      subst h
      simp [NoLoopSignal]
    · simp only [Outcome.bind_eq_ok] at h
      obtain ⟨⟨go, c⟩, htest, h⟩ := h
      have hc : go = false → NoLoopSignal c.err := by
        intro hgo
        subst hgo
        cases Expr2 with
        | none => simp at htest
        | some e =>
          simp only [Outcome.bind_eq_ok] at htest
          obtain ⟨q, hq, htest⟩ := htest
          have := hcond e rfl { s with world := s.world.poll } q hs hq
          split at htest
          · simp only [Outcome.ok.injEq, Prod.mk.injEq] at htest
            rw [← htest.2]; exact this
          · split at htest
            · simp only [Outcome.ok.injEq, Prod.mk.injEq] at htest
              rw [← htest.2]; exact this
            · simp at htest
      cases go with
      | false =>
        simp only [Bool.not_false, if_true, Outcome.ok.injEq] at h
        subst h
        exact hc rfl
      | true =>
        simp only [Bool.not_true, Bool.false_eq_true, if_false, Outcome.bind_eq_ok] at h
        obtain ⟨b, -, h⟩ := h
        obtain ⟨w, en, op, st, ex, rv, err, ce, rc, vt⟩ := b
        have hpost : ∀ b2 : RunInfo, b2.err = none → (match Expr3 with
            | some e =>
              (ev.invokeExpr { b2 with expr := some e }).bind fun r =>
              if r.err.isSome then .ok { r with rv := nilValue, env := env }
              else runCForStmt.loop ev env Expr2 Expr3 body k r
            | none => runCForStmt.loop ev env Expr2 Expr3 body k b2) = .ok r →
            NoLoopSignal r.err := by
          intro b2 hb2 hp
          cases Expr3 with
          | none => exact ih _ r (NoLoopSignal.of_none hb2) hp
          | some e =>
            simp only [Outcome.bind_eq_ok] at hp
            obtain ⟨q, hq, hp⟩ := hp
            have hkeep := hpostK e rfl b2 q (NoLoopSignal.of_none hb2) hq
            split at hp
            · simp only [Outcome.ok.injEq] at hp
              subst hp
              exact hkeep
            · exact ih _ r hkeep hp
        cases err with
        | none =>
          exact hpost ⟨w, en, op, st, ex, rv, none, ce, rc, vt⟩ rfl (by simpa using h)
        | some e =>
          cases e with
          | ErrContinue =>
            exact hpost ⟨w, en, op, st, ex, rv, none, ce, rc, vt⟩ rfl (by simpa using h)
          | ErrReturn => simp at h; subst h; simp [NoLoopSignal]
          | ErrBreak => simp at h; subst h; simp [NoLoopSignal]
          | ErrInterrupt => simp at h; subst h; simp [NoLoopSignal]
          | vm m => simp at h; subst h; simp [NoLoopSignal]
          | host m => simp at h; subst h; simp [NoLoopSignal]

/-- A For-in statement entered without a loop signal never ends with
`ErrBreak` or `ErrContinue` when the evaluation of its iterable raises none. -/
theorem runForStmt_noSignal (ev : Eval) (runInfo : RunInfo) (Vars : List String) (Value : Expr)
    (body : Stmt) (hentry : NoLoopSignal runInfo.err) (hexpr : KeepsNoSignal ev Value)
    (r : RunInfo) (h : runForStmt ev runInfo Vars Value body = .ok r) : NoLoopSignal r.err := by
  simp only [runForStmt, Outcome.bind_eq_ok] at h
  obtain ⟨v, hv, h⟩ := h
  have hve := hexpr runInfo v hentry hv
  split at h
  · simp only [Outcome.ok.injEq] at h
    subst h
    exact hve
  · have hstart : ∀ w p, NoLoopSignal ({ v with world := w, env := p } : RunInfo).err := fun _ _ => hve
    split at h
    · simp at h
    · split at h
      · exact runForStmt.index_noSignal ev _ _ body _ _ _ _ r (hstart _ _) h
      · split at h
        · simp only [Outcome.ok.injEq] at h
          subst h
          exact hve
        · simp at h
    · split at h
      · exact runForStmt.slice_noSignal ev _ _ body _ _ r (hstart _ _) h
      · split at h
        · simp only [Outcome.ok.injEq] at h
          subst h
          exact hve
        · simp at h
    · split at h
      · exact runForStmt.map_noSignal ev _ _ _ body _ _ _ r (hstart _ _) h
      · split at h
        · simp only [Outcome.ok.injEq] at h
          subst h
          exact hve
        · simp at h
    · split at h
      · exact runForStmt.chan_noSignal ev _ _ body _ _ r (hstart _ _) h
      · simp at h
    · split at h
      · simp only [Outcome.ok.injEq] at h
        subst h
        exact hve
      · split at h
        · split at h
          · simp only [Outcome.ok.injEq] at h
            subst h
            simp [NoLoopSignal]
          · simp at h
        · simp only [Outcome.ok.injEq] at h
          subst h
          simp [NoLoopSignal, newStringError]

/-- A C-style for statement entered without a loop signal never ends with
`ErrBreak` or `ErrContinue` when its init statement, its condition and its
post expression raise none. -/
theorem runCForStmt_noSignal (ev : Eval) (runInfo : RunInfo) (Stmt1 : Option Stmt)
    (Expr2 Expr3 : Option Expr) (body : Stmt)
    (hentry : NoLoopSignal runInfo.err)
    (hinit : ∀ (init : Stmt) (s q : RunInfo), Stmt1 = some init → NoLoopSignal s.err →
      ev.runSingleStmt { s with stmt := some init } = .ok q → NoLoopSignal q.err)
    (hcond : ∀ e, Expr2 = some e → KeepsNoSignal ev e)
    (hpost : ∀ e, Expr3 = some e → KeepsNoSignal ev e)
    (r : RunInfo) (h : runCForStmt ev runInfo Stmt1 Expr2 Expr3 body = .ok r) :
    NoLoopSignal r.err := by
  simp only [runCForStmt, Outcome.bind_eq_ok] at h
  obtain ⟨v, hv, h⟩ := h
  have hv2 : NoLoopSignal v.err := by
    cases Stmt1 with
    | none =>
      simp only [Outcome.ok.injEq] at hv
      rw [← hv]
      exact hentry
    | some init =>
      exact hinit init { runInfo with world := (runInfo.world.NewEnv runInfo.env).1,
                                      env := (runInfo.world.NewEnv runInfo.env).2 } v rfl hentry hv
  split at h
  · simp only [Outcome.ok.injEq] at h
    subst h
    exact hv2
  · exact runCForStmt.cfor_noSignal ev _ Expr2 Expr3 body hcond hpost _ _ r hv2 h

/-- The for-in loop over a slice all of whose iterations run without error. -/
theorem runForStmt.slice_iterates (ev : Eval) (env : Nat) (var : String) (body : Stmt)
    (xs : List Value) (s t : RunInfo) (h : Iterates ev var body xs s t) :
    runForStmt.slice ev env var body xs s = .ok { t with rv := nilValue, env := env } := by
  induction h with
  | nil s => rfl
  | @cons x rest s s1 t hlive hbody hok _ ih =>
    have hnext : afterBody env s1 = .next s1 := by simp [afterBody, hok]
    simp only [runForStmt.slice, runForStmt.body, hlive, hbody, Outcome.bind_ok,
      Bool.false_eq_true, if_false, hnext, ih]

/-- The state the chain of iterations ends in has no error when the state
it starts from has none. -/
theorem Iterates.err_none (ev : Eval) (var : String) (body : Stmt) (xs : List Value)
    (s t : RunInfo) (h : Iterates ev var body xs s t) (hs : s.err = none) : t.err = none := by
  induction h with
  | nil s => exact hs
  | cons _ _ hok _ ih => exact ih hok

/-- The parameter types `funcType` builds for a script function that is not
variadic: the context, the receiver slot when there is one, then one carrier
per declared parameter. -/
theorem funcType_ins (n : Nat) (hr : Bool) :
    (funcType n hr false).ins
      = contextType :: ((if hr then [vmStructType] else []) ++ List.replicate n reflectValueType) := by
  cases hr
  · simp [funcType, List.replicate_succ]
  · simp [funcType, List.replicate_succ]

theorem EvalsTo.values_length (ev : Eval) (es : List Expr) (s t : RunInfo) (vs : List Value)
    (h : EvalsTo ev es s vs t) : vs.length = es.length := by
  induction h with
  | nil s => rfl
  | cons _ _ _ ih => simp [ih]

/-- The argument loop of `makeCallArgs` followed by the last argument, for a
script function: when the remaining expressions all evaluate without error,
their values are appended, in order, each in a carrier. -/
theorem makeCallArgs.loop_script (ev : Eval) (rt : FuncType) (SubExprs : List Expr) :
    ∀ (es : List Expr) (s : RunInfo) (vs : List Value) (t : RunInfo),
      EvalsTo ev es s vs t → es ≠ [] →
      ∀ (fuel : Nat) (args : List Value) (iIn iReal j : Nat),
        (∀ i, i < es.length → SubExprs.get? (j + i) = es.get? i) →
        j + es.length = SubExprs.length →
        iReal + es.length ≤ rt.NumIn →
        es.length ≤ fuel →
        (makeCallArgs.loop ev rt true SubExprs fuel s args iIn iReal j).bind (fun r =>
          match r with
          | .error ri => .ok (ri, [], false)
          | .ok (runInfo, args, _, indexInReal, indexExpr) =>
            makeCallArgs.lastArg ev rt true SubExprs runInfo args indexInReal indexExpr)
        = .ok (t, args ++ vs.map Value.carrier, false) := by
  intro es s vs t h
  induction h with
  | nil s => intro hne; exact absurd rfl hne
  | @cons e es' s s1 t vs hrun hok hrest ih =>
    intro _ fuel args iIn iReal j hget hlen hN hfuel
    have hget0 : SubExprs[j]? = some e := by
      have := hget 0 (by simp)
      simpa using this
    by_cases hes : es' = []
    · subst hes
      cases hrest
      have hcond : (decide (iReal < rt.NumIn - 1) && decide (j < SubExprs.length - 1)) = false := by
        simp only [List.length_singleton] at hlen
        simp
        omega
      have hloop : makeCallArgs.loop ev rt true SubExprs fuel s args iIn iReal j
          = .ok (.ok (s, args, iIn, iReal, j)) := by
        cases fuel <;> simp [makeCallArgs.loop, hcond]
      simp [hloop, makeCallArgs.lastArg, hget0, hrun, hok, makeCallArgs.addArg]
    · have hpos : 0 < es'.length := List.length_pos.mpr hes
      simp only [List.length_cons] at hlen hN hfuel
      have hcond : (decide (iReal < rt.NumIn - 1) && decide (j < SubExprs.length - 1)) = true := by
        simp
        omega
      obtain ⟨k, rfl⟩ : ∃ k, fuel = k + 1 := ⟨fuel - 1, by omega⟩
      have hrec := ih hes k (args ++ [.carrier s1.rv]) (iIn + 1) (iReal + 1) (j + 1)
        (by
          intro i hi
          have := hget (i + 1) (by simp; omega)
          simpa [Nat.add_assoc, Nat.add_comm 1 i] using this)
        (by omega) (by omega) (by omega)
      simp only [makeCallArgs.loop, hcond, if_true, List.get?_eq_getElem?, hget0, hrun,
        Outcome.bind_ok, hok, Option.isSome_none, Bool.false_eq_true, if_false,
        makeCallArgs.addArg]
      rw [hrec]
      simp

/-- For the type of a script function that is not variadic the flag `hasRecv`
of `makeCallArgs` is the receiver flag of the function, given that a receiver
is pending when the function has one. -/
theorem makeCallArgs.hasRecv_funcType (runInfo : RunInfo) (n : Nat) (hr : Bool)
    (hrecv : hr = true → runInfo.recv.IsValid = true) :
    makeCallArgs.hasRecv runInfo (funcType n hr false) = hr := by
  cases hr with
  | true =>
    simp [makeCallArgs.hasRecv, FuncType.NumIn, FuncType.In, funcType_ins, hrecv rfl]
  | false =>
    cases n with
    | zero => simp [makeCallArgs.hasRecv, FuncType.NumIn, FuncType.In, funcType_ins]
    | succ m =>
      simp [makeCallArgs.hasRecv, FuncType.NumIn, FuncType.In, funcType_ins, List.replicate_succ]

theorem funcType_NumIn (n : Nat) (hr : Bool) :
    (funcType n hr false).NumIn = n + (if hr then 2 else 1) := by
  cases hr <;> simp [FuncType.NumIn, funcType_ins]

/-- A value whose static type is the target type is coerced to itself. -/
theorem convertReflectValueToType_same (v : Value) (t : GoType) (h : v.TypeOf = t) :
    convertReflectValueToType v t = (v, none) := by
  cases v <;> simp_all [convertReflectValueToType, Value.TypeOf]

/-- Every value is coerced to itself for an `interface{}` target. -/
theorem convertReflectValueToType_iface (v : Value) :
    convertReflectValueToType v .iface = (v, none) := by
  cases v <;> simp [convertReflectValueToType]

/-- A value coerced without error is accepted by reflect for a parameter of
the target type. -/
theorem convertReflectValueToType_assignable :
    ∀ (v : Value) (t : GoType) (c : Value),
      convertReflectValueToType v t = (c, none) → assignable c t = true
  | .iface s v, t, c, h => by
    by_cases h1 : t = .iface ∨ s = t
    · simp only [convertReflectValueToType, h1, if_true, Prod.mk.injEq, and_true] at h
      subst h
      rcases h1 with h1 | h1 <;> simp [assignable, Value.TypeOf, h1]
    · simp only [convertReflectValueToType, h1, if_false] at h
      cases hc : convertReflectValueToType v t with
      | mk c2 e2 =>
        cases e2 with
        | none =>
          simp only [hc, Prod.mk.injEq, and_true] at h
          subst h
          exact convertReflectValueToType_assignable v t c2 hc
        | some e => simp [hc] at h
  | .slice e xs, t, c, h => by
    by_cases h1 : t = .iface ∨ t = .slice e
    · simp only [convertReflectValueToType, h1, if_true, Prod.mk.injEq, and_true] at h
      subst h
      rcases h1 with h1 | h1 <;> simp [assignable, Value.TypeOf, h1]
    · simp only [convertReflectValueToType, h1, if_false] at h
      cases t <;> simp at h
      rename_i e2
      cases hl : convertList xs e2 with
      | none => simp [hl] at h
      | some ys =>
        simp only [hl, Prod.mk.injEq, and_true] at h
        subst h
        simp [assignable, Value.TypeOf]
  | .nil s, t, c, h => by
    simp only [convertReflectValueToType] at h
    split at h
    · rename_i h1
      simp only [Prod.mk.injEq, and_true] at h
      subst h
      rcases h1 with h1 | h1 <;> simp [assignable, Value.TypeOf, h1]
    · split at h
      · simp only [Prod.mk.injEq, and_true] at h
        subst h
        simp [assignable, Value.TypeOf]
      · simp at h
  | .error e, t, c, h => by
    simp only [convertReflectValueToType] at h
    split at h
    · rename_i h1
      simp only [Prod.mk.injEq, and_true] at h
      subst h
      rcases h1 with h1 | h1 | h1
      · simp [assignable, h1]
      · simp [assignable, h1, Value.implementsError]
      · simp [assignable, h1]
    · simp at h
  | .invalid, t, c, h => by
    simp only [convertReflectValueToType] at h
    split at h
    · rename_i h1
      simp only [Prod.mk.injEq, and_true] at h
      subst h
      rcases h1 with h1 | h1 <;> simp [assignable, h1]
    · simp at h
  | .bool b, t, c, h => by
    simp only [convertReflectValueToType] at h
    split at h
    · rename_i h1
      simp only [Prod.mk.injEq, and_true] at h
      subst h
      rcases h1 with h1 | h1 <;> simp [assignable, h1]
    · simp at h
  | .int i, t, c, h => by
    simp only [convertReflectValueToType] at h
    split at h
    · rename_i h1
      simp only [Prod.mk.injEq, and_true] at h
      subst h
      rcases h1 with h1 | h1 <;> simp [assignable, h1]
    · simp at h
  | .str s, t, c, h => by
    simp only [convertReflectValueToType] at h
    split at h
    · rename_i h1
      simp only [Prod.mk.injEq, and_true] at h
      subst h
      rcases h1 with h1 | h1 <;> simp [assignable, h1]
    · simp at h
  | .map k v id, t, c, h => by
    simp only [convertReflectValueToType] at h
    split at h
    · rename_i h1
      simp only [Prod.mk.injEq, and_true] at h
      subst h
      rcases h1 with h1 | h1 <;> simp [assignable, h1]
    · simp at h
  | .chan id, t, c, h => by
    simp only [convertReflectValueToType] at h
    split at h
    · rename_i h1
      simp only [Prod.mk.injEq, and_true] at h
      subst h
      rcases h1 with h1 | h1 <;> simp [assignable, h1]
    · simp at h
  | .func ft ref, t, c, h => by
    simp only [convertReflectValueToType] at h
    split at h
    · rename_i h1
      simp only [Prod.mk.injEq, and_true] at h
      subst h
      rcases h1 with h1 | h1 <;> simp [assignable, h1]
    · simp at h
  | .env p, t, c, h => by
    simp only [convertReflectValueToType] at h
    split at h
    · rename_i h1
      simp only [Prod.mk.injEq, and_true] at h
      subst h
      rcases h1 with h1 | h1 <;> simp [assignable, h1]
    · simp at h
  | .vmStruct v, t, c, h => by
    simp only [convertReflectValueToType] at h
    split at h
    · rename_i h1
      simp only [Prod.mk.injEq, and_true] at h
      subst h
      rcases h1 with h1 | h1 <;> simp [assignable, h1]
    · simp at h
  | .carrier v, t, c, h => by
    simp only [convertReflectValueToType] at h
    split at h
    · rename_i h1
      simp only [Prod.mk.injEq, and_true] at h
      subst h
      rcases h1 with h1 | h1 <;> simp [assignable, h1]
    · simp at h
  | .ctx, t, c, h => by
    simp only [convertReflectValueToType] at h
    split at h
    · rename_i h1
      simp only [Prod.mk.injEq, and_true] at h
      subst h
      rcases h1 with h1 | h1 <;> simp [assignable, h1]
    · simp at h
  | .ptr v, t, c, h => by
    simp only [convertReflectValueToType] at h
    split at h
    · rename_i h1
      simp only [Prod.mk.injEq, and_true] at h
      subst h
      rcases h1 with h1 | h1 <;> simp [assignable, h1]
    · simp at h
  | .index items failAt, t, c, h => by
    simp only [convertReflectValueToType] at h
    split at h
    · rename_i h1
      simp only [Prod.mk.injEq, and_true] at h
      subst h
      rcases h1 with h1 | h1 <;> simp [assignable, h1]
    · simp at h
  | .type ty, t, c, h => by
    simp only [convertReflectValueToType] at h
    split at h
    · rename_i h1
      simp only [Prod.mk.injEq, and_true] at h
      subst h
      rcases h1 with h1 | h1 <;> simp [assignable, h1]
    · simp at h
  | .foreign ty id, t, c, h => by
    simp only [convertReflectValueToType] at h
    split at h
    · rename_i h1
      simp only [Prod.mk.injEq, and_true] at h
      subst h
      rcases h1 with h1 | h1 <;> simp [assignable, h1]
    · simp at h
  | .deref p, t, c, h => by
    simp only [convertReflectValueToType] at h
    split at h
    · rename_i h1
      simp only [Prod.mk.injEq, and_true] at h
      subst h
      rcases h1 with h1 | h1 <;> simp [assignable, h1]
    · simp at h

theorem ArgsTo.lengths (ev : Eval) (ty : Nat → GoType) (i : Nat) (es : List Expr)
    (s t : RunInfo) (vs cs : List Value) (h : ArgsTo ev ty i es s vs cs t) :
    vs.length = es.length ∧ cs.length = es.length := by
  induction h with
  | nil i s => exact ⟨rfl, rfl⟩
  | cons _ _ _ _ ih => simp [ih.1, ih.2]

/-- A chain over `es1 ++ es2` is a chain over `es1` followed by one over
`es2`. -/
theorem ArgsTo.split (ev : Eval) (ty : Nat → GoType) :
    ∀ (es1 es2 : List Expr) (i : Nat) (s t : RunInfo) (vs cs : List Value),
      ArgsTo ev ty i (es1 ++ es2) s vs cs t →
      ∃ s1 vs1 cs1 vs2 cs2, ArgsTo ev ty i es1 s vs1 cs1 s1 ∧
        ArgsTo ev ty (i + es1.length) es2 s1 vs2 cs2 t ∧ vs = vs1 ++ vs2 ∧ cs = cs1 ++ cs2 := by
  intro es1
  induction es1 with
  | nil =>
    intro es2 i s t vs cs h
    exact ⟨s, [], [], vs, cs, ArgsTo.nil i s, by simpa using h, rfl, rfl⟩
  | cons e es1 ih =>
    intro es2 i s t vs cs h
    cases h with
    | cons hrun hok hconv hrest =>
      obtain ⟨s1, vs1, cs1, vs2, cs2, h1, h2, hv, hc⟩ := ih es2 _ _ _ _ _ hrest
      refine ⟨s1, _ :: vs1, _ :: cs1, vs2, cs2, ArgsTo.cons hrun hok hconv h1, ?_, ?_, ?_⟩
      · have hidx : i + (e :: es1).length = i + 1 + es1.length := by
          simp only [List.length_cons]; omega
        rw [hidx]
        exact h2
      · simp [hv]
      · simp [hc]

/-- The values a chain with one target type coerced are the element-wise
coercion of the evaluated values, and reflect accepts each of them. -/
theorem ArgsTo.convertList_eq (ev : Eval) (elem : GoType) (i : Nat) (es : List Expr)
    (s t : RunInfo) (vs cs : List Value) (h : ArgsTo ev (fun _ => elem) i es s vs cs t) :
    convertList vs elem = some cs ∧ (cs.all fun c => assignable c elem) = true := by
  induction h with
  | nil i s => simp [convertList]
  | cons _ _ hconv _ ih =>
    refine ⟨?_, ?_⟩
    · simp only [convertList, hconv, ih.1]
    · simp only [List.all_cons, ih.2, Bool.and_true]
      exact convertReflectValueToType_assignable _ _ _ hconv

theorem Value.storedAs_TypeOf (t : GoType) (x : Value) (h : x.storedAs t = true) :
    x.TypeOf = t := by
  cases x <;> simp_all [Value.storedAs, Value.TypeOf]

theorem Value.storedAs_toInterface (x : Value) (h : x.storedAs .iface = true) :
    x.toInterface = x := by
  cases x <;> simp_all [Value.storedAs, Value.toInterface]

/-- The element-wise coercion of well-typed elements to their own type leaves
them as they are. -/
theorem convertList_storedAs (elem : GoType) (xs ys : List Value)
    (hwf : ∀ x ∈ xs, x.storedAs elem = true) (h : convertList xs elem = some ys) : ys = xs := by
  induction xs generalizing ys with
  | nil => simpa [convertList] using h.symm
  | cons x xs ih =>
    have hx := convertReflectValueToType_same x elem
      (Value.storedAs_TypeOf elem x (hwf x (List.mem_cons_self _ _)))
    cases hl : convertList xs elem with
    | none => simp [convertList, hx, hl] at h
    | some zs =>
      simp only [convertList, hx, hl, Option.some.injEq] at h
      subst h
      rw [ih zs (fun y hy => hwf y (List.mem_cons_of_mem _ hy)) hl]

/-- The argument loop of `makeCallArgs` leaves its state as it is once its
condition fails. -/
theorem makeCallArgs.loop_stop (ev : Eval) (rt : FuncType) (isRunVMFunction : Bool)
    (SubExprs : List Expr) (fuel : Nat) (s : RunInfo) (args : List Value) (iIn iReal j : Nat)
    (h : ¬ (iReal < rt.NumIn - 1 ∧ j < SubExprs.length - 1)) :
    makeCallArgs.loop ev rt isRunVMFunction SubExprs fuel s args iIn iReal j
      = .ok (.ok (s, args, iIn, iReal, j)) := by
  have hcond : (decide (iReal < rt.NumIn - 1) && decide (j < SubExprs.length - 1)) = false := by
    simpa using h
  cases fuel <;> simp [makeCallArgs.loop, hcond]

/-- The argument loop of `makeCallArgs` for a native function passes over
expressions that evaluate and are coerced without error, appending the coerced
values. -/
theorem makeCallArgs.loop_native (ev : Eval) (rt : FuncType) (SubExprs : List Expr) :
    ∀ (i : Nat) (es : List Expr) (s : RunInfo) (vs cs : List Value) (t : RunInfo),
      ArgsTo ev rt.In i es s vs cs t →
      ∀ (fuel : Nat) (args : List Value) (iIn j : Nat),
        (∀ n, n < es.length → SubExprs[j + n]? = es[n]?) →
        i + es.length ≤ rt.NumIn - 1 →
        j + es.length ≤ SubExprs.length - 1 →
        makeCallArgs.loop ev rt false SubExprs (es.length + fuel) s args iIn i j
          = makeCallArgs.loop ev rt false SubExprs fuel t (args ++ cs) (iIn + es.length)
              (i + es.length) (j + es.length) := by
  intro i es s vs cs t h
  induction h with
  | nil i s => intro fuel args iIn j _ _ _; simp
  | @cons i e es s s1 t c vs cs hrun hok hconv hrest ih =>
    intro fuel args iIn j hget hN hlen
    simp only [List.length_cons] at hN hlen
    have hget0 : SubExprs[j]? = some e := by
      have := hget 0 (by simp)
      simpa using this
    have hcond : (decide (i < rt.NumIn - 1) && decide (j < SubExprs.length - 1)) = true := by
      simp
      omega
    have hfuel : (e :: es).length + fuel = (es.length + fuel) + 1 := by
      simp only [List.length_cons]; omega
    have hrec := ih fuel (args ++ [c]) (iIn + 1) (j + 1)
      (by
        intro n hn
        have := hget (n + 1) (by simp; omega)
        simpa [Nat.add_assoc, Nat.add_comm 1 n] using this)
      (by omega) (by omega)
    rw [hfuel]
    simp only [makeCallArgs.loop, hcond, if_true, List.get?_eq_getElem?, hget0, hrun,
      Outcome.bind_ok, hok, Option.isSome_none, Bool.false_eq_true, if_false,
      makeCallArgs.addArg, hconv]
    rw [hrec]
    have e1 : iIn + 1 + es.length = iIn + (e :: es).length := by
      simp only [List.length_cons]; omega
    have e2 : i + 1 + es.length = i + (e :: es).length := by
      simp only [List.length_cons]; omega
    have e3 : j + 1 + es.length = j + (e :: es).length := by
      simp only [List.length_cons]; omega
    rw [e1, e2, e3, List.append_assoc, List.singleton_append]

/-- The loop of `makeCallArgs` that collects the trailing arguments of a call
that is not variadic to a variadic function. -/
theorem makeCallArgs.collect_native (ev : Eval) (rt : FuncType) (SubExprs : List Expr)
    (elem : GoType) (iReal : Nat) :
    ∀ (i : Nat) (es : List Expr) (s : RunInfo) (vs cs : List Value) (t : RunInfo),
      ArgsTo ev (fun _ => elem) i es s vs cs t →
      ∀ (fuel : Nat) (args : List Value) (j : Nat),
        (∀ n, n < es.length → SubExprs[j + n]? = es[n]?) →
        j + es.length = SubExprs.length →
        es.length ≤ fuel →
        makeCallArgs.collect ev rt SubExprs elem iReal fuel s args j
          = .ok (t, args ++ cs, false) := by
  intro i es s vs cs t h
  induction h with
  | nil i s =>
    intro fuel args j _ hlen _
    have hcond : ¬ j < SubExprs.length := by simp at hlen; omega
    cases fuel <;> simp [makeCallArgs.collect, hcond]
  | @cons i e es s s1 t c vs cs hrun hok hconv hrest ih =>
    intro fuel args j hget hlen hfuel
    simp only [List.length_cons] at hlen hfuel
    have hget0 : SubExprs[j]? = some e := by
      have := hget 0 (by simp)
      simpa using this
    have hcond : j < SubExprs.length := by omega
    obtain ⟨k, rfl⟩ : ∃ k, fuel = k + 1 := ⟨fuel - 1, by omega⟩
    have hrec := ih k (args ++ [c]) (j + 1)
      (by
        intro n hn
        have := hget (n + 1) (by simp; omega)
        simpa [Nat.add_assoc, Nat.add_comm 1 n] using this)
      (by omega) (by omega)
    simp only [makeCallArgs.collect, hcond, if_true, List.get?_eq_getElem?, hget0, hrun,
      Outcome.bind_ok, hok, Option.isSome_none, Bool.false_eq_true, if_false, hconv]
    rw [hrec, List.append_assoc, List.singleton_append]

/-- The spread call `f(a1..ak, xs...)` of a variadic native function: the
fixed arguments are coerced to their parameter types, the last argument to
the slice type of the variadic parameter, and `CallSlice` is asked for. -/
theorem makeCallArgs_spread (ev : Eval) (runInfo s1 s2 : RunInfo) (rt : FuncType)
    (fixed : List Expr) (xsExpr : Expr) (elem : GoType) (vsF cs : List Value) (sv : Value)
    (hvar : rt.IsVariadic = true) (hnum : rt.NumIn = fixed.length + 1)
    (hlast : rt.In fixed.length = .slice elem)
    (hfixed : ArgsTo ev rt.In 0 fixed
      (makeCallArgs.wrapRecv runInfo (makeCallArgs.hasRecv runInfo rt)) vsF cs s1)
    (hxs : ev.invokeExpr { s1 with expr := some xsExpr } = .ok s2) (hok : s2.err = none)
    (hconv : convertReflectValueToType s2.rv (.slice elem) = (sv, none)) :
    makeCallArgs ev runInfo rt false (fixed ++ [xsExpr]) true
      = .ok ({ s2 with rv := sv, err := none }, cs ++ [sv], true) := by
  have hloop := makeCallArgs.loop_native ev rt (fixed ++ [xsExpr]) 0 fixed _ vsF cs s1 hfixed 1 [] 0 0
    (by
      intro n hn
      simp only [Nat.zero_add]
      exact List.getElem?_append_left hn)
    (by omega) (by simp)
  have hstop := makeCallArgs.loop_stop ev rt false (fixed ++ [xsExpr]) 1 s1 ([] ++ cs)
    (0 + fixed.length) (0 + fixed.length) (0 + fixed.length) (by omega)
  simp only [Nat.zero_add, List.nil_append] at hloop hstop
  have hlt : ¬ rt.NumIn < 1 := by omega
  have hwrong : makeCallArgs.wrongCount rt true rt.NumIn (fixed.length + 1) = false := by
    simp [makeCallArgs.wrongCount, hvar, hnum]
  have hlast2 : rt.In (rt.NumIn - 1) = .slice elem := by
    rw [hnum]; simpa using hlast
  have hget : (fixed ++ [xsExpr])[fixed.length]? = some xsExpr := by simp
  have hne : ¬ fixed.length = fixed.length + 1 := by omega
  have hnl : ¬ fixed.length + 1 < rt.NumIn := by omega
  simp only [makeCallArgs, makeCallArgs.numIn, Bool.false_eq_true, if_false, hlt, hwrong, hvar,
    hlast2, GoType.kind, bne_self_eq_false, Bool.and_false, Bool.false_and, makeCallArgs.build,
    List.length_append, List.length_singleton, hloop, hstop, Outcome.bind_ok, Bool.not_true,
    Bool.and_true, Nat.zero_add, List.nil_append, List.get?_eq_getElem?, hget, hxs, hok,
    Option.isSome_none, hconv]
  simp [hne, hnl, hget, hxs, hok, hconv]

/-- The listing call `f(a1..ak, x1, .., xm)` of a variadic native function:
the fixed arguments are coerced to their parameter types, every trailing
argument to the element type of the variadic parameter, and `Call` is asked
for. -/
theorem makeCallArgs_listing (ev : Eval) (runInfo s1 t : RunInfo) (rt : FuncType)
    (fixed items : List Expr) (elem : GoType) (vsF cs xs ys : List Value)
    (hvar : rt.IsVariadic = true) (hnum : rt.NumIn = fixed.length + 1)
    (hlast : rt.In fixed.length = .slice elem)
    (hfixed : ArgsTo ev rt.In 0 fixed
      (makeCallArgs.wrapRecv runInfo (makeCallArgs.hasRecv runInfo rt)) vsF cs s1)
    (hitems : ArgsTo ev (fun _ => elem) 0 items s1 xs ys t) :
    makeCallArgs ev runInfo rt false (fixed ++ items) false = .ok (t, cs ++ ys, false) := by
  have hlt : ¬ rt.NumIn < 1 := by omega
  have hlast2 : rt.In (rt.NumIn - 1) = .slice elem := by
    rw [hnum]; simpa using hlast
  have hwrong : makeCallArgs.wrongCount rt false rt.NumIn (fixed.length + items.length) = false := by
    simp [makeCallArgs.wrongCount, hvar, hnum]
  by_cases hm : items = []
  · subst hm
    cases hitems
    simp only [List.length_nil, Nat.add_zero] at hwrong
    by_cases hk : fixed = []
    · subst hk
      cases hfixed
      have hstop := makeCallArgs.loop_stop ev rt false ([] : List Expr) 0
        (makeCallArgs.wrapRecv runInfo (makeCallArgs.hasRecv runInfo rt)) [] 0 0 0 (by simp)
      simp only [List.length_nil] at hwrong
      simp only [makeCallArgs, makeCallArgs.numIn, Bool.false_eq_true, if_false, hlt, hwrong, hvar,
        hlast2, GoType.kind, bne_self_eq_false, Bool.and_false, Bool.false_and,
        makeCallArgs.build, List.append_nil, List.length_nil, hstop, Outcome.bind_ok,
        Bool.not_true, Bool.and_true, Bool.true_and]
      simp
    · obtain ⟨pre, last, rfl⟩ : ∃ pre last, fixed = pre ++ [last] :=
        ⟨fixed.dropLast, fixed.getLast hk, (List.dropLast_append_getLast hk).symm⟩
      obtain ⟨s', vs1, cs1, vs2, cs2, hpre, hlastArg, -, hcs⟩ :=
        ArgsTo.split ev rt.In pre [last] 0 _ _ _ _ hfixed
      subst hcs
      cases hlastArg with
      | cons hrun hok hconv hrest =>
        cases hrest
        simp only [List.length_append, List.length_singleton] at hnum hwrong hlast2
        have hloop := makeCallArgs.loop_native ev rt (pre ++ [last]) 0 pre _ vs1 cs1 s' hpre 1 [] 0 0
          (by
            intro n hn
            simp only [Nat.zero_add]
            exact List.getElem?_append_left hn)
          (by omega) (by simp)
        have hstop := makeCallArgs.loop_stop ev rt false (pre ++ [last]) 1 s' ([] ++ cs1)
          (0 + pre.length) (0 + pre.length) (0 + pre.length) (by simp)
        simp only [Nat.zero_add, List.nil_append] at hloop hstop hconv
        have hget : (pre ++ [last])[pre.length]? = some last := by simp
        have hne : ¬ pre.length = pre.length + 1 := by omega
        have hgt : pre.length + 1 < rt.NumIn := by omega
        simp only [makeCallArgs, makeCallArgs.numIn, Bool.false_eq_true, if_false, hlt, hwrong,
          hvar, hlast2, GoType.kind, bne_self_eq_false, Bool.and_false, Bool.false_and,
          makeCallArgs.build, List.append_nil, List.length_append, List.length_singleton, hloop,
          hstop, Outcome.bind_ok, Bool.not_true, Bool.and_true, Bool.true_and]
        simp [hne, hgt, makeCallArgs.lastArg, hget, hrun, hok, makeCallArgs.addArg, hconv]
  · have hpos : 0 < items.length := List.length_pos.mpr hm
    have hloop := makeCallArgs.loop_native ev rt (fixed ++ items) 0 fixed _ vsF cs s1 hfixed
      items.length [] 0 0
      (by
        intro n hn
        simp only [Nat.zero_add]
        exact List.getElem?_append_left hn)
      (by omega) (by simp; omega)
    have hstop := makeCallArgs.loop_stop ev rt false (fixed ++ items) items.length s1 ([] ++ cs)
      (0 + fixed.length) (0 + fixed.length) (0 + fixed.length) (by omega)
    have hcollect := makeCallArgs.collect_native ev rt (fixed ++ items) elem fixed.length 0 items s1
      xs ys t hitems items.length cs fixed.length
      (by
        intro n hn
        rw [List.getElem?_append_right (by omega)]
        simp)
      (by simp) (le_refl _)
    simp only [Nat.zero_add, List.nil_append] at hloop hstop
    have hne : ¬ fixed.length = fixed.length + items.length := by omega
    have hgt : ¬ fixed.length + items.length < rt.NumIn := by omega
    simp only [makeCallArgs, makeCallArgs.numIn, Bool.false_eq_true, if_false, hlt, hwrong, hvar,
      hlast2, GoType.kind, bne_self_eq_false, Bool.and_false, Bool.false_and, makeCallArgs.build,
      List.length_append, hloop, hstop, Outcome.bind_ok, Bool.not_true, Bool.and_true,
      Bool.true_and]
    simp [hne, hgt, GoType.Elem, hcollect]

/-- The coercion of a well-typed sequence to the slice type of a variadic
parameter is the slice of its element-wise coercions, each element of an
`interface{}` slice being an interface value. -/
theorem convertReflectValueToType_slice (e0 elem : GoType) (xs ys : List Value)
    (hwf : e0 = elem → ∀ x ∈ xs, x.storedAs elem = true)
    (hcl : convertList xs elem = some ys) :
    convertReflectValueToType (.slice e0 xs) (.slice elem)
      = (.slice elem (if elem == .iface then ys.map Value.toInterface else ys), none) := by
  by_cases he : e0 = elem
  · subst he
    have hys := convertList_storedAs e0 xs ys (hwf rfl) hcl
    subst hys
    by_cases hi : e0 = .iface
    · subst hi
      have hmap : ys.map Value.toInterface = ys := by
        conv_rhs => rw [← List.map_id ys]
        exact List.map_congr_left fun x hx => Value.storedAs_toInterface x (hwf rfl x hx)
      simp [convertReflectValueToType, hmap]
    · simp [convertReflectValueToType, hi]
  · have he2 : ¬ elem = e0 := fun h => he h.symm
    simp [convertReflectValueToType, he2, hcl]

/-- The vector a variadic function receives from `CallSlice` and from `Call`
with the trailing arguments listed. -/
theorem reflectCall.inputs_variadic (rt : FuncType) (elem : GoType) (cs ys : List Value)
    (hvar : rt.IsVariadic = true) (hnum : rt.NumIn = cs.length + 1)
    (hlast : rt.In cs.length = .slice elem)
    (hys : (ys.all fun c => assignable c elem) = true) (tail : Value) :
    reflectCall.inputs true rt (cs ++ [tail]) = some (cs ++ [tail]) ∧
    reflectCall.inputs false rt (cs ++ ys)
      = some (cs ++ [.slice elem (if elem == .iface then ys.map Value.toInterface else ys)]) := by
  constructor
  · simp [reflectCall.inputs, hvar, hnum]
  · have hys2 : ∀ x ∈ ys, assignable x elem = true := by simpa using hys
    have helem : (rt.In cs.length).Elem = elem := by rw [hlast]; rfl
    simp only [reflectCall.inputs, hvar, hnum, Bool.not_false, Bool.and_self, if_true,
      List.length_append, Nat.add_sub_cancel, helem]
    simp
    exact hys2

/-- One more step of a chain `ArgsTo`, with the evaluated value named. -/
theorem ArgsTo.step {ev : Eval} {ty : Nat → GoType} {i : Nat} {e : Expr} {es : List Expr}
    {s s1 t : RunInfo} {v c : Value} {vs cs : List Value}
    (hrun : ev.invokeExpr { s with expr := some e } = .ok s1) (hok : s1.err = none)
    (hrv : s1.rv = v) (hconv : convertReflectValueToType v (ty i) = (c, none))
    (hrest : ArgsTo ev ty (i + 1) es { s1 with rv := c, err := none } vs cs t) :
    ArgsTo ev ty i (e :: es) s (v :: vs) (c :: cs) t := by
  subst hrv
  exact ArgsTo.cons hrun hok hconv hrest

/-- The type `funcType` builds for a script function that is not variadic is
recognised by `checkIfRunVMFunction`. -/
theorem checkIfRunVMFunction_funcType (n : Nat) (hr : Bool) :
    checkIfRunVMFunction (funcType n hr false) = true := by
  cases hr with
  | true =>
    simp [checkIfRunVMFunction, FuncType.NumIn, FuncType.In, funcType_ins]
  | false =>
    cases n with
    | zero =>
      simp [checkIfRunVMFunction, FuncType.NumIn, FuncType.In, FuncType.NumOut, FuncType.Out,
        FuncType.IsVariadic, funcType]
    | succ m =>
      have hins := funcType_ins (m + 1) false
      simp only [Bool.false_eq_true, if_false, List.nil_append] at hins
      have hIn : ∀ x, 1 ≤ x → x < 1 + (m + 1) →
          (funcType (m + 1) false false).In x = reflectValueType := by
        intro x h1 h2
        obtain ⟨y, rfl⟩ : ∃ y, x = y + 1 := ⟨x - 1, by omega⟩
        have hy : y < m + 1 := by omega
        simp [FuncType.In, hins, List.getD_eq_getElem?_getD, List.getElem?_replicate, hy]
      have hnum : (funcType (m + 1) false false).NumIn = m + 2 := by
        simp [funcType_NumIn]
      have h0 : (funcType (m + 1) false false).In 0 = contextType := by
        simp [FuncType.In, hins]
      have hv : (funcType (m + 1) false false).IsVariadic = false := by
        simp [FuncType.IsVariadic, funcType]
      have ho : (funcType (m + 1) false false).outs = [reflectValueType, reflectValueType] := by
        simp [funcType]
      simp [checkIfRunVMFunction, hnum, h0, hIn 1 (le_refl _) (by omega),
        hIn (m + 1) (by omega) (by omega), hv, FuncType.NumOut, FuncType.Out, ho]
      intro x h1 h2
      exact hIn x h1 (by omega)

/-- A Try statement whose try block leaves an error other than `ErrInterrupt`
goes on with the catch part. -/
theorem runTryStmt_caught (ev : Eval) (runInfo r1 : RunInfo) (Try : Stmt) (Var : String)
    (Catch Finally : Option Stmt) (e : GoError)
    (htry : ev.runSingleStmt
        { runInfo with world := (runInfo.world.NewEnv runInfo.env).1,
                       env := (runInfo.world.NewEnv runInfo.env).2, stmt := some Try } = .ok r1)
    (herr : r1.err = some e) (hne : e ≠ .ErrInterrupt) :
    runTryStmt ev runInfo Try Var Catch Finally
      = runTryStmt.caught ev runInfo.env Var Catch Finally r1 e := by
  simp only [runTryStmt, htry, Outcome.bind_ok, herr, hne, if_false, runTryStmt.caught]
  by_cases hv : Var = ""
  · subst hv
    simp only [bne_self_eq_false, Bool.false_eq_true, if_false]
    cases hc : ev.runSingleStmt { r1 with stmt := Catch, err := none } with
    | ok r2 => cases h2 : r2.err <;> cases Finally <;> simp [h2]
    | panic m => simp
    | diverge => simp
  · have hv2 : (Var != "") = true := by simpa using hv
    simp only [hv2, if_true]
    cases hc : ev.runSingleStmt
        { r1 with stmt := Catch, err := none,
                  world := (r1.world.DefineValue r1.env Var (.error e)).1 } with
    | ok r2 => cases h2 : r2.err <;> cases Finally <;> simp [h2]
    | panic m => simp
    | diverge => simp


theorem SwitchStmt.allExprs_append (a b : List (List Expr × Stmt)) :
    SwitchStmt.allExprs (a ++ b) = SwitchStmt.allExprs a ++ SwitchStmt.allExprs b := by
  induction a with
  | nil => rfl
  | cons x a ih =>
    obtain ⟨es, st⟩ := x
    simp [SwitchStmt.allExprs, ih]

theorem NoneEqual.of_append (ev : Eval) (value : Value) (a b : List Expr) :
    ∀ s t, NoneEqual ev value (a ++ b) s t →
      ∃ m, NoneEqual ev value a s m ∧ NoneEqual ev value b m t := by
  induction a with
  | nil => intro s t h; exact ⟨s, .nil s, h⟩
  | cons e a ih =>
    intro s t h
    cases h with
    | cons _ _ _ s1 _ hev hok hne hrest =>
      obtain ⟨m, h1, h2⟩ := ih s1 t hrest
      exact ⟨m, .cons e a s s1 m hev hok hne h1, h2⟩

/-- Expressions that do not equal the scrutinee are passed over. -/
theorem runSwitchStmt.exprs_noneEqual (ev : Eval) (env : Nat) (value : Value) (caseStmt : Stmt)
    (pre rest : List Expr) (s t : RunInfo) (h : NoneEqual ev value pre s t) :
    runSwitchStmt.exprs ev env value caseStmt (pre ++ rest) s
      = runSwitchStmt.exprs ev env value caseStmt rest t := by
  induction h with
  | nil s => rfl
  | cons e es s s1 t hev hok hne _ ih =>
    simp only [List.cons_append, runSwitchStmt.exprs, hev, Outcome.bind_ok, hok, hne]
    simpa using ih

/-- Cases none of whose expressions equals the scrutinee are passed over. -/
theorem runSwitchStmt.cases_noneEqual (ev : Eval) (env : Nat) (value : Value)
    (pre rest : List (List Expr × Stmt)) :
    ∀ s t, NoneEqual ev value (SwitchStmt.allExprs pre) s t →
      runSwitchStmt.cases ev env value (pre ++ rest) s
        = runSwitchStmt.cases ev env value rest t := by
  induction pre with
  | nil =>
    intro s t h
    cases h
    rfl
  | cons x pre ih =>
    intro s t h
    obtain ⟨es, st⟩ := x
    obtain ⟨m, h1, h2⟩ := NoneEqual.of_append ev value es _ s t h
    have hex := runSwitchStmt.exprs_noneEqual ev env value st es [] s m h1
    simp only [List.append_nil] at hex
    simp only [List.cons_append, runSwitchStmt.cases, hex, runSwitchStmt.exprs, Outcome.bind_ok]
    exact ih m t h2


set_option maxHeartbeats 800000 in
theorem Value.sameBy_int (mapEq : Nat → Nat → Bool) (a b : Int) :
    Value.sameBy mapEq (.int a) (.int b) = (a == b) := by
  rw [Value.sameBy]

theorem equal_int (w : World) (a b : Int) : equal w (.int a) (.int b) = (a == b) := by
  show Value.sameBy _ (.int a) (.int b) = _
  exact Value.sameBy_int _ a b

set_option maxHeartbeats 800000 in
theorem Value.sameBy_map (mapEq : Nat → Nat → Bool) (k1 v1 k2 v2 : GoType) (a b : Nat) :
    Value.sameBy mapEq (.map k1 v1 a) (.map k2 v2 b) = mapEq a b := by
  rw [Value.sameBy]

set_option maxHeartbeats 800000 in
theorem Value.sameBy_str (mapEq : Nat → Nat → Bool) (a b : String) :
    Value.sameBy mapEq (.str a) (.str b) = (a == b) := by
  rw [Value.sameBy]

/-- Two different maps with the same keys and the same value under every key
are equal. -/
theorem equal_maps_by_content :
    equal Sample.twoMapsWorld (.map .string .iface 0) (.map .string .iface 1) = true := by
  show Value.sameBy _ (.map .string .iface 0) (.map .string .iface 1) = true
  rw [Value.sameBy_map]
  simp [World.mapsEqual, Sample.twoMapsWorld, World.root0, Value.same, Value.sameBy_str,
    Value.sameBy_int]


/-- The right side loop returns one value per expression. -/
theorem evalRightSide_length (ev : Eval) (es : List Expr) :
    ∀ (s t : RunInfo) (acc rvs : List Value),
      evalRightSide ev es s acc = .ok (.ok (t, rvs)) → rvs.length = acc.length + es.length := by
  induction es with
  | nil =>
    intro s t acc rvs h
    simp only [evalRightSide, Outcome.ok.injEq, Except.ok.injEq, Prod.mk.injEq] at h
    simp [h.2]
  | cons e es ih =>
    intro s t acc rvs h
    simp only [evalRightSide] at h
    cases hev : ev.invokeExpr { s with expr := some e } with
    | ok s1 =>
      simp only [hev, Outcome.bind_ok] at h
      cases herr : s1.err with
      | some x => simp [herr] at h
      | none =>
        simp only [herr, Option.isSome_none, Bool.false_eq_true, if_false] at h
        cases henv : s1.rv.asEnv with
        | some p =>
          simp only [henv] at h
          have := ih _ _ _ _ h
          simp at this
          simp [this]; omega
        | none =>
          simp only [henv] at h
          have := ih _ _ _ _ h
          simp at this
          simp [this]; omega
    | panic m => simp [hev] at h
    | diverge => simp [hev] at h

/-- The right side loop ends in a state without error. -/
theorem evalRightSide_err (ev : Eval) (es : List Expr) :
    ∀ (s t : RunInfo) (acc rvs : List Value),
      evalRightSide ev es s acc = .ok (.ok (t, rvs)) → s.err = none ∨ es ≠ [] → t.err = none := by
  induction es with
  | nil =>
    intro s t acc rvs h hs
    simp only [evalRightSide, Outcome.ok.injEq, Except.ok.injEq, Prod.mk.injEq] at h
    rcases hs with hs | hs
    · rw [← h.1]; exact hs
    · exact absurd rfl hs
  | cons e es ih =>
    intro s t acc rvs h _
    simp only [evalRightSide] at h
    cases hev : ev.invokeExpr { s with expr := some e } with
    | ok s1 =>
      simp only [hev, Outcome.bind_ok] at h
      cases herr : s1.err with
      | some x => simp [herr] at h
      | none =>
        simp only [herr, Option.isSome_none, Bool.false_eq_true, if_false] at h
        cases henv : s1.rv.asEnv with
        | some p =>
          simp only [henv] at h
          exact ih _ _ _ _ h (Or.inl rfl)
        | none =>
          simp only [henv] at h
          exact ih _ _ _ _ h (Or.inl herr)
    | panic m => simp [hev] at h
    | diverge => simp [hev] at h

/-- A value of slice or array kind with elements is a slice value. -/
theorem Value.slice_of_kind_len (v : Value)
    (hkind : (v.kind == .slice || v.kind == .array) = true) (hlen : 0 < v.Len) :
    ∃ el xs, v = .slice el xs ∧ xs ≠ [] := by
  cases v with
  | slice el xs =>
    refine ⟨el, xs, rfl, ?_⟩
    intro h
    subst h
    simp [Value.Len] at hlen
  | str s => simp [Value.kind, Value.TypeOf, GoType.kind] at hkind
  | _ => simp [Value.Len] at hlen


/-- A Var statement with fewer names than values fails after the right side. -/
theorem runVarStmt_fewer (ev : Eval) (runInfo t : RunInfo) (Names : List String)
    (Exprs : List Expr) (rvs : List Value)
    (hrhs : evalRightSide ev Exprs runInfo [] = .ok (.ok (t, rvs)))
    (hlt : Names.length < rvs.length) :
    runVarStmt ev runInfo Names Exprs
      = .ok { t with err := some (newStringError "Unassigned right values") } := by
  simp [runVarStmt, hrhs, hlt]

/-- A Var statement with one value that is a sequence with elements and more
than one name defines the names as the elements. -/
theorem runVarStmt_destructure (ev : Eval) (runInfo t : RunInfo) (Names : List String)
    (Exprs : List Expr) (rvs : List Value) (el : GoType) (xs : List Value)
    (hrhs : evalRightSide ev Exprs runInfo [] = .ok (.ok (t, rvs)))
    (hone : rvs.length = 1) (hk : 1 < Names.length)
    (hslice : (rvs.headD nilValue).unwrapInterface = .slice el xs) (hxs : xs ≠ []) :
    runVarStmt ev runInfo Names Exprs
      = .ok { t with world := defineEach t.env Names xs t.world, rv := xs.getLastD nilValue } := by
  have hlt : ¬ Names.length < rvs.length := by omega
  have hlen : 0 < xs.length := List.length_pos.mpr hxs
  have hc : (rvs.length == 1 && decide (Names.length > 1)
      && ((rvs.headD nilValue).unwrapInterface.kind == .slice
        || (rvs.headD nilValue).unwrapInterface.kind == .array)
      && decide ((rvs.headD nilValue).unwrapInterface.Len > 0)) = true := by
    rw [hslice]
    simp [hone, hk, Value.kind, Value.TypeOf, GoType.kind, Value.Len, hlen]
  simp only [runVarStmt, hrhs, Outcome.bind_ok, hlt, if_false, hc, if_true]
  rw [hslice]

/-- A Var statement to which destructuring does not apply defines the names
as the values. -/
theorem runVarStmt_plain (ev : Eval) (runInfo t : RunInfo) (Names : List String)
    (Exprs : List Expr) (rvs : List Value) (last : Value)
    (hrhs : evalRightSide ev Exprs runInfo [] = .ok (.ok (t, rvs)))
    (hle : rvs.length ≤ Names.length)
    (hcond : (rvs.length == 1 && decide (Names.length > 1)
      && ((rvs.headD nilValue).unwrapInterface.kind == .slice
        || (rvs.headD nilValue).unwrapInterface.kind == .array)
      && decide ((rvs.headD nilValue).unwrapInterface.Len > 0)) = false)
    (hlast : rvs.getLast? = some last) :
    runVarStmt ev runInfo Names Exprs
      = .ok { t with world := defineEach t.env Names rvs t.world, rv := last } := by
  have hlt : ¬ Names.length < rvs.length := by omega
  simp only [runVarStmt, hrhs, Outcome.bind_ok, hlt, if_false, hcond, Bool.false_eq_true, hlast]


theorem World.lookup_bindIn_ne {α : Type} (name other : String) (v : α) (hne : other ≠ name)
    (l : List (String × α)) : (World.bindIn name v l).lookup other = l.lookup other := by
  induction l with
  | nil =>
    have h : (other == name) = false := by simpa using hne
    simp [World.bindIn, List.lookup, h]
  | cons kv rest ih =>
    obtain ⟨k, x⟩ := kv
    by_cases hk : k = name
    · subst hk
      have h : (other == k) = false := by simpa using hne
      simp [World.bindIn, List.lookup, h]
    · have hk3 : (k == name) = false := by simpa using hk
      simp only [World.bindIn, hk3, Bool.false_eq_true, if_false, List.lookup, ih]

/-- Rebinding a name in a frame changes no lookup of another name. -/
theorem World.findValue_setFrame_ne (w : World) (p : Nat) (f : Frame) (name other : String)
    (v : Value) (hne : other ≠ name) (hf : w.envs[p]? = some f) :
    ∀ fuel q,
      (w.setFrame p { f with values := World.bindIn name v f.values }).findValue other fuel q
        = w.findValue other fuel q := by
  intro fuel
  induction fuel with
  | zero => intro q; rfl
  | succ fuel ih =>
    intro q
    simp only [World.setFrame] at ih
    by_cases hq : q = p
    · subst hq
      have hlt : q < w.envs.length := by
        rcases Nat.lt_or_ge q w.envs.length with h | h
        · exact h
        · rw [List.getElem?_eq_none h] at hf; cases hf
      simp only [World.findValue, World.setFrame, List.get?_eq_getElem?, List.getElem?_set,
        if_true, hlt, hf, World.lookup_bindIn_ne name other v hne, ih]
    · have hq2 : ¬ p = q := fun h => hq h.symm
      simp only [World.findValue, World.setFrame, List.get?_eq_getElem?, List.getElem?_set,
        hq2, if_false, ih]

/-- Defining a name changes no lookup of another name, from any frame. -/
theorem World.findValue_DefineValue_ne (w : World) (p : Nat) (name other : String) (v : Value)
    (hne : other ≠ name) (fuel q : Nat) :
    (w.DefineValue p name v).1.findValue other fuel q = w.findValue other fuel q := by
  unfold World.DefineValue
  split
  · rfl
  · split
    · rename_i f hf
      have hf2 : w.envs[p]? = some f := by simpa using hf
      exact World.findValue_setFrame_ne w p f name other v hne hf2 fuel q
    · rfl

/-- Defining a name changes no lookup of another name, from any frame. -/
theorem World.GetValue_DefineValue_ne (w : World) (p q : Nat) (name other : String) (v : Value)
    (hne : other ≠ name) :
    (w.DefineValue p name v).1.GetValue q other = w.GetValue q other := by
  simp only [World.GetValue, World.DefineValue_length, World.findValue_DefineValue_ne w p name other v hne]


/-- The names beyond the values, and every other name, are left as they were. -/
theorem defineEach_other (p : Nat) (names : List String) :
    ∀ (vs : List Value) (w : World) (q : Nat) (other : String),
      other ∉ names.take vs.length →
      (defineEach p names vs w).GetValue q other = w.GetValue q other := by
  induction names with
  | nil => intro vs w q other _; rfl
  | cons n ns ih =>
    intro vs w q other hnot
    cases vs with
    | nil => rfl
    | cons v vs =>
      simp only [List.length_cons, List.take_succ_cons, List.mem_cons, not_or] at hnot
      simp only [defineEach]
      rw [ih vs _ q other hnot.2, World.GetValue_DefineValue_ne w p q n other v hnot.1]

/-- Defining names keeps the number of frames. -/
theorem defineEach_frames (p : Nat) (names : List String) :
    ∀ (vs : List Value) (w : World), (defineEach p names vs w).envs.length = w.envs.length := by
  induction names with
  | nil => intro vs w; rfl
  | cons n ns ih =>
    intro vs w
    cases vs with
    | nil => rfl
    | cons v vs =>
      simp only [defineEach]
      rw [ih vs _, World.DefineValue_length]

/-- Name `i` is found as value `i` after the loop, for names that differ
from one another and contain no dot. -/
theorem defineEach_found (p : Nat) (names : List String) :
    ∀ (vs : List Value) (w : World) (i : Nat) (n : String) (v : Value),
      names.Nodup → (∀ m ∈ names, m.toList.contains '.' = false) → p < w.envs.length →
      names[i]? = some n → vs[i]? = some v →
      (defineEach p names vs w).GetValue p n = (v, none) := by
  induction names with
  | nil => intro vs w i n v _ _ _ hn; simp at hn
  | cons m ms ih =>
    intro vs w i n v hnodup hdot hp hn hv
    cases vs with
    | nil => simp at hv
    | cons x xs =>
      rw [List.nodup_cons] at hnodup
      simp only [defineEach]
      cases i with
      | zero =>
        simp only [List.getElem?_cons_zero, Option.some.injEq] at hn hv
        subst hn hv
        rw [defineEach_other p ms xs _ p m (fun h => hnodup.1 (List.mem_of_mem_take h))]
        exact World.GetValue_DefineValue w p m x (hdot m (List.mem_cons_self _ _)) hp
      | succ i =>
        simp only [List.getElem?_cons_succ] at hn hv
        exact ih xs _ i n v hnodup.2 (fun k hk => hdot k (List.mem_cons_of_mem _ hk))
          (by rw [World.DefineValue_length]; exact hp) hn hv


theorem List.set_last_replicate {α : Type} (a b : α) (n : Nat) :
    (a :: List.replicate n a).set n b = List.replicate n a ++ [b] := by
  induction n with
  | zero => rfl
  | succ n ih => simp [List.replicate_succ, ih]

/-- The parameter types `funcType` builds for a variadic script function with
at least one declared parameter: the context, the receiver slot when there is
one, one carrier per declared parameter but the last, and the `[]interface{}`
type for the last. -/
theorem funcType_ins_variadic (n : Nat) (hr : Bool) :
    (funcType (n + 1) hr true).ins
      = contextType :: ((if hr then [vmStructType] else [])
          ++ (List.replicate n reflectValueType ++ [interfaceSliceType])) := by
  cases hr
  · simp [funcType, List.replicate_succ, List.set_last_replicate]
  · simp [funcType, List.replicate_succ, List.set_last_replicate]


theorem funcType_variadic_NumIn (n : Nat) (hr : Bool) :
    (funcType (n + 1) hr true).NumIn = n + (if hr then 3 else 2) := by
  cases hr <;> simp [FuncType.NumIn, funcType_ins_variadic]

/-- The last parameter of the type of a variadic script function is the
`[]interface{}` type. -/
theorem funcType_variadic_last (n : Nat) (hr : Bool) :
    (funcType (n + 1) hr true).In ((funcType (n + 1) hr true).NumIn - 1) = interfaceSliceType := by
  rw [funcType_variadic_NumIn]
  cases hr
  · simp [FuncType.In, funcType_ins_variadic, List.getD_eq_getElem?_getD,
      List.getElem?_append_right]
  · simp [FuncType.In, funcType_ins_variadic, List.getD_eq_getElem?_getD,
      List.getElem?_append_right]

/-- For the type of a variadic script function the flag `hasRecv` of
`makeCallArgs` holds when the function has a receiver and one is pending. -/
theorem makeCallArgs.hasRecv_variadic (runInfo : RunInfo) (n : Nat) (hr : Bool) :
    makeCallArgs.hasRecv runInfo (funcType (n + 1) hr true) = (runInfo.recv.IsValid && hr) := by
  cases hr with
  | true =>
    simp [makeCallArgs.hasRecv, FuncType.NumIn, FuncType.In, funcType_ins_variadic]
  | false =>
    cases n with
    | zero => simp [makeCallArgs.hasRecv, FuncType.NumIn, FuncType.In, funcType_ins_variadic]
    | succ m =>
      simp [makeCallArgs.hasRecv, FuncType.NumIn, FuncType.In, funcType_ins_variadic,
        List.replicate_succ]


/-- The type `funcType` builds for a variadic script function with at least
one declared parameter is recognised by `checkIfRunVMFunction`. -/
theorem checkIfRunVMFunction_variadic (n : Nat) (hr : Bool) :
    checkIfRunVMFunction (funcType (n + 1) hr true) = true := by
  cases hr with
  | true =>
    simp [checkIfRunVMFunction, FuncType.NumIn, FuncType.In, funcType_ins_variadic]
  | false =>
    have hins := funcType_ins_variadic n false
    simp only [Bool.false_eq_true, if_false, List.nil_append] at hins
    have hIn : ∀ x, 1 ≤ x → x < 1 + n →
        (funcType (n + 1) false true).In x = reflectValueType := by
      intro x h1 h2
      obtain ⟨y, rfl⟩ : ∃ y, x = y + 1 := ⟨x - 1, by omega⟩
      have hy : y < n := by omega
      simp [FuncType.In, hins, List.getD_eq_getElem?_getD, List.getElem?_append_left,
        List.getElem?_replicate, hy]
    have hnum : (funcType (n + 1) false true).NumIn = n + 2 := by
      simp [funcType_variadic_NumIn]
    have hlast := funcType_variadic_last n false
    rw [hnum] at hlast
    have h0 : (funcType (n + 1) false true).In 0 = contextType := by
      simp [FuncType.In, hins]
    have h1 : (funcType (n + 1) false true).In 1 ≠ vmStructType := by
      cases n with
      | zero => simp [FuncType.In, hins]
      | succ m => simp [FuncType.In, hins, List.replicate_succ]
    have hv : (funcType (n + 1) false true).IsVariadic = true := by
      simp [FuncType.IsVariadic, funcType]
    have ho : (funcType (n + 1) false true).outs = [reflectValueType, reflectValueType] := by
      simp [funcType]
    have hlast2 : (funcType (n + 1) false true).In (n + 1) = interfaceSliceType := hlast
    simp [checkIfRunVMFunction, hnum, h0, h1, hv, FuncType.NumOut, FuncType.Out, ho, hlast2]
    intro x h1 h2
    exact hIn x h1 (by omega)


/-- The argument loop of `makeCallArgs` for a script function passes over
expressions that evaluate without error, appending every value in a carrier. -/
theorem makeCallArgs.loop_carriers (ev : Eval) (rt : FuncType) (SubExprs : List Expr) :
    ∀ (es : List Expr) (s : RunInfo) (vs : List Value) (t : RunInfo),
      EvalsTo ev es s vs t →
      ∀ (fuel : Nat) (args : List Value) (iIn i j : Nat),
        (∀ n, n < es.length → SubExprs[j + n]? = es[n]?) →
        i + es.length ≤ rt.NumIn - 1 →
        j + es.length ≤ SubExprs.length - 1 →
        makeCallArgs.loop ev rt true SubExprs (es.length + fuel) s args iIn i j
          = makeCallArgs.loop ev rt true SubExprs fuel t (args ++ vs.map Value.carrier)
              (iIn + es.length) (i + es.length) (j + es.length) := by
  intro es s vs t h
  induction h with
  | nil s => intro fuel args iIn i j _ _ _; simp
  | @cons e es s s1 t vs hrun hok hrest ih =>
    intro fuel args iIn i j hget hN hlen
    simp only [List.length_cons] at hN hlen
    have hget0 : SubExprs[j]? = some e := by
      have := hget 0 (by simp)
      simpa using this
    have hcond : (decide (i < rt.NumIn - 1) && decide (j < SubExprs.length - 1)) = true := by
      simp
      omega
    have hfuel : (e :: es).length + fuel = (es.length + fuel) + 1 := by
      simp only [List.length_cons]; omega
    have hrec := ih fuel (args ++ [.carrier s1.rv]) (iIn + 1) (i + 1) (j + 1)
      (by
        intro n hn
        have := hget (n + 1) (by simp; omega)
        simpa [Nat.add_assoc, Nat.add_comm 1 n] using this)
      (by omega) (by omega)
    rw [hfuel]
    simp only [makeCallArgs.loop, hcond, if_true, List.get?_eq_getElem?, hget0, hrun,
      Outcome.bind_ok, hok, Option.isSome_none, Bool.false_eq_true, if_false,
      makeCallArgs.addArg]
    rw [hrec]
    have e1 : iIn + 1 + es.length = iIn + (e :: es).length := by
      simp only [List.length_cons]; omega
    have e2 : i + 1 + es.length = i + (e :: es).length := by
      simp only [List.length_cons]; omega
    have e3 : j + 1 + es.length = j + (e :: es).length := by
      simp only [List.length_cons]; omega
    rw [e1, e2, e3, List.append_assoc, List.map_cons, List.singleton_append]

/-- A chain is a chain over its first `k` expressions followed by one over
the others. -/
theorem EvalsTo.cut (ev : Eval) (k : Nat) :
    ∀ (es : List Expr) (s t : RunInfo) (vs : List Value),
      EvalsTo ev es s vs t →
      ∃ m, EvalsTo ev (es.take k) s (vs.take k) m ∧ EvalsTo ev (es.drop k) m (vs.drop k) t := by
  induction k with
  | zero => intro es s t vs h; exact ⟨s, .nil s, h⟩
  | succ k ih =>
    intro es s t vs h
    cases h with
    | nil => exact ⟨s, .nil s, .nil s⟩
    | cons hrun hok hrest =>
      obtain ⟨m, h1, h2⟩ := ih _ _ _ _ hrest
      exact ⟨m, .cons hrun hok h1, h2⟩

/-- A chain of evaluations is a chain of coercions to `interface{}`, which
keep every value. -/
theorem EvalsTo.coerced (ev : Eval) (i : Nat) :
    ∀ (es : List Expr) (s t : RunInfo) (vs : List Value),
      EvalsTo ev es s vs t → ArgsTo ev (fun _ => GoType.iface) i es s vs vs t := by
  intro es s t vs h
  induction h generalizing i with
  | nil s => exact .nil i s
  | @cons e es s s1 t vs hrun hok hrest ih =>
    have hsame : ({ s1 with rv := s1.rv, err := none } : RunInfo) = s1 := by
      cases s1
      simp only at hok
      simp [hok]
    refine .cons hrun hok (convertReflectValueToType_iface s1.rv) ?_
    rw [hsame]
    exact ih (i + 1)


/-- The arguments `makeCallArgs` builds for a variadic script function with
`n + 1` declared parameters called, not variadically, with at least `n + 2`
argument expressions that evaluate without error: the loop over the arguments
but the last runs while `indexInReal < numInReal - 1`, starting from 1 also
when the receiver was appended, so it puts `numInReal - 2` values in carriers;
the others are collected as they are. -/
theorem makeCallArgs_script_variadic (ev : Eval) (runInfo t : RunInfo) (n : Nat) (hr : Bool)
    (SubExprs : List Expr) (vs : List Value)
    (hm : n + 2 ≤ SubExprs.length)
    (hev : EvalsTo ev SubExprs
      (makeCallArgs.wrapRecv runInfo (runInfo.recv.IsValid && hr)) vs t) :
    makeCallArgs ev runInfo (funcType (n + 1) hr true) true SubExprs false
      = .ok (t,
          (if (runInfo.recv.IsValid && hr) = true
            then [.ctx, (makeCallArgs.wrapRecv runInfo (runInfo.recv.IsValid && hr)).recv]
            else [.ctx])
          ++ ((vs.take (n + (if hr then 1 else 0))).map Value.carrier
            ++ vs.drop (n + (if hr then 1 else 0))), false) := by
  have hhas := makeCallArgs.hasRecv_variadic runInfo n hr
  have hnum := funcType_variadic_NumIn n hr
  have hlast := funcType_variadic_last n hr
  have hvar : (funcType (n + 1) hr true).IsVariadic = true := by
    simp [FuncType.IsVariadic, funcType]
  obtain ⟨mid, h1, h2⟩ := EvalsTo.cut ev (n + (if hr then 1 else 0)) SubExprs _ t vs hev
  have hk : n + (if hr then 1 else 0) + 2 = (funcType (n + 1) hr true).NumIn := by
    rw [hnum]; cases hr <;> simp
  have hklen : (SubExprs.take (n + (if hr then 1 else 0))).length = n + (if hr then 1 else 0) := by
    rw [List.length_take]
    cases hr <;> simp <;> omega
  have hkm : n + (if hr then 1 else 0) < SubExprs.length := by
    cases hr <;> simp <;> omega
  -- the loop over the arguments but the last
  have hloop := makeCallArgs.loop_carriers ev (funcType (n + 1) hr true) SubExprs _ _ _ _ h1
    (SubExprs.length - (n + (if hr then 1 else 0)))
    (if (runInfo.recv.IsValid && hr) = true
      then [.ctx, (makeCallArgs.wrapRecv runInfo (runInfo.recv.IsValid && hr)).recv]
      else [.ctx]) 0 1 0
    (by
      intro i hi
      rw [hklen] at hi
      simp [List.getElem?_take, hi])
    (by rw [hklen]; omega)
    (by rw [hklen]; omega)
  rw [hklen] at hloop
  have hfuel : n + (if hr then 1 else 0) + (SubExprs.length - (n + (if hr then 1 else 0)))
      = SubExprs.length := by omega
  rw [hfuel] at hloop
  have hstop := makeCallArgs.loop_stop ev (funcType (n + 1) hr true) true SubExprs
    (SubExprs.length - (n + (if hr then 1 else 0))) mid
    ((if (runInfo.recv.IsValid && hr) = true
      then [.ctx, (makeCallArgs.wrapRecv runInfo (runInfo.recv.IsValid && hr)).recv]
      else [.ctx]) ++ (vs.take (n + (if hr then 1 else 0))).map Value.carrier)
    (0 + (n + (if hr then 1 else 0))) (1 + (n + (if hr then 1 else 0)))
    (0 + (n + (if hr then 1 else 0)))
    (by omega)
  rw [hstop] at hloop
  -- the collection of the others
  have hcollect := makeCallArgs.collect_native ev (funcType (n + 1) hr true) SubExprs .iface
    (1 + (n + (if hr then 1 else 0))) 0 _ _ _ _ t (EvalsTo.coerced ev 0 _ _ _ _ h2)
    (SubExprs.length - (n + (if hr then 1 else 0)))
    ((if (runInfo.recv.IsValid && hr) = true
      then [.ctx, (makeCallArgs.wrapRecv runInfo (runInfo.recv.IsValid && hr)).recv]
      else [.ctx]) ++ (vs.take (n + (if hr then 1 else 0))).map Value.carrier)
    (n + (if hr then 1 else 0))
    (by
      intro i _
      simp [List.getElem?_drop])
    (by rw [List.length_drop]; omega)
    (by rw [List.length_drop])
  have hnumIn : 1 ≤ makeCallArgs.numIn (funcType (n + 1) hr true) true (runInfo.recv.IsValid && hr)
      ∧ makeCallArgs.numIn (funcType (n + 1) hr true) true (runInfo.recv.IsValid && hr)
          ≤ SubExprs.length := by
    simp only [makeCallArgs.numIn, hnum, if_true]
    cases hr <;> cases runInfo.recv.IsValid <;> simp <;> omega
  have hwrong : makeCallArgs.wrongCount (funcType (n + 1) hr true) false
      (makeCallArgs.numIn (funcType (n + 1) hr true) true (runInfo.recv.IsValid && hr))
      SubExprs.length = false := by
    simp [makeCallArgs.wrongCount, hvar]
    omega
  have hkind : ((funcType (n + 1) hr true).IsVariadic
      && ((funcType (n + 1) hr true).In ((funcType (n + 1) hr true).NumIn - 1)).kind != .slice
      && ((funcType (n + 1) hr true).In ((funcType (n + 1) hr true).NumIn - 1)).kind != .array)
      = false := by
    rw [hlast]
    simp [GoType.kind]
  have hone : ¬ makeCallArgs.numIn (funcType (n + 1) hr true) true (runInfo.recv.IsValid && hr) < 1 := by
    omega
  have hgt : ¬ makeCallArgs.numIn (funcType (n + 1) hr true) true (runInfo.recv.IsValid && hr)
      > SubExprs.length := by
    omega
  have hne : ((0 + (n + (if hr then 1 else 0))) == SubExprs.length) = false := by
    simp
    omega
  simp only [makeCallArgs, hhas, hone, if_false, hwrong, Bool.false_eq_true, hkind,
    makeCallArgs.build, if_true, hloop, Outcome.bind_ok, hvar, Bool.not_true, Bool.false_and,
    Bool.not_false, Bool.and_true, hne, hgt, Bool.and_self, hlast, GoType.Elem]
  have hk2 : (true && interfaceSliceType.kind != Kind.slice
      && interfaceSliceType.kind != Kind.array) = false := by decide
  simp only [hk2, Bool.false_eq_true, if_false, Nat.zero_add]
  rw [List.append_assoc] at hcollect
  exact hcollect


/-- For the type of a script function that is not variadic the flag `hasRecv`
of `makeCallArgs` holds when the function has a receiver and one is
pending. -/
theorem makeCallArgs.hasRecv_plain (runInfo : RunInfo) (n : Nat) (hr : Bool) :
    makeCallArgs.hasRecv runInfo (funcType n hr false) = (runInfo.recv.IsValid && hr) := by
  cases hr with
  | true =>
    simp [makeCallArgs.hasRecv, FuncType.NumIn, FuncType.In, funcType_ins]
  | false =>
    cases n with
    | zero => simp [makeCallArgs.hasRecv, FuncType.NumIn, FuncType.In, funcType_ins]
    | succ m =>
      simp [makeCallArgs.hasRecv, FuncType.NumIn, FuncType.In, funcType_ins, List.replicate_succ]

/-- The count `numIn` of `makeCallArgs` for a script function that is not
variadic, from the declared parameters and the pending receiver. -/
theorem makeCallArgs.numIn_plain (runInfo : RunInfo) (n : Nat) (hr : Bool) :
    makeCallArgs.numIn (funcType n hr false) true
        (makeCallArgs.hasRecv runInfo (funcType n hr false))
      = makeCallArgs.counted runInfo n hr := by
  rw [makeCallArgs.hasRecv_plain]
  cases hr <;> cases hv : runInfo.recv.IsValid <;>
    simp [makeCallArgs.numIn, makeCallArgs.counted, funcType_NumIn, hv]

/-- A chain over at least one expression ends in a state without error. -/
theorem EvalsTo.ends_clean (ev : Eval) (es : List Expr) (s t : RunInfo) (vs : List Value)
    (h : EvalsTo ev es s vs t) : es ≠ [] ∨ s.err = none → t.err = none := by
  induction h with
  | nil s =>
    intro h
    rcases h with h | h
    · exact absurd rfl h
    · exact h
  | cons _ hok _ ih => intro _; exact ih (Or.inr hok)

/-- The arguments `makeCallArgs` builds for a script function that is not
variadic, when the call has as many argument expressions as `makeCallArgs`
counts parameters and they evaluate without error. -/
theorem makeCallArgs_script_plain (ev : Eval) (runInfo t : RunInfo) (n : Nat) (hr : Bool)
    (SubExprs : List Expr) (vs : List Value)
    (hm : makeCallArgs.counted runInfo n hr = SubExprs.length) (hpos : 1 ≤ SubExprs.length)
    (hev : EvalsTo ev SubExprs (makeCallArgs.wrapRecv runInfo (runInfo.recv.IsValid && hr)) vs t) :
    makeCallArgs ev runInfo (funcType n hr false) true SubExprs false
      = .ok (t,
          (if (runInfo.recv.IsValid && hr) = true
            then [.ctx, (makeCallArgs.wrapRecv runInfo (runInfo.recv.IsValid && hr)).recv]
            else [.ctx]) ++ vs.map Value.carrier, false) := by
  have hhas := makeCallArgs.hasRecv_plain runInfo n hr
  have hnum := makeCallArgs.numIn_plain runInfo n hr
  rw [hhas] at hnum
  have hvar : (funcType n hr false).IsVariadic = false := by
    simp [FuncType.IsVariadic, funcType]
  have hzero : SubExprs ≠ [] := by
    intro h
    rw [h] at hpos
    simp at hpos
  have hbuild : makeCallArgs.build ev (makeCallArgs.wrapRecv runInfo (runInfo.recv.IsValid && hr))
      (funcType n hr false) true SubExprs false (runInfo.recv.IsValid && hr)
      (makeCallArgs.counted runInfo n hr)
      = (makeCallArgs.loop ev (funcType n hr false) true SubExprs SubExprs.length
          (makeCallArgs.wrapRecv runInfo (runInfo.recv.IsValid && hr))
          (if (runInfo.recv.IsValid && hr) = true
            then [.ctx, (makeCallArgs.wrapRecv runInfo (runInfo.recv.IsValid && hr)).recv]
            else [.ctx]) 0 1 0).bind
        (fun r =>
          match r with
          | .error ri => .ok (ri, [], false)
          | .ok (runInfo, args, _, indexInReal, indexExpr) =>
            makeCallArgs.lastArg ev (funcType n hr false) true SubExprs runInfo args
              indexInReal indexExpr) := by
    simp only [makeCallArgs.build, hvar, if_true, Bool.not_false, Bool.and_self]
  have hN : 1 + SubExprs.length ≤ (funcType n hr false).NumIn := by
    rw [funcType_NumIn, ← hm]
    cases hr <;> cases hv : runInfo.recv.IsValid <;> simp [makeCallArgs.counted, hv] <;> omega
  have hloop := makeCallArgs.loop_script ev (funcType n hr false) SubExprs
    SubExprs _ vs t hev hzero SubExprs.length
    (if (runInfo.recv.IsValid && hr) = true
      then [.ctx, (makeCallArgs.wrapRecv runInfo (runInfo.recv.IsValid && hr)).recv]
      else [.ctx]) 0 1 0
    (by intro i _; simp) (by simp) hN (le_refl _)
  have hwrong : makeCallArgs.wrongCount (funcType n hr false) false
      (makeCallArgs.counted runInfo n hr) SubExprs.length = false := by
    simp [makeCallArgs.wrongCount, hvar, hm]
  have hlt : ¬ makeCallArgs.counted runInfo n hr < 1 := by omega
  simp only [makeCallArgs, hhas, hnum, hlt, if_false, hwrong, hvar, Bool.false_and,
    Bool.false_eq_true, hbuild, hloop]


/-- The arguments `makeCallArgs` builds for a native function that is not
variadic, when the call has as many argument expressions as the function has
parameters and they evaluate and are coerced without error. -/
theorem makeCallArgs_native_plain (ev : Eval) (runInfo t : RunInfo) (rt : FuncType)
    (SubExprs : List Expr) (vs cs : List Value)
    (hvar : rt.IsVariadic = false)
    (hm : rt.NumIn = SubExprs.length) (hpos : 1 ≤ SubExprs.length)
    (hev : ArgsTo ev rt.In 0 SubExprs
      (makeCallArgs.wrapRecv runInfo (makeCallArgs.hasRecv runInfo rt)) vs cs t) :
    makeCallArgs ev runInfo rt false SubExprs false = .ok (t, cs, false) := by
  have hzero : SubExprs ≠ [] := by
    intro h
    rw [h] at hpos
    simp at hpos
  obtain ⟨pre, last, hsplit⟩ : ∃ pre last, SubExprs = pre ++ [last] :=
    ⟨SubExprs.dropLast, SubExprs.getLast hzero, (List.dropLast_append_getLast hzero).symm⟩
  have hlen : SubExprs.length = pre.length + 1 := by rw [hsplit]; simp
  rw [hsplit] at hev
  obtain ⟨s', vs1, cs1, vs2, cs2, hpre, hlast, -, hcs⟩ := ArgsTo.split ev rt.In pre [last] 0 _ t _ _ hev
  have hloop := makeCallArgs.loop_native ev rt SubExprs 0 pre _ vs1 cs1 s' hpre 1 [] 0 0
    (by
      intro n hn
      rw [hsplit]
      simp [List.getElem?_append_left, hn])
    (by omega) (by omega)
  have hfuel : pre.length + 1 = SubExprs.length := hlen.symm
  rw [hfuel] at hloop
  have hstop := makeCallArgs.loop_stop ev rt false SubExprs 1 s' ([] ++ cs1) (0 + pre.length)
    (0 + pre.length) (0 + pre.length) (by omega)
  rw [hstop] at hloop
  have hget : SubExprs[0 + pre.length]? = some last := by
    rw [hsplit]
    simp
  cases hlast with
  | @cons _ _ _ _ s1 _ c _ _ hrun hok hconv hrest =>
    cases hrest
    have hwrong : makeCallArgs.wrongCount rt false rt.NumIn SubExprs.length = false := by
      simp [makeCallArgs.wrongCount, hvar, hm]
    have hlt : ¬ rt.NumIn < 1 := by omega
    simp only [Nat.zero_add] at hrun hconv hget hloop
    simp only [makeCallArgs, makeCallArgs.numIn, Bool.false_eq_true, if_false, hlt, hwrong, hvar,
      Bool.false_and, makeCallArgs.build, hloop, Outcome.bind_ok, Bool.not_false, Bool.and_self,
      if_true, makeCallArgs.lastArg, List.get?_eq_getElem?, hget, hrun, hok, Option.isSome_none,
      makeCallArgs.addArg, hconv, List.nil_append, hcs]


/-- A chain of coerced arguments over at least one expression ends in a
state without error. -/
theorem ArgsTo.coerced_clean (ev : Eval) (ty : Nat → GoType) (i : Nat) (es : List Expr)
    (s t : RunInfo) (vs cs : List Value) (h : ArgsTo ev ty i es s vs cs t) :
    es ≠ [] ∨ s.err = none → t.err = none := by
  induction h with
  | nil i s =>
    intro h
    rcases h with h | h
    · exact absurd rfl h
    · exact h
  | cons _ _ _ _ ih => intro _; exact ih (Or.inr rfl)


/-- The loop of `ReturnStmt` over expressions that evaluate without error
collects their values, each as the content of an `interface{}` slot. -/
theorem runReturnStmt.loop_values (ev : Eval) (es : List Expr) (s t : RunInfo) (vs : List Value)
    (h : EvalsTo ev es s vs t) :
    ∀ acc, runReturnStmt.loop ev es s acc = .ok (.ok (t, acc ++ vs.map Value.toInterface)) := by
  induction h with
  | nil s => intro acc; simp [runReturnStmt.loop]
  | @cons e es s s1 t vs hrun hok _ ih =>
    intro acc
    simp only [runReturnStmt.loop, hrun, Outcome.bind_ok, hok, Option.isSome_none,
      Bool.false_eq_true, if_false, ih, List.map_cons, List.append_assoc, List.singleton_append]

/-- The loop of `ReturnStmt` stops at the first expression that leaves an
error, in the state that expression left. -/
theorem runReturnStmt.loop_error (ev : Eval) (pre : List Expr) (e : Expr) (post : List Expr)
    (s m r : RunInfo) (vs : List Value) (h : EvalsTo ev pre s vs m)
    (he : ev.invokeExpr { m with expr := some e } = .ok r) (herr : r.err.isSome = true) :
    ∀ acc, runReturnStmt.loop ev (pre ++ e :: post) s acc = .ok (.error r) := by
  induction h with
  | nil s => intro acc; simp [runReturnStmt.loop, he, herr]
  | @cons e1 es s s1 t vs hrun hok _ ih =>
    intro acc
    simp only [List.cons_append, runReturnStmt.loop, hrun, Outcome.bind_ok, hok,
      Option.isSome_none, Bool.false_eq_true, if_false]
    exact ih he _

/-! ## Claims -/

/-- C1: for a native function (not of the script-function shape) whose
call returns `n >= 2` values with the first error-typed slot at `idx`, when
the context is not cancelled, the error-propagating call `f(args)?` ends as
follows. If slot `idx` is not nil the call ends with the error whose message
is the string form of the slot (for a printable slot, an error value among
them, the text `Value.Sprint` builds). If slot `idx` is nil the call ends without
error and its result is the other value when `n = 2` (for `idx = 0` and for
`idx = 1`), and otherwise the sequence of the remaining `n - 1` values in their
original order. -/
theorem C1_error_propagating_call (fuel : Nat) (runInfo : RunInfo) (Func : Value) (name : String)
    (SubExprs : List Expr) (VarArg : Bool) (fv : Value) (ft : FuncType) (ref : FuncRef)
    (r1 : RunInfo) (args : List Value) (slice : Bool) (rvs : List Value) (w2 : World)
    (r3 : RunInfo) (idx : Nat)
    (hexpr : runInfo.expr = some (.CallErrExpr Func name SubExprs VarArg))
    (hres : callExpr.resolve runInfo Func name = (fv, none))
    (hfunc : fv.unwrapInterface = .func ft ref)
    (hnat : checkIfRunVMFunction ft = false)
    (hargs : makeCallArgs (eval (fuel + 2))
        { runInfo with expr := some (.CallExpr Func name SubExprs VarArg false), err := none }
        ft false SubExprs VarArg = .ok (r1, args, slice))
    (hok : r1.err = none)
    (hcall : (if slice then (eval (fuel + 2)).CallSlice else (eval (fuel + 2)).Call)
        (.func ft ref) args r1.world = .ok (rvs, w2))
    (hn : 2 ≤ rvs.length)
    (hidx : callExpr.firstError rvs 0 = some idx)
    (hwb : callExpr.writeBack (eval (fuel + 2)) args SubExprs 0
        { r1 with rv := nilValue, world := w2, callErr := idx } = .ok r3)
    (hctx : r3.world.Done = false) :
    ∃ r, callErrExpr (eval (fuel + 2)) runInfo = .ok r ∧
      (((rvs.getD idx nilValue).toInterface.IsNil = false →
          r.err = some (newStringError (r.world.Sprint (rvs.getD idx nilValue).toInterface)) ∧
          ((rvs.getD idx nilValue).toInterface.printable = true →
            r.err = some (newStringError (rvs.getD idx nilValue).toInterface.Sprint))) ∧
       ((rvs.getD idx nilValue).toInterface.IsNil = true →
          r.err = none ∧
          (rvs.length = 2 → r.rv = (rvs.getD (1 - idx) nilValue).toInterface) ∧
          (rvs.length ≠ 2 →
            r.rv = .slice .iface ((rvs.take idx ++ rvs.drop (idx + 1)).map Value.toInterface)))) := by
  have hbound := callExpr.firstError_bound rvs 0 idx hidx
  have hlt : idx < rvs.length := by omega
  have hce : r3.callErr = (idx : Int) := callExpr.writeBack_callErr (fuel + 1) _ _ _ _ _ hwb
  have hproc : processCallReturnValues rvs false true
      = (.slice .iface (rvs.map Value.toInterface), none) := by
    match rvs, hn with
    | a :: b :: rest, _ => simp [processCallReturnValues, reflectValueSlicetoInterfaceSlice]
  have hcallExpr : callExpr (eval (fuel + 2))
      { runInfo with expr := some (.CallExpr Func name SubExprs VarArg false) }
      = .ok { r3 with rv := .slice .iface (rvs.map Value.toInterface), err := none } := by
    rw [callExpr_resolved (eval (fuel + 2))
      { runInfo with expr := some (.CallExpr Func name SubExprs VarArg false) }
      Func name SubExprs VarArg false fv ft ref rfl hres hfunc]
    have hwb2 : callExpr.writeBack (eval (fuel + 2)) args SubExprs 0
        (match callExpr.firstError rvs 0 with
          | some i => { r1 with rv := nilValue, world := w2, callErr := i }
          | none => { r1 with rv := nilValue, world := w2 }) = .ok r3 := by
      rw [hidx]; exact hwb
    rw [callExpr.invoke_native (eval (fuel + 2)) _ _ ft SubExprs VarArg r1 args slice rvs w2 r3
      hnat hargs hok hcall hwb2, hproc]
  have hslot : (rvs.map Value.toInterface).get? idx = some (rvs.getD idx nilValue).toInterface := by
    simp [List.getD, List.getElem?_eq_getElem hlt]
  have hkind := Value.toInterface_kind (rvs.getD idx nilValue)
  simp only [callErrExpr, hexpr, hcallExpr, Outcome.bind_ok]
  have hk1 : (Value.slice .iface (rvs.map Value.toInterface)).kind = .slice := rfl
  have hlen : (Value.slice .iface (rvs.map Value.toInterface)).Len = rvs.length := by
    simp [Value.Len]
  unfold handleError
  simp only [Option.isNone_none, hce, hk1, Int.toNat_ofNat, Value.Index, hslot, Outcome.bind_ok,
    Value.IsNilOrPanic, hkind, hlen, Nat.cast_nonneg, ge_iff_le, decide_True, Bool.and_self,
    beq_self_eq_true, if_true, or_true, true_or]
  by_cases hnil : (rvs.getD idx nilValue).toInterface.IsNil = true
  · simp only [hnil, Bool.not_true, Bool.false_eq_true, if_false]
    by_cases h2 : rvs.length = 2
    · have hother : (rvs.map Value.toInterface).get? (rvs.length - idx - 1)
          = some (rvs.getD (1 - idx) nilValue).toInterface := by
        have h1 : rvs.length - idx - 1 = 1 - idx := by omega
        have h3 : 1 - idx < rvs.length := by omega
        simp [h1, List.getD, List.getElem?_eq_getElem h3]
      have heq : (rvs.length - 1 == 1) = true := by simp [h2]
      simp only [heq, if_true, hother, Outcome.bind_ok]
      refine ⟨_, rfl, ?_, ?_⟩
      · intro h; simp [hnil] at h
      · intro _
        exact ⟨rfl, fun _ => rfl, fun h => absurd h2 h⟩
    · have hne : (rvs.length - 1 == 1) = false := by
        simp only [beq_eq_false_iff_ne, ne_eq]
        omega
      simp only [hne, Bool.false_eq_true, if_false]
      refine ⟨_, rfl, ?_, ?_⟩
      · intro h; simp [hnil] at h
      · intro _
        refine ⟨rfl, fun h => absurd h h2, fun _ => ?_⟩
        simp [handleError.strip_eq idx _ 0 (Nat.zero_le _), List.map_take, List.map_drop]
  · have hnil2 : (rvs.getD idx nilValue).toInterface.IsNil = false := by
      simpa using hnil
    simp only [hnil2, Bool.not_false, if_true, eval_succ_runSingleStmt]
    have hthrow : runSingleStmt (eval (fuel + 1))
        { r3 with stmt := some (.ThrowStmt (.LiteralExpr (rvs.getD idx nilValue).toInterface)),
                  rv := .slice .iface (rvs.map Value.toInterface), err := none,
                  callErr := (idx : Int) }
        = .ok { r3 with
                  stmt := some (.ThrowStmt (.LiteralExpr (rvs.getD idx nilValue).toInterface)),
                  expr := some (.LiteralExpr (rvs.getD idx nilValue).toInterface),
                  rv := (rvs.getD idx nilValue).toInterface,
                  err := some (newStringError
                    (r3.world.poll.Sprint (rvs.getD idx nilValue).toInterface)),
                  callErr := (idx : Int), world := r3.world.poll } := by
      have hvalid : (rvs.getD idx nilValue).toInterface.IsValid = true := by
        cases (rvs.getD idx nilValue) <;> rfl
      simp only [runSingleStmt, hctx, Bool.false_eq_true, if_false, runThrowStmt,
        eval_succ_invokeExpr, invokeExpr, Outcome.bind_ok, Option.isSome_none, hvalid,
        Bool.not_true]
    rw [hthrow]
    refine ⟨_, rfl, ?_, ?_⟩
    · intro _
      refine ⟨rfl, fun hp => ?_⟩
      simp only [World.Sprint, hp, if_true]
    · intro h; simp [hnil2] at h


/-- Instance of C1: with `div(a, b int64) (int64, error)`, the call `div(10, 2)?`
ends without error with the value 5, and the call `div(1, 0)?` ends with the
error "division by zero". -/
theorem C1_error_propagating_call_witness :
    (∃ r, callErrExpr (eval 2) (Sample.divCall 10 2) = .ok r ∧ r.err = none ∧
      r.rv = .iface .iface (.int 5)) ∧
    (∃ r, callErrExpr (eval 2) (Sample.divCall 1 0) = .ok r ∧
      r.err = some (.vm "division by zero")) := by
  constructor
  · obtain ⟨r, hr, -, h2⟩ := C1_error_propagating_call 0 (Sample.divCall 10 2) .invalid "div" _ false
      _ Sample.divType (.native 0) _ _ _ _ _ _ 1 rfl rfl rfl (by decide) rfl rfl rfl (by decide)
      rfl rfl (by decide)
    have h3 := h2 rfl
    exact ⟨r, hr, h3.1, h3.2.1 rfl⟩
  · obtain ⟨r, hr, h1, -⟩ := C1_error_propagating_call 0 (Sample.divCall 1 0) .invalid "div" _ false
      _ Sample.divType (.native 0) _ _ _ _ _ _ 1 rfl rfl rfl (by decide) rfl rfl rfl (by decide)
      rfl rfl (by decide)
    exact ⟨r, hr, (h1 rfl).2 rfl⟩

/-- C2 (evaluation at the failing input): the script
`import "io/ioutil"; ioutil.WriteFile("/nonexistent/x", data, perm)?`, with a
`WriteFile` that returns a non-nil error, ends with no error; the returned
error is the result value of the call. The single returned value is not a
slice, so `handleError` does nothing. -/
theorem C2_single_error_not_raised :
    (RunContext noDecls 8 Sample.ioutilWorld 0 none (some Sample.writeFileScript)).toOption.map
        (fun r => (r.1, r.2.1))
      = some (.iface .iface (.error (.host "open /nonexistent/x: no such file or directory")),
          none) := rfl

/-- C3 (counterexample): `checkIfRunVMFunction` answers true for the type
`func(context, vmStruct, int64) string`, whose third parameter is not a
`reflect.Value` carrier and which has a single result: a type that starts with
the parameters (context, vmStruct) is not classified as a native function,
whatever its remaining parameters and results are. -/
theorem C3_receiver_prefix_accepted :
    checkIfRunVMFunction
      { ins := [contextType, vmStructType, .int64], outs := [.string], variadic := false } = true := by
  decide

/-- C3 (amended): `checkIfRunVMFunction` returns true for a function type if
and only if the type starts with the parameters (context, vmStruct), the
marker of a method, after which the remaining parameters and the results are
not examined, or the type has the shape of a script function without
receiver: the first parameter is the context type, every remaining parameter
is the `reflect.Value` carrier type (the last one the `[]interface{}` type
when the type is variadic), and there are exactly two results, both of the
carrier type. -/
theorem C3_recognised_shapes (rt : FuncType) :
    checkIfRunVMFunction rt = true ↔
      (2 ≤ rt.NumIn ∧ rt.In 0 = contextType ∧ rt.In 1 = vmStructType) ∨
      (1 ≤ rt.NumIn ∧ rt.NumOut = 2 ∧ rt.In 0 = contextType ∧
        rt.Out 0 = reflectValueType ∧ rt.Out 1 = reflectValueType ∧
        (1 < rt.NumIn →
          rt.In (rt.NumIn - 1)
            = (if rt.IsVariadic then interfaceSliceType else reflectValueType) ∧
          ∀ i, 1 ≤ i → i < rt.NumIn - 1 → rt.In i = reflectValueType)) := by
  unfold checkIfRunVMFunction
  by_cases h1 : 2 ≤ rt.NumIn ∧ rt.In 0 = contextType ∧ rt.In 1 = vmStructType
  · simp [h1]
  · have h1b : (decide (rt.NumIn ≥ 2) && rt.In 0 == contextType && rt.In 1 == vmStructType)
        = false := by
      rw [Bool.eq_false_iff]
      intro h
      simp only [Bool.and_eq_true, decide_eq_true_eq, beq_iff_eq] at h
      exact h1 ⟨h.1.1, h.1.2, h.2⟩
    simp only [h1b, Bool.false_eq_true, if_false, h1, false_or]
    by_cases h2 : 1 ≤ rt.NumIn ∧ rt.NumOut = 2 ∧ rt.In 0 = contextType ∧
        rt.Out 0 = reflectValueType ∧ rt.Out 1 = reflectValueType
    · obtain ⟨ha, hb, hc, hd, he⟩ := h2
      have h2b : (decide (rt.NumIn < 1) || rt.NumOut != 2 || rt.In 0 != contextType
          || rt.Out 0 != reflectValueType || rt.Out 1 != reflectValueType) = false := by
        simp [hb, hc, hd, he]
        omega
      simp only [h2b, Bool.false_eq_true, if_false, ha, hb, hc, hd, he, true_and]
      by_cases h3 : 1 < rt.NumIn
      · simp only [h3, gt_iff_lt, if_true, true_implies]
        cases hv : rt.IsVariadic
        · by_cases hl : rt.In (rt.NumIn - 1) = reflectValueType
          · simp [hl]
            constructor
            · intro h i hi1 hi2
              exact h.2 i hi1 (by omega)
            · intro h
              exact ⟨by omega, fun x hx1 hx2 => h x hx1 (by omega)⟩
          · simp [hl]
        · by_cases hl : rt.In (rt.NumIn - 1) = interfaceSliceType
          · simp [hl]
            constructor
            · intro h i hi1 hi2
              exact h.2 i hi1 (by omega)
            · intro h
              exact ⟨by omega, fun x hx1 hx2 => h x hx1 (by omega)⟩
          · simp [hl]
      · simp [h3]
        omega
    · have h2b : (decide (rt.NumIn < 1) || rt.NumOut != 2 || rt.In 0 != contextType
          || rt.Out 0 != reflectValueType || rt.Out 1 != reflectValueType) = true := by
        by_contra hcon
        apply h2
        simp only [Bool.not_eq_true, Bool.or_eq_false_iff, decide_eq_false_iff_not,
          bne_eq_false_iff_eq] at hcon
        exact ⟨by omega, hcon.1.1.1.2, hcon.1.1.2, hcon.1.2, hcon.2⟩
      simp only [h2b, if_true, Bool.false_eq_true, false_iff]
      intro h
      exact h2 ⟨h.1, h.2.1, h.2.2.1, h.2.2.2.1, h.2.2.2.2.1⟩

/-- C4 (counterexample): for a script function declared without parameters
(`n = 0`) called with one argument expression (`m = 1`), `makeCallArgs` does
not fail: it returns the context as only argument and leaves no error. -/
theorem C4_no_parameters_any_arguments :
    (makeCallArgs.numIn (funcType 0 false false) true false = 0) ∧
    (makeCallArgs (eval 0) Sample.plain (funcType 0 false false) true
        [.LiteralExpr (.int 1)] false).toOption.map (fun r => (r.1.err, r.2.1.length, r.2.2))
      = some (none, 1, false) := by
  decide

/-- C4 (amended): at a call site that is not variadic, with `m` argument
expressions, `makeCallArgs` counts the arguments of a callee that is not
variadic against `c`: for a script function with `n` declared parameters `c`
is `n`, and `n + 1` when the function has a receiver and no receiver is
pending at the call (the receiver slot is then counted); for a native
function `c` is the number of its parameters.
* When `c = 0`, `makeCallArgs` does not fail and evaluates no argument,
  whatever `m` is: the arguments are the context (and the receiver) for a
  script function and none for a native function.
* When `c >= 1` and `c != m`, it fails with the error
  'function wants c arguments but received m' before any argument is
  evaluated.
* When `c >= 1` and `c = m`, and the argument expressions evaluate without
  error (and, for a native function, are coerced to the parameter types
  without error), it returns the arguments and leaves no error. -/
theorem C4_argument_count (ev : Eval) (runInfo : RunInfo) (SubExprs : List Expr) :
    (∀ (n : Nat) (hr : Bool),
      (makeCallArgs.counted runInfo n hr = 0 →
        makeCallArgs ev runInfo (funcType n hr false) true SubExprs false
          = .ok (makeCallArgs.wrapRecv runInfo (runInfo.recv.IsValid && hr),
              if (runInfo.recv.IsValid && hr) = true
                then [.ctx, (makeCallArgs.wrapRecv runInfo (runInfo.recv.IsValid && hr)).recv]
                else [.ctx], false)) ∧
      (1 ≤ makeCallArgs.counted runInfo n hr →
        makeCallArgs.counted runInfo n hr ≠ SubExprs.length →
        makeCallArgs ev runInfo (funcType n hr false) true SubExprs false
          = .ok ({ makeCallArgs.wrapRecv runInfo (runInfo.recv.IsValid && hr) with
                   err := some (newStringError ("function wants "
                     ++ toString (makeCallArgs.counted runInfo n hr)
                     ++ " arguments but received " ++ toString SubExprs.length)),
                   rv := nilValue }, [], false)) ∧
      (1 ≤ makeCallArgs.counted runInfo n hr →
        makeCallArgs.counted runInfo n hr = SubExprs.length →
        ∀ vs t,
          EvalsTo ev SubExprs (makeCallArgs.wrapRecv runInfo (runInfo.recv.IsValid && hr)) vs t →
          makeCallArgs ev runInfo (funcType n hr false) true SubExprs false
            = .ok (t,
                (if (runInfo.recv.IsValid && hr) = true
                  then [.ctx, (makeCallArgs.wrapRecv runInfo (runInfo.recv.IsValid && hr)).recv]
                  else [.ctx]) ++ vs.map Value.carrier, false) ∧
          t.err = none)) ∧
    (∀ (rt : FuncType), rt.IsVariadic = false →
      (rt.NumIn = 0 →
        makeCallArgs ev runInfo rt false SubExprs false = .ok (runInfo, [], false)) ∧
      (1 ≤ rt.NumIn → rt.NumIn ≠ SubExprs.length →
        makeCallArgs ev runInfo rt false SubExprs false
          = .ok ({ makeCallArgs.wrapRecv runInfo (makeCallArgs.hasRecv runInfo rt) with
                   err := some (newStringError ("function wants " ++ toString rt.NumIn
                     ++ " arguments but received " ++ toString SubExprs.length)),
                   rv := nilValue }, [], false)) ∧
      (1 ≤ rt.NumIn → rt.NumIn = SubExprs.length →
        ∀ vs cs t,
          ArgsTo ev rt.In 0 SubExprs
            (makeCallArgs.wrapRecv runInfo (makeCallArgs.hasRecv runInfo rt)) vs cs t →
          makeCallArgs ev runInfo rt false SubExprs false = .ok (t, cs, false) ∧
          t.err = none)) := by
  refine ⟨?_, ?_⟩
  · intro n hr
    have hhas := makeCallArgs.hasRecv_plain runInfo n hr
    have hnum := makeCallArgs.numIn_plain runInfo n hr
    rw [hhas] at hnum
    have hvar : (funcType n hr false).IsVariadic = false := by
      simp [FuncType.IsVariadic, funcType]
    refine ⟨?_, ?_, ?_⟩
    · intro h0
      simp only [makeCallArgs, hhas, hnum, h0, Nat.lt_one_iff, if_true]
    · intro h1 hne
      have hlt : ¬ makeCallArgs.counted runInfo n hr < 1 := by omega
      simp only [makeCallArgs, hhas, hnum, hlt, if_false, makeCallArgs.wrongCount, hvar,
        Bool.not_false, Bool.true_and, Bool.false_and, Bool.or_false, bne_iff_ne, ne_eq, hne,
        not_false_eq_true, decide_True, if_true]
    · intro h1 heq vs t hev
      exact ⟨makeCallArgs_script_plain ev runInfo t n hr SubExprs vs heq (by omega) hev,
        EvalsTo.ends_clean ev SubExprs _ t vs hev
          (Or.inl (fun h => by rw [h] at heq; simp at heq; omega))⟩
  · intro rt hvar
    refine ⟨?_, ?_, ?_⟩
    · intro h0
      have hhas : makeCallArgs.hasRecv runInfo rt = false := by
        simp [makeCallArgs.hasRecv, h0]
      simp [makeCallArgs, makeCallArgs.numIn, h0, hhas, makeCallArgs.wrapRecv]
    · intro h1 hne
      have hlt : ¬ rt.NumIn < 1 := by omega
      simp only [makeCallArgs, makeCallArgs.numIn, Bool.false_eq_true, if_false, hlt,
        makeCallArgs.wrongCount, hvar, Bool.not_false, Bool.true_and, Bool.false_and,
        Bool.or_false, bne_iff_ne, ne_eq, hne, not_false_eq_true, decide_True, if_true]
    · intro h1 heq vs cs t hev
      exact ⟨makeCallArgs_native_plain ev runInfo t rt SubExprs vs cs hvar heq (by omega) hev,
        ArgsTo.coerced_clean ev rt.In 0 SubExprs _ t vs cs hev
          (Or.inl (fun h => by rw [h] at heq; simp at heq; omega))⟩

/-- Instance of C4: a script function with two parameters called with one
argument fails with 'function wants 2 arguments but received 1', and called
with two literal arguments it receives the context and both values; a method
without parameters called with no argument while no receiver is pending fails
with 'function wants 1 arguments but received 0'. -/
theorem C4_argument_count_witness :
    (makeCallArgs (eval 1) Sample.plain (funcType 2 false false) true
        [.LiteralExpr (.int 1)] false).toOption.map (fun r => (r.1.err, r.2.1.length))
      = some (some (.vm "function wants 2 arguments but received 1"), 0) ∧
    (∃ vs t, EvalsTo (eval 1) Sample.twoArgs
        (makeCallArgs.wrapRecv Sample.plain (Sample.plain.recv.IsValid && false)) vs t ∧
      vs = [.int 1, .int 2] ∧
      makeCallArgs (eval 1) Sample.plain (funcType 2 false false) true Sample.twoArgs false
        = .ok (t, [.ctx, .carrier (.int 1), .carrier (.int 2)], false) ∧ t.err = none) ∧
    (makeCallArgs (eval 1) Sample.plain (funcType 0 true false) true [] false).toOption.map
        (fun r => (r.1.err, r.2.1.length))
      = some (some (.vm "function wants 1 arguments but received 0"), 0) :=
  ⟨by
      rw [((C4_argument_count (eval 1) Sample.plain [.LiteralExpr (.int 1)]).1 2 false).2.1
        (by decide) (by decide)]
      decide,
    ⟨_, _, EvalsTo.cons rfl rfl (EvalsTo.cons rfl rfl (EvalsTo.nil _)), rfl,
      ((C4_argument_count (eval 1) Sample.plain Sample.twoArgs).1 2 false).2.2
        (by decide) (by decide) _ _
        (EvalsTo.cons rfl rfl (EvalsTo.cons rfl rfl (EvalsTo.nil _)))⟩,
    by
      rw [((C4_argument_count (eval 1) Sample.plain []).1 0 true).2.1 (by decide) (by decide)]
      decide⟩

/-- C5 (evaluation at the failing inputs): entered with the environment
pointer 0, the statement `for x in v { }` over an Index-capable value whose
`Index(0)` returns an error returns with that error and the environment
pointer 1, the child frame of the loop; and the statement `module a.b { }`,
whose creation fails, returns with the error and the environment pointer 1,
the frame of the module. -/
theorem C5_environment_not_restored :
    (Sample.start Sample.forIndexFails).env = 0 ∧
    (runSingleStmt (eval 3) (Sample.start Sample.forIndexFails)).toOption.map
        (fun r => (r.env, r.err)) = some (1, some (.vm "index failed")) ∧
    (Sample.start Sample.moduleFails).env = 0 ∧
    (runSingleStmt (eval 3) (Sample.start Sample.moduleFails)).toOption.map
        (fun r => (r.env, r.err)) = some (1, some (.host "symbol contains '.'")) := by
  decide

/-- C6: when the cancellation handle is already done on entry,
`runSingleStmt` returns at once with a nil result and `ErrInterrupt`; every
other field of the run state, the environment pointer and the memory with all
bindings are the ones of the entry state, and no recursive call is made (the
equation holds for every `ev`, also one none of whose calls returns). -/
theorem C6_done_on_entry (ev : Eval) (runInfo : RunInfo) (hdone : runInfo.world.Done = true) :
    runSingleStmt ev runInfo = .ok { runInfo with rv := nilValue, err := some .ErrInterrupt } := by
  simp [runSingleStmt, hdone]

/-- Instance of C6: a cancelled run about to execute `var a = 1`, with an
evaluator none of whose calls returns. -/
theorem C6_done_on_entry_witness :
    Sample.cancelled.world.Done = true ∧
    runSingleStmt (eval 0) Sample.cancelled
      = .ok { Sample.cancelled with rv := nilValue, err := some .ErrInterrupt } :=
  ⟨by decide, C6_done_on_entry (eval 0) Sample.cancelled (by decide)⟩

/-- C7 (counterexample): running the script `break` returns `ErrBreak` to the
embedder. -/
theorem C7_break_escapes :
    (RunContext noDecls 3 World.root0 0 none (some Sample.topLevelBreak)).toOption.map (fun r => r.2.1)
      = some (some GoError.ErrBreak) := by
  decide

/-- C7 (amended): when `runDecls` does not itself leave `ErrReturn`, the
error `RunContext` and `Run` return is never `ErrReturn`. -/
theorem C7_return_never_escapes (runDecls : RunInfo → RunInfo) (fuel : Nat) (world : World)
    (env : Nat) (options : Option Options) (stmt : Option Stmt)
    (hdecls : ∀ w, (runDecls (RunContext.start w env options stmt)).err ≠ some .ErrReturn) :
    (∀ v e w, RunContext runDecls fuel world env options stmt = .ok (v, e, w) → e ≠ some .ErrReturn) ∧
    (∀ v e w, Run runDecls fuel world env options stmt = .ok (v, e, w) → e ≠ some .ErrReturn) := by
  have key : ∀ world v e w,
      RunContext runDecls fuel world env options stmt = .ok (v, e, w) → e ≠ some .ErrReturn := by
    intro world v e w h
    unfold RunContext at h
    by_cases hn : (runDecls (RunContext.start world env options stmt)).err.isNone = true
    · simp only [hn, if_true] at h
      cases hr : (eval fuel).runSingleStmt (runDecls (RunContext.start world env options stmt)) with
      | ok r =>
        rw [hr] at h
        simp only [Outcome.bind_ok, Outcome.ok.injEq, Prod.mk.injEq] at h
        obtain ⟨-, he, -⟩ := h
        subst he
        by_cases hret : r.err = some .ErrReturn
        · simp [hret]
        · simp [hret]
      | panic m => rw [hr] at h; simp at h
      | diverge => rw [hr] at h; simp at h
    · simp only [hn, Bool.false_eq_true, if_false, Outcome.ok.injEq, Prod.mk.injEq] at h
      obtain ⟨-, he, -⟩ := h
      subst he
      exact hdecls world
  exact ⟨key world, fun v e w h => key _ v e w h⟩

/-- Instance of C7: the script `return 1` ends with the value 1 and no
error. -/
theorem C7_return_never_escapes_witness :
    (RunContext noDecls 4 World.root0 0 none (some Sample.topLevelReturn)).toOption.map (fun r => r.2.1)
      = some none ∧
    ∀ v e w, RunContext noDecls 4 World.root0 0 none (some Sample.topLevelReturn) = .ok (v, e, w) →
      e ≠ some .ErrReturn :=
  ⟨by decide,
   (C7_return_never_escapes noDecls 4 World.root0 0 none (some Sample.topLevelReturn)
      (fun _ => by simp [noDecls, RunContext.start])).1⟩

/-- C8: in a Try statement entered while the context is not done, when the
try block ends with an error `e`: for `e = ErrInterrupt` the statement ends at
once with `ErrInterrupt` and the entry environment, and the catch block is
not run; for any other `e` the catch block is run from a state whose error is
cleared and in which, when the name is not empty, the catch variable is
defined in the current frame as the error value (a lookup of a dot-free name
in a live frame finds it), and the rest of the statement follows from the
state the catch block leaves. -/
theorem C8_try_catch (ev : Eval) (runInfo : RunInfo) (Try : Stmt) (Var : String)
    (Catch Finally : Option Stmt) (r1 : RunInfo) (e : GoError)
    (hstmt : runInfo.stmt = some (.TryStmt Try Var Catch Finally))
    (hlive : runInfo.world.Done = false)
    (htry : ev.runSingleStmt
        { runInfo with world := (runInfo.world.poll.NewEnv runInfo.env).1,
                       env := (runInfo.world.poll.NewEnv runInfo.env).2, stmt := some Try } = .ok r1)
    (herr : r1.err = some e) :
    (e = .ErrInterrupt → runSingleStmt ev runInfo = .ok { r1 with env := runInfo.env }) ∧
    (e ≠ .ErrInterrupt →
      runSingleStmt ev runInfo =
        (ev.runSingleStmt
          { r1 with stmt := Catch, err := none,
                    world := if Var != "" then (r1.world.DefineValue r1.env Var (.error e)).1
                             else r1.world }).bind
          fun r2 =>
            if r2.err.isSome then .ok { r2 with env := runInfo.env }
            else
              match Finally with
              | some fin =>
                (ev.runSingleStmt { r2 with stmt := some fin }).bind fun r3 =>
                .ok { r3 with env := runInfo.env }
              | none => .ok { r2 with env := runInfo.env }) ∧
    (Var.toList.contains '.' = false → r1.env < r1.world.envs.length →
      (r1.world.DefineValue r1.env Var (.error e)).1.GetValue r1.env Var = (.error e, none)) := by
  have hrun : runSingleStmt ev runInfo = runTryStmt ev { runInfo with world := runInfo.world.poll }
      Try Var Catch Finally := by
    simp [runSingleStmt, hlive, hstmt]
  rw [hrun]
  simp only [runTryStmt, htry, Outcome.bind_ok, herr]
  refine ⟨?_, ?_, ?_⟩
  · intro he
    simp [he]
  · intro he
    by_cases hv : Var = ""
    · subst hv
      simp only [he, if_false, bne_self_eq_false, Bool.false_eq_true]
      cases hc : ev.runSingleStmt { r1 with stmt := Catch, err := none } with
      | ok r2 => cases h2 : r2.err <;> cases Finally <;> simp [h2]
      | panic m => simp
      | diverge => simp
    · have hv2 : (Var != "") = true := by simpa using hv
      simp only [he, if_false, hv2, if_true]
      cases hc : ev.runSingleStmt
          { r1 with stmt := Catch, err := none,
                    world := (r1.world.DefineValue r1.env Var (.error e)).1 } with
      | ok r2 => cases h2 : r2.err <;> cases Finally <;> simp [h2]
      | panic m => simp
      | diverge => simp
  · intro hdot hp
    exact World.GetValue_DefineValue r1.world r1.env Var (.error e) hdot hp

/-- Instance of C8: in `try { throw "boom" } catch e { e }` the try block ends
with the error "boom", which is not `ErrInterrupt`; the statement then ends
without error and `e` is bound to the error value. -/
theorem C8_try_catch_witness :
    ∃ r1 e,
      (eval 4).runSingleStmt
        { Sample.start Sample.tryBoom with
          world := ((Sample.start Sample.tryBoom).world.poll.NewEnv 0).1,
          env := ((Sample.start Sample.tryBoom).world.poll.NewEnv 0).2,
          stmt := some (.StmtsStmt [.ThrowStmt (.LiteralExpr (.str "boom"))]) } = .ok r1 ∧
      r1.err = some e ∧ e = .vm "boom" ∧
      (r1.world.DefineValue r1.env "e" (.error e)).1.GetValue r1.env "e" = (.error e, none) :=
  ⟨_, _, rfl, rfl, rfl,
    (C8_try_catch (eval 4) (Sample.start Sample.tryBoom) _ "e" _ none _ _ rfl (by decide) rfl rfl).2.2
      (by decide) (by decide)⟩

/-- C9 (counterexample): in
`try { throw "a" } catch e { throw "b" } finally { throw "c" }` the catch
block ends with an error and the statement ends with that error, "b": the
finally block, which would have replaced it by "c", is not executed. -/
theorem C9_finally_skipped_after_catch_error :
    (runSingleStmt (eval 4) (Sample.start Sample.tryCatchThrows)).toOption.map (fun r => r.err)
      = some (some (.vm "b")) := by
  decide

/-- C9 (amended): in a Try statement with a finally block, entered while the
context is not done, with `r1` the state the try block leaves:
* when the try block succeeds, the finally block is run next and the statement
  ends in the state it leaves, its error included, with the entry environment;
* when the try block ends with `ErrInterrupt`, the statement ends at once and
  the finally block is not run;
* when the try block ends with another error, the catch block is run; if it
  ends with an error the statement ends with that error and the finally block
  is not run; if it succeeds the finally block is run next and the statement
  ends in the state it leaves, its error included. -/
theorem C9_finally (ev : Eval) (runInfo : RunInfo) (Try : Stmt) (Var : String)
    (Catch : Option Stmt) (fin : Stmt) (r1 : RunInfo)
    (hstmt : runInfo.stmt = some (.TryStmt Try Var Catch (some fin)))
    (hlive : runInfo.world.Done = false)
    (htry : ev.runSingleStmt
        { runInfo with world := (runInfo.world.poll.NewEnv runInfo.env).1,
                       env := (runInfo.world.poll.NewEnv runInfo.env).2, stmt := some Try } = .ok r1) :
    runSingleStmt ev runInfo =
      match r1.err with
      | none =>
        (ev.runSingleStmt { r1 with stmt := some fin }).bind fun r3 =>
        .ok { r3 with env := runInfo.env }
      | some e =>
        if e = .ErrInterrupt then .ok { r1 with env := runInfo.env }
        else
          (ev.runSingleStmt
            { r1 with stmt := Catch, err := none,
                      world := if Var != "" then (r1.world.DefineValue r1.env Var (.error e)).1
                               else r1.world }).bind
            fun r2 =>
              if r2.err.isSome then .ok { r2 with env := runInfo.env }
              else
                (ev.runSingleStmt { r2 with stmt := some fin }).bind fun r3 =>
                .ok { r3 with env := runInfo.env } := by
  have hrun : runSingleStmt ev runInfo = runTryStmt ev { runInfo with world := runInfo.world.poll }
      Try Var Catch (some fin) := by
    simp [runSingleStmt, hlive, hstmt]
  rw [hrun]
  simp only [runTryStmt, htry, Outcome.bind_ok]
  cases herr : r1.err with
  | none => simp [herr]
  | some e =>
    by_cases he : e = .ErrInterrupt
    · simp [he]
    · by_cases hv : Var = ""
      · subst hv
        simp only [he, if_false, bne_self_eq_false, Bool.false_eq_true]
        cases hc : ev.runSingleStmt { r1 with stmt := Catch, err := none } with
        | ok r2 => cases h2 : r2.err <;> simp [h2]
        | panic m => simp
        | diverge => simp
      · have hv2 : (Var != "") = true := by simpa using hv
        simp only [he, if_false, hv2, if_true]
        cases hc : ev.runSingleStmt
            { r1 with stmt := Catch, err := none,
                      world := (r1.world.DefineValue r1.env Var (.error e)).1 } with
        | ok r2 => cases h2 : r2.err <;> simp [h2]
        | panic m => simp
        | diverge => simp

/-- Instance of C9: in `try { throw "a" } catch e { } finally { throw "c" }`
the catch block succeeds, the finally block is run and its error "c" is the
error of the statement. -/
theorem C9_finally_witness :
    (Sample.start Sample.tryFinallyThrows).world.Done = false ∧
    (runSingleStmt (eval 4) (Sample.start Sample.tryFinallyThrows)).toOption.map (fun r => r.err)
      = some (some (.vm "c")) :=
  ⟨by decide, by
    rw [C9_finally (eval 4) (Sample.start Sample.tryFinallyThrows) _ "e" _ _ _ rfl (by decide) rfl]
    decide⟩

/-- C10 (counterexample): the statement `try { throw "boom" } catch e { e }`
ends without error, and its result is the error value with the message
"boom", which is not the string "boom". -/
theorem C10_result_is_error_value :
    (runSingleStmt (eval 4) (Sample.start Sample.tryBoom)).toOption.map (fun r => (r.rv, r.err))
      = some (.error (.vm "boom"), none) ∧
    (runSingleStmt (eval 4) (Sample.start Sample.tryBoom)).toOption.map (fun r => r.rv)
      ≠ some (.str "boom") := by
  refine ⟨rfl, fun h => ?_⟩
  have h2 : (runSingleStmt (eval 4) (Sample.start Sample.tryBoom)).toOption.map (fun r => r.rv)
      = some (.error (.vm "boom")) := rfl
  rw [h2] at h
  cases h

/-- C10 (amended): when the context is never cancelled and the expression `e`
evaluates without error to a value `v` (a valid one: `Interface()` panics on
the zero `reflect.Value`), the statement `try { throw e } catch x { x }` ends
without error, with the entry environment, and its result is the error value
whose message is the string obtained by coercing `v` to string, the text
`fmt.Sprint` gives `v`: for a printable `v` the text `Value.Sprint` builds
from `v`, for any other `v` the text of the host. -/
theorem C10_try_throw_catch (n : Nat) (runInfo : RunInfo) (e : Expr) (x : String) (r : RunInfo)
    (hstmt : runInfo.stmt = some (.TryStmt (.StmtsStmt [.ThrowStmt e]) x
      (some (.StmtsStmt [.ExprStmt (.IdentExpr x)])) none))
    (hctx : runInfo.world.cancelAfter = none)
    (he : invokeExpr (eval n)
        { runInfo with world := (runInfo.world.NewEnv runInfo.env).1,
                       env := (runInfo.world.NewEnv runInfo.env).2,
                       stmt := some (.ThrowStmt e), expr := some e } = .ok r)
    (herr : r.err = none) (hvalid : r.rv.IsValid = true)
    (hctx2 : r.world.cancelAfter = none)
    (henv : r.env < r.world.envs.length)
    (hx : x ≠ "") (hdot : x.toList.contains '.' = false) :
    ∃ final, runSingleStmt (eval (n + 3)) runInfo = .ok final ∧ final.err = none ∧
      final.rv = .error (.vm (r.world.Sprint r.rv)) ∧ final.env = runInfo.env ∧
      (r.rv.printable = true → r.world.Sprint r.rv = r.rv.Sprint) ∧
      (r.rv.printable = false → r.world.Sprint r.rv = r.world.format r.world.envs r.world.maps r.rv) := by
  have hp0 := World.poll_of_never runInfo.world hctx
  have hd0 := World.Done_of_never runInfo.world hctx
  have hc1 : (runInfo.world.NewEnv runInfo.env).1.cancelAfter = none := by
    rw [World.NewEnv_cancelAfter]; exact hctx
  have hp1 := World.poll_of_never _ hc1
  have hd1 := World.Done_of_never _ hc1
  have hp2 := World.poll_of_never r.world hctx2
  have hd2 := World.Done_of_never r.world hctx2
  -- the try block
  have hthrow : runSingleStmt (eval (n + 1))
      { runInfo with world := (runInfo.world.NewEnv runInfo.env).1,
                     env := (runInfo.world.NewEnv runInfo.env).2,
                     stmt := some (.ThrowStmt e) }
      = .ok { r with err := some (newStringError (r.world.Sprint r.rv)) } := by
    simp only [runSingleStmt, hd1, Bool.false_eq_true, if_false, hp1, runThrowStmt,
      eval_succ_invokeExpr, he, Outcome.bind_ok, herr, Option.isSome_none, hvalid, Bool.not_true]
  have htry : runSingleStmt (eval (n + 2))
      { runInfo with world := (runInfo.world.NewEnv runInfo.env).1,
                     env := (runInfo.world.NewEnv runInfo.env).2,
                     stmt := some (.StmtsStmt [.ThrowStmt e]) }
      = .ok { r with err := some (newStringError (r.world.Sprint r.rv)) } := by
    unfold runSingleStmt
    simp only [hd1, Bool.false_eq_true, if_false, hp1, runStmtsStmt,
      eval_succ_runSingleStmt, hthrow, Outcome.bind_ok, Option.isSome_some, if_true]
  -- the catch block
  have hc3 : (r.world.DefineValue r.env x (.error (newStringError (r.world.Sprint r.rv)))).1.cancelAfter
      = none := by
    rw [World.DefineValue_cancelAfter]; exact hctx2
  have hp3 := World.poll_of_never _ hc3
  have hd3 := World.Done_of_never _ hc3
  have hget := World.GetValue_DefineValue r.world r.env x (.error (newStringError (r.world.Sprint r.rv)))
    hdot henv
  have hident : runSingleStmt (eval (n + 1))
      { r with stmt := some (.ExprStmt (.IdentExpr x)), err := none,
               world := (r.world.DefineValue r.env x (.error (newStringError (r.world.Sprint r.rv)))).1 }
      = .ok { r with stmt := some (.ExprStmt (.IdentExpr x)), err := none,
                     expr := some (.IdentExpr x), rv := .error (newStringError (r.world.Sprint r.rv)),
                     world := (r.world.DefineValue r.env x (.error (newStringError (r.world.Sprint r.rv)))).1 } := by
    unfold runSingleStmt
    simp only [hd3, Bool.false_eq_true, if_false, hp3, eval_succ_invokeExpr, invokeExpr, hget]
  have hcatch : runSingleStmt (eval (n + 2))
      { r with stmt := some (.StmtsStmt [.ExprStmt (.IdentExpr x)]), err := none,
               world := (r.world.DefineValue r.env x (.error (newStringError (r.world.Sprint r.rv)))).1 }
      = .ok { r with stmt := some (.ExprStmt (.IdentExpr x)), err := none,
                     expr := some (.IdentExpr x), rv := .error (newStringError (r.world.Sprint r.rv)),
                     world := (r.world.DefineValue r.env x (.error (newStringError (r.world.Sprint r.rv)))).1 } := by
    unfold runSingleStmt
    simp only [hd3, Bool.false_eq_true, if_false, hp3, runStmtsStmt,
      eval_succ_runSingleStmt, hident, Outcome.bind_ok, Option.isSome_none]
  -- the Try statement
  have hx2 : (x != "") = true := by simpa using hx
  refine ⟨{ r with stmt := some (.ExprStmt (.IdentExpr x)), err := none,
                   expr := some (.IdentExpr x), rv := .error (newStringError (r.world.Sprint r.rv)),
                   world := (r.world.DefineValue r.env x (.error (newStringError (r.world.Sprint r.rv)))).1,
                   env := runInfo.env }, ?_, rfl, rfl, rfl,
    fun h => by simp [World.Sprint, h], fun h => by simp [World.Sprint, h]⟩
  unfold runSingleStmt
  simp only [hd0, Bool.false_eq_true, if_false, hp0, hstmt, runTryStmt, eval_succ_runSingleStmt,
    htry, Outcome.bind_ok, hx2, if_true, hcatch, Option.isSome_none]
  have hni : newStringError (r.world.Sprint r.rv) ≠ .ErrInterrupt := by
    simp [newStringError]
  simp only [hni, if_false, Outcome.bind_ok]

/-- Instance of C10: `try { throw "boom" } catch e { e }` ends without error
with the error value "boom", and `try { throw [1, 2] } catch e { e }` with the
error value "[1 2]". -/
theorem C10_try_throw_catch_witness :
    (∃ final, runSingleStmt (eval 4) (Sample.start Sample.tryBoom) = .ok final ∧ final.err = none ∧
      final.rv = .error (.vm "boom") ∧ final.env = 0) ∧
    (∃ final, runSingleStmt (eval 4) (Sample.start Sample.trySequence) = .ok final ∧
      final.err = none ∧ final.rv = .error (.vm "[1 2]") ∧ final.env = 0) :=
  ⟨(C10_try_throw_catch 1 (Sample.start Sample.tryBoom) (.LiteralExpr (.str "boom")) "e" _
      rfl rfl rfl rfl rfl rfl (by decide) (by decide) (by decide)).imp
      fun _ h => ⟨h.1, h.2.1, h.2.2.1, h.2.2.2.1⟩,
    (C10_try_throw_catch 1 (Sample.start Sample.trySequence)
      (.LiteralExpr (.slice .int64 [.int 1, .int 2])) "e" _
      rfl rfl rfl rfl rfl rfl (by decide) (by decide) (by decide)).imp
      fun _ h => ⟨h.1, h.2.1, h.2.2.1, h.2.2.2.1⟩⟩

/-- C11: for the type `funcType` builds for a script function that is not
variadic and has as many parameters as the call has argument expressions, a
call that is not variadic and whose argument expressions evaluate without
error to `vs`: `makeCallArgs` returns the context, then the receiver as a
`vmStruct` when the function has a receiver, then every value of `vs` in a
carrier, in argument order and with no coercion; the vector has as many
entries as the function type has parameters, and `useCallSlice` is false.
`checkIfRunVMFunction` recognises the type, so `callExpr` takes this path. -/
theorem C11_script_call_arguments (ev : Eval) (runInfo t : RunInfo) (hr : Bool)
    (SubExprs : List Expr) (vs : List Value)
    (hrecv : hr = true → runInfo.recv.IsValid = true)
    (hev : EvalsTo ev SubExprs (makeCallArgs.wrapRecv runInfo hr) vs t) :
    makeCallArgs ev runInfo (funcType SubExprs.length hr false) true SubExprs false
      = .ok (t, (if hr then [.ctx, (makeCallArgs.wrapRecv runInfo hr).recv] else [.ctx])
               ++ vs.map Value.carrier, false) ∧
    ((if hr then [.ctx, (makeCallArgs.wrapRecv runInfo hr).recv] else [Value.ctx])
        ++ vs.map Value.carrier).length = (funcType SubExprs.length hr false).NumIn ∧
    (hr = true → (makeCallArgs.wrapRecv runInfo hr).recv.TypeOf = vmStructType) ∧
    checkIfRunVMFunction (funcType SubExprs.length hr false) = true := by
  have hlen := EvalsTo.values_length ev SubExprs _ t vs hev
  refine ⟨?_, ?_, ?_, checkIfRunVMFunction_funcType SubExprs.length hr⟩
  · have hhas := makeCallArgs.hasRecv_funcType runInfo SubExprs.length hr hrecv
    have hnum : makeCallArgs.numIn (funcType SubExprs.length hr false) true hr = SubExprs.length := by
      cases hr <;> simp [makeCallArgs.numIn, funcType_NumIn]
    have hvar : (funcType SubExprs.length hr false).IsVariadic = false := by
      simp [FuncType.IsVariadic, funcType]
    by_cases hzero : SubExprs = []
    · subst hzero
      cases hev
      simp only [List.length_nil] at hhas hnum ⊢
      simp only [makeCallArgs, hhas, hnum, Nat.lt_one_iff, if_true, List.map_nil, List.append_nil]
    · have hpos : 0 < SubExprs.length := List.length_pos.mpr hzero
      have hbuild : makeCallArgs.build ev (makeCallArgs.wrapRecv runInfo hr)
          (funcType SubExprs.length hr false) true SubExprs false hr SubExprs.length
          = (makeCallArgs.loop ev (funcType SubExprs.length hr false) true SubExprs SubExprs.length
              (makeCallArgs.wrapRecv runInfo hr)
              (if hr then [.ctx, (makeCallArgs.wrapRecv runInfo hr).recv] else [.ctx]) 0 1 0).bind
            (fun r =>
              match r with
              | .error ri => .ok (ri, [], false)
              | .ok (runInfo, args, _, indexInReal, indexExpr) =>
                makeCallArgs.lastArg ev (funcType SubExprs.length hr false) true SubExprs runInfo args
                  indexInReal indexExpr) := by
        simp only [makeCallArgs.build, hvar, if_true, Bool.not_false, Bool.and_self]
      have hloop := makeCallArgs.loop_script ev (funcType SubExprs.length hr false) SubExprs
        SubExprs _ vs t hev hzero SubExprs.length
        (if hr then [.ctx, (makeCallArgs.wrapRecv runInfo hr).recv] else [.ctx]) 0 1 0
        (by intro i _; simp) (by simp) (by rw [funcType_NumIn]; cases hr <;> simp <;> omega)
        (le_refl _)
      have hwrong : makeCallArgs.wrongCount (funcType SubExprs.length hr false) false
          SubExprs.length SubExprs.length = false := by
        simp [makeCallArgs.wrongCount, hvar]
      have hlt : ¬ SubExprs.length < 1 := by omega
      simp only [makeCallArgs, hhas, hnum, hlt, if_false, hwrong, hvar, Bool.false_and,
        Bool.false_eq_true, hbuild, hloop]
  · rw [funcType_NumIn]
    cases hr <;> simp [hlen]
  · intro h
    subst h
    simp only [makeCallArgs.wrapRecv, Bool.true_and]
    split
    · rfl
    · rename_i hne
      simpa using hne

/-- Instance of C11: for a method `func (T) f(a, b)` called as `obj.f(1, 2)`
the arguments are the context, the receiver as a `vmStruct`, the carrier of 1
and the carrier of 2. -/
theorem C11_script_call_arguments_witness :
    ∃ vs t, Sample.withRecv.recv.IsValid = true ∧
      EvalsTo (eval 1) Sample.twoArgs (makeCallArgs.wrapRecv Sample.withRecv true) vs t ∧
      vs = [.int 1, .int 2] ∧
      (makeCallArgs.wrapRecv Sample.withRecv true).recv = .vmStruct (.str "obj") ∧
      (makeCallArgs (eval 1) Sample.withRecv (funcType Sample.twoArgs.length true false) true
          Sample.twoArgs false
        = .ok (t, (if true then [.ctx, (makeCallArgs.wrapRecv Sample.withRecv true).recv] else [.ctx])
                 ++ vs.map Value.carrier, false) ∧
      ((if true then [.ctx, (makeCallArgs.wrapRecv Sample.withRecv true).recv] else [Value.ctx])
          ++ vs.map Value.carrier).length = (funcType Sample.twoArgs.length true false).NumIn ∧
      (true = true → (makeCallArgs.wrapRecv Sample.withRecv true).recv.TypeOf = vmStructType) ∧
      checkIfRunVMFunction (funcType Sample.twoArgs.length true false) = true) :=
  ⟨_, _, rfl, EvalsTo.cons rfl rfl (EvalsTo.cons rfl rfl (EvalsTo.nil _)), rfl, rfl,
    C11_script_call_arguments (eval 1) Sample.withRecv _ true Sample.twoArgs _
      (fun _ => rfl)
      (EvalsTo.cons rfl rfl (EvalsTo.cons rfl rfl (EvalsTo.nil _)))⟩

/-- C12: round trip of the canonical return pair. When the prelude of
`runVMFunction` succeeds and the body returns in state `r`, `runVMFunction`
returns a vector of exactly two values, and `processCallReturnValues` with
`isRunVMFunction = true` maps that vector to the result value of the body and
no error when the body ended with no error or with `ErrReturn`, and to nil and
a `*vm.Error` with the message of the body's error otherwise; in neither case
is the error one of the format errors of `processCallReturnValues`. -/
theorem C12_return_pair_round_trip (ev : Eval) (c : Closure) (ins : List Value) (world : World)
    (s r : RunInfo) (flag : Bool)
    (henter : runVMFunction.enter c ins world = .ok s)
    (hbody : ev.runSingleStmt s = .ok r) :
    ∃ rv0 rv1, runVMFunction ev c ins world = .ok ([rv0, rv1], r.world) ∧
      ((r.err = none ∨ r.err = some .ErrReturn) →
        processCallReturnValues [rv0, rv1] true flag = (r.rv, none)) ∧
      (∀ e, r.err = some e → e ≠ .ErrReturn →
        processCallReturnValues [rv0, rv1] true flag = (nilValue, some (.vm e.Error))) ∧
      (∀ m, (processCallReturnValues [rv0, rv1] true flag).2 ≠ some (.host m)) := by
  rw [runVMFunction_eq, henter, Outcome.bind_ok, hbody, Outcome.bind_ok]
  cases herr : r.err with
  | none =>
    refine ⟨.carrier r.rv, reflectValueErrorNilValue, ?_, ?_, ?_, ?_⟩
    · simp [runVMFunction.leave, herr]
    · intro _; rfl
    · intro e he; cases he
    · intro m; simp [processCallReturnValues, Value.TypeOf, Value.IsNil]
  | some e =>
    by_cases hret : e = .ErrReturn
    · subst hret
      refine ⟨.carrier r.rv, reflectValueErrorNilValue, ?_, ?_, ?_, ?_⟩
      · simp [runVMFunction.leave, herr]
      · intro _; rfl
      · intro e he hne
        cases he
        exact absurd rfl hne
      · intro m; simp [processCallReturnValues, Value.TypeOf, Value.IsNil]
    · refine ⟨reflectValueNilValue, .carrier (.error (.vm e.Error)), ?_, ?_, ?_, ?_⟩
      · simp [runVMFunction.leave, herr, hret, newError, GoError.Error]
      · rintro (h | h)
        · cases h
        · cases h
          exact absurd rfl hret
      · intro e2 he _
        cases he
        rfl
      · intro m
        simp [processCallReturnValues, Value.TypeOf, Value.IsNil, Value.asError]

/-- Instance of C12: the body of `func() { return 1 }` ends with `ErrReturn`,
and the pair `runVMFunction` returns is mapped back to the result of the body
with no error. -/
theorem C12_return_pair_round_trip_witness :
    ∃ s r, runVMFunction.enter Sample.returnsOne [.ctx] World.root0 = .ok s ∧
      (eval 3).runSingleStmt s = .ok r ∧ r.err = some .ErrReturn ∧
      ∃ rv0 rv1, runVMFunction (eval 3) Sample.returnsOne [.ctx] World.root0
          = .ok ([rv0, rv1], r.world) ∧
        ((r.err = none ∨ r.err = some .ErrReturn) →
          processCallReturnValues [rv0, rv1] true true = (r.rv, none)) ∧
        (∀ e, r.err = some e → e ≠ .ErrReturn →
          processCallReturnValues [rv0, rv1] true true = (nilValue, some (.vm e.Error))) ∧
        (∀ m, (processCallReturnValues [rv0, rv1] true true).2 ≠ some (.host m)) :=
  ⟨_, _, rfl, rfl, rfl,
    C12_return_pair_round_trip (eval 3) Sample.returnsOne [.ctx] World.root0 _ _ true rfl rfl⟩

/-- C13: in plain form (`isRunVMFunction = false`) `processCallReturnValues`
never returns an error; no returned value gives nil, one returned value gives
that value itself, and two or more give a sequence with one slot per returned
value, in the original order: slot `i` holds value `i` as an `interface{}`
(when the interface form is asked for, as `callExpr` does) or in a carrier. -/
theorem C13_plain_return_values (v a b : Value) (rest : List Value) (flag : Bool) :
    processCallReturnValues [] false flag = (nilValue, none) ∧
    processCallReturnValues [v] false flag = (v, none) ∧
    processCallReturnValues (a :: b :: rest) false true
      = (.slice .iface ((a :: b :: rest).map Value.toInterface), none) ∧
    processCallReturnValues (a :: b :: rest) false false
      = (.slice reflectValueType ((a :: b :: rest).map Value.carrier), none) ∧
    (∀ rvs, (processCallReturnValues rvs false flag).2 = none) ∧
    (∀ i, ((a :: b :: rest).map Value.toInterface).get? i
        = ((a :: b :: rest).get? i).map Value.toInterface) ∧
    ((a :: b :: rest).map Value.toInterface).length = (a :: b :: rest).length := by
  refine ⟨rfl, rfl, rfl, rfl, ?_, ?_, ?_⟩
  · intro rvs
    match rvs with
    | [] => rfl
    | [_] => rfl
    | _ :: _ :: _ => cases flag <;> rfl
  · intro i
    rw [List.get?_eq_getElem?, List.get?_eq_getElem?, List.getElem?_map]
  · simp

/-- C14: for a variadic native function with the fixed parameters of `fixed`
and a variadic parameter of element type `elem`, whose fixed arguments
evaluate and are coerced without error to `cs`: when the last argument of the
spread call evaluates to a well-typed sequence `xs` and the trailing arguments
of the listing call evaluate to the elements of `xs`, in order, each coerced
without error to `elem` (giving `ys`), then the spread call builds the
arguments `cs` followed by one slice `tail` and asks for `CallSlice`, the
listing call builds `cs` followed by `ys` and asks for `Call`, and the
function receives the same vector from both: `cs`, then the slice of element
type `elem` that holds `ys`, the element-wise coercion of `xs`. -/
theorem C14_spread_equals_listing (ev : Eval) (runInfo s1 s2 t : RunInfo) (rt : FuncType)
    (fixed items : List Expr) (xsExpr : Expr) (elem e0 : GoType) (vsF cs xs ys : List Value)
    (hvar : rt.IsVariadic = true) (hnum : rt.NumIn = fixed.length + 1)
    (hlast : rt.In fixed.length = .slice elem)
    (hfixed : ArgsTo ev rt.In 0 fixed
      (makeCallArgs.wrapRecv runInfo (makeCallArgs.hasRecv runInfo rt)) vsF cs s1)
    (hxs : ev.invokeExpr { s1 with expr := some xsExpr } = .ok s2) (hok : s2.err = none)
    (hseq : s2.rv = .slice e0 xs)
    (hwf : e0 = elem → ∀ x ∈ xs, x.storedAs elem = true)
    (hitems : ArgsTo ev (fun _ => elem) 0 items s1 xs ys t) :
    ∃ tail, tail = Value.slice elem (if elem == .iface then ys.map Value.toInterface else ys) ∧
      convertList xs elem = some ys ∧
      makeCallArgs ev runInfo rt false (fixed ++ [xsExpr]) true
        = .ok ({ s2 with rv := tail, err := none }, cs ++ [tail], true) ∧
      makeCallArgs ev runInfo rt false (fixed ++ items) false = .ok (t, cs ++ ys, false) ∧
      reflectCall.inputs true rt (cs ++ [tail]) = some (cs ++ [tail]) ∧
      reflectCall.inputs false rt (cs ++ ys) = some (cs ++ [tail]) ∧
      (∀ (ev2 : Eval) (ref : FuncRef) (w : World),
        reflectCall ev2 true (.func rt ref) (cs ++ [tail]) w
          = reflectCall ev2 false (.func rt ref) (cs ++ ys) w) := by
  obtain ⟨hcl, hassign⟩ := ArgsTo.convertList_eq ev elem 0 items s1 t xs ys hitems
  have hconv := convertReflectValueToType_slice e0 elem xs ys hwf hcl
  rw [← hseq] at hconv
  have hcs := (ArgsTo.lengths ev rt.In 0 fixed _ s1 vsF cs hfixed).2
  have hin := reflectCall.inputs_variadic rt elem cs ys hvar (by rw [hcs]; exact hnum)
    (by rw [hcs]; exact hlast) hassign
    (.slice elem (if elem == .iface then ys.map Value.toInterface else ys))
  refine ⟨_, rfl, hcl, ?_, ?_, hin.1, hin.2, ?_⟩
  · exact makeCallArgs_spread ev runInfo s1 s2 rt fixed xsExpr elem vsF cs _ hvar hnum hlast
      hfixed hxs hok hconv
  · exact makeCallArgs_listing ev runInfo s1 t rt fixed items elem vsF cs xs ys hvar hnum hlast
      hfixed hitems
  · intro ev2 ref w
    simp only [reflectCall, hin.1, hin.2]

/-- Instance of C14: for a host function `func(string, ...int64) int64` the
calls `f("a", [1, 2]...)` and `f("a", 1, 2)` pass the same vector, the string
"a" and the slice of 1 and 2. -/
theorem C14_spread_equals_listing_witness :
    ∃ s1 s2 t cs ys tail,
      ArgsTo (eval 1) Sample.sumType.In 0 [.LiteralExpr (.str "a")]
        (makeCallArgs.wrapRecv Sample.plain (makeCallArgs.hasRecv Sample.plain Sample.sumType))
        [.str "a"] cs s1 ∧
      (eval 1).invokeExpr { s1 with expr := some (.LiteralExpr (.slice .int64 [.int 1, .int 2])) }
        = .ok s2 ∧
      s2.rv = .slice .int64 [.int 1, .int 2] ∧
      ArgsTo (eval 1) (fun _ => GoType.int64) 0 Sample.twoArgs s1 [.int 1, .int 2] ys t ∧
      cs = [.str "a"] ∧ ys = [.int 1, .int 2] ∧
      tail = Value.slice .int64 (if GoType.int64 == .iface then ys.map Value.toInterface else ys) ∧
      convertList [.int 1, .int 2] .int64 = some ys ∧
      makeCallArgs (eval 1) Sample.plain Sample.sumType false
          ([.LiteralExpr (.str "a")] ++ [.LiteralExpr (.slice .int64 [.int 1, .int 2])]) true
        = .ok ({ s2 with rv := tail, err := none }, cs ++ [tail], true) ∧
      makeCallArgs (eval 1) Sample.plain Sample.sumType false
          ([.LiteralExpr (.str "a")] ++ Sample.twoArgs) false = .ok (t, cs ++ ys, false) ∧
      reflectCall.inputs true Sample.sumType (cs ++ [tail]) = some (cs ++ [tail]) ∧
      reflectCall.inputs false Sample.sumType (cs ++ ys) = some (cs ++ [tail]) ∧
      (∀ (ev2 : Eval) (ref : FuncRef) (w : World),
        reflectCall ev2 true (.func Sample.sumType ref) (cs ++ [tail]) w
          = reflectCall ev2 false (.func Sample.sumType ref) (cs ++ ys) w) := by
  have h := C14_spread_equals_listing (eval 1) Sample.plain _ _ _ Sample.sumType
    [.LiteralExpr (.str "a")] Sample.twoArgs (.LiteralExpr (.slice .int64 [.int 1, .int 2]))
    .int64 .int64 [.str "a"] [.str "a"] [.int 1, .int 2] [.int 1, .int 2] rfl rfl rfl
    (ArgsTo.step rfl rfl rfl rfl (ArgsTo.nil _ _)) rfl rfl rfl (fun _ => by decide)
    (ArgsTo.step rfl rfl rfl rfl (ArgsTo.step rfl rfl rfl rfl (ArgsTo.nil _ _)))
  obtain ⟨tail, htail, hrest⟩ := h
  exact ⟨_, _, _, _, _, tail, ArgsTo.step rfl rfl rfl rfl (ArgsTo.nil _ _), rfl, rfl,
    ArgsTo.step rfl rfl rfl rfl (ArgsTo.step rfl rfl rfl rfl (ArgsTo.nil _ _)), rfl, rfl,
    htail, hrest⟩

/-- C15: in a statement sequence entered while the context is not done, whose
statements before the first `break`, `continue` or `return` all run without
error and leave state `t`: for `break` the sequence ends in `t` with
`ErrBreak`, for `continue` in `t` with `ErrContinue`; for `return` the return
statement is run from `t` and, when it leaves state `r`, the sequence ends in
`r` with the error of `r` if there is one and with `ErrReturn` and the result
of the return statement otherwise. The statements after the control statement
do not occur in the result: none of them is run.

The result of the return statement, when it is run by `runSingleStmt` while
the context is not done: with no expression the result is nil; with one
expression `e` the statement ends in the state the evaluation of `e` left,
so with the value of `e` as result, or with its error; with two or more
expressions that all evaluate without error the result is the sequence of
their values, in order, each in an `interface{}` slot; when one of them
leaves an error the sequence ends in the state that expression left, with
that error. -/
theorem C15_first_control_statement (ev : Eval) (runInfo t : RunInfo) (pre post : List Stmt)
    (hpre : ∀ st ∈ pre, st.isControl = false)
    (hlive : runInfo.world.Done = false)
    (hrun : RunsAll ev pre { runInfo with world := runInfo.world.poll } t) :
    (runInfo.stmt = some (.StmtsStmt (pre ++ .BreakStmt :: post)) →
      runSingleStmt ev runInfo = .ok { t with err := some .ErrBreak }) ∧
    (runInfo.stmt = some (.StmtsStmt (pre ++ .ContinueStmt :: post)) →
      runSingleStmt ev runInfo = .ok { t with err := some .ErrContinue }) ∧
    (∀ es r, runInfo.stmt = some (.StmtsStmt (pre ++ .ReturnStmt es :: post)) →
      ev.runSingleStmt { t with stmt := some (.ReturnStmt es) } = .ok r →
      runSingleStmt ev runInfo = .ok (if r.err.isSome then r else { r with err := some .ErrReturn })) ∧
    (∀ ev0, ev.runSingleStmt = runSingleStmt ev0 → t.world.Done = false →
      (runInfo.stmt = some (.StmtsStmt (pre ++ .ReturnStmt [] :: post)) →
        runSingleStmt ev runInfo
          = .ok (if t.err.isSome
              then { t with world := t.world.poll, stmt := some (.ReturnStmt []), rv := nilValue }
              else { t with world := t.world.poll, stmt := some (.ReturnStmt []), rv := nilValue,
                            err := some .ErrReturn })) ∧
      (∀ e r, runInfo.stmt = some (.StmtsStmt (pre ++ .ReturnStmt [e] :: post)) →
        ev0.invokeExpr
          { t with world := t.world.poll, stmt := some (.ReturnStmt [e]), expr := some e } = .ok r →
        runSingleStmt ev runInfo
          = .ok (if r.err.isSome then r else { r with err := some .ErrReturn })) ∧
      (∀ es vs r, 2 ≤ es.length →
        runInfo.stmt = some (.StmtsStmt (pre ++ .ReturnStmt es :: post)) →
        EvalsTo ev0 es { t with world := t.world.poll, stmt := some (.ReturnStmt es) } vs r →
        runSingleStmt ev runInfo
          = .ok { r with rv := .slice .iface (vs.map Value.toInterface),
                         err := some .ErrReturn }) ∧
      (∀ es1 e es2 vs m r, 2 ≤ (es1 ++ e :: es2).length →
        runInfo.stmt = some (.StmtsStmt (pre ++ .ReturnStmt (es1 ++ e :: es2) :: post)) →
        EvalsTo ev0 es1
          { t with world := t.world.poll, stmt := some (.ReturnStmt (es1 ++ e :: es2)) } vs m →
        ev0.invokeExpr { m with expr := some e } = .ok r → r.err.isSome = true →
        runSingleStmt ev runInfo = .ok r)) := by
  have hgen : ∀ es r, runInfo.stmt = some (.StmtsStmt (pre ++ .ReturnStmt es :: post)) →
      ev.runSingleStmt { t with stmt := some (.ReturnStmt es) } = .ok r →
      runSingleStmt ev runInfo
        = .ok (if r.err.isSome then r else { r with err := some .ErrReturn }) := by
    intro es r hstmt hret
    have happ := fun rest => runStmtsStmt_append ev pre rest _ t hpre hrun
    simp only [hstmt] at happ
    simp only [runSingleStmt, hlive, hstmt, Bool.false_eq_true, if_false, happ]
    simp only [runStmtsStmt, hret, Outcome.bind_ok]
    split <;> rfl
  refine ⟨?_, ?_, hgen, ?_⟩
  · intro hstmt
    have happ := fun rest => runStmtsStmt_append ev pre rest _ t hpre hrun
    simp only [hstmt] at happ
    simp only [runSingleStmt, hlive, hstmt, Bool.false_eq_true, if_false, happ]
    simp [runStmtsStmt]
  · intro hstmt
    have happ := fun rest => runStmtsStmt_append ev pre rest _ t hpre hrun
    simp only [hstmt] at happ
    simp only [runSingleStmt, hlive, hstmt, Bool.false_eq_true, if_false, happ]
    simp [runStmtsStmt]
  · intro ev0 hev hlive2
    have hret : ∀ es, ev.runSingleStmt { t with stmt := some (.ReturnStmt es) }
        = runReturnStmt ev0 { t with world := t.world.poll, stmt := some (.ReturnStmt es) } es := by
      intro es
      rw [hev]
      simp only [runSingleStmt, hlive2, Bool.false_eq_true, if_false]
    refine ⟨?_, ?_, ?_, ?_⟩
    · intro hstmt
      rw [hgen [] _ hstmt ((hret []).trans rfl)]
    · intro e r hstmt he
      exact hgen [e] r hstmt ((hret [e]).trans (by simp only [runReturnStmt, he]))
    · intro es vs r h2 hstmt hev2
      have hloop := runReturnStmt.loop_values ev0 es _ r vs hev2 []
      have hclean : r.err = none :=
        EvalsTo.ends_clean ev0 es _ r vs hev2
          (Or.inl (fun h => by rw [h] at h2; simp at h2))
      have hrun2 : runReturnStmt ev0
          { t with world := t.world.poll, stmt := some (.ReturnStmt es) } es
          = .ok { r with rv := .slice .iface (vs.map Value.toInterface) } := by
        match es, h2 with
        | a :: b :: rest, _ =>
          simp only [runReturnStmt, hloop, Outcome.bind_ok, List.nil_append]
      rw [hgen es _ hstmt ((hret es).trans hrun2)]
      simp [hclean]
    · intro es1 e es2 vs m r h2 hstmt hev2 he herr
      have hloop := runReturnStmt.loop_error ev0 es1 e es2 _ m r vs hev2 he herr []
      have hrun2 : runReturnStmt ev0
          { t with world := t.world.poll, stmt := some (.ReturnStmt (es1 ++ e :: es2)) }
          (es1 ++ e :: es2) = .ok r := by
        generalize hes : es1 ++ e :: es2 = es at h2 hloop
        match es, h2 with
        | a :: b :: rest, _ =>
          simp only [runReturnStmt, hloop, Outcome.bind_ok]
      rw [hgen _ _ hstmt ((hret _).trans hrun2)]
      simp [herr]

/-- Instance of C15: in `1; return 2; throw "late"` the statement `1` runs
without error, the sequence ends with `ErrReturn` and the result 2, and the
`throw` after the `return` is not run. -/
theorem C15_first_control_statement_witness :
    (runSingleStmt (eval 3) (Sample.start Sample.returnInSequence)).toOption.map
        (fun r => (r.err, r.rv.unwrapInterface.Sprint))
      = some (some .ErrReturn, "2") ∧
    ∃ t r, RunsAll (eval 3) [.ExprStmt (.LiteralExpr (.int 1))]
        { Sample.start Sample.returnInSequence with
          world := (Sample.start Sample.returnInSequence).world.poll } t ∧
      (eval 2).invokeExpr
        { t with world := t.world.poll, stmt := some (.ReturnStmt [.LiteralExpr (.int 2)]),
                 expr := some (.LiteralExpr (.int 2)) } = .ok r ∧
      r.rv = .int 2 ∧
      runSingleStmt (eval 3) (Sample.start Sample.returnInSequence)
        = .ok (if r.err.isSome then r else { r with err := some .ErrReturn }) :=
  ⟨by decide, _, _, RunsAll.cons rfl rfl (RunsAll.nil _), rfl, rfl,
    ((C15_first_control_statement (eval 3) (Sample.start Sample.returnInSequence) _
      [.ExprStmt (.LiteralExpr (.int 1))] [.ThrowStmt (.LiteralExpr (.str "late"))]
      (by simp [Stmt.isControl]) (by decide) (RunsAll.cons rfl rfl (RunsAll.nil _))).2.2.2
      (eval 2) rfl rfl).2.1 (.LiteralExpr (.int 2)) _ rfl rfl⟩

/-- C16: in every loop (the `LoopStmt` loop, the for-in loops over an
Index-capable value, a slice, a map and a channel, and the `CForStmt` loop),
for an iteration whose body is run and leaves state `r`: on `ErrBreak` the
loop ends with no error, a nil result and the environment of the statement; on
`ErrContinue` the error is cleared and the loop goes on with the next
iteration (in a `CForStmt` with the post expression first); on `ErrReturn`
the loop ends with `ErrReturn` and the result value of `r`. Each loop
statement is its loop, run in a fresh child environment: a `LoopStmt` at once,
a `ForStmt` with a variable once its iterable is evaluated without error (by
the kind of the value), a `CForStmt` after its init statement. Hence a loop
statement entered with an error that is neither `ErrBreak` nor `ErrContinue`,
whose own expressions (condition, iterable, post expression) and init
statement raise neither, never ends with `ErrBreak` or `ErrContinue`,
whatever its body does. -/
theorem C16_loop_signals (ev : Eval) (env : Nat) (body : Stmt) :
    (∀ cond k s c r, s.world.Done = false →
      cond.elim (c = { s with world := s.world.poll })
        (fun e => ev.invokeExpr { s with world := s.world.poll, expr := some e } = .ok c
          ∧ c.err = none ∧ toBool c.world c.rv = true) →
      ev.runSingleStmt { c with stmt := some body } = .ok r →
      LoopSignals env r (runLoopStmt.loop ev env cond body (k + 1) s)
        (runLoopStmt.loop ev env cond body k)) ∧
    (∀ var failAt x rest i s r, s.world.Done = false → failAt ≠ some i →
      ev.runSingleStmt
        { s with world := (s.world.poll.DefineValue s.env var x.ofInterface.unwrapInterface).1,
                 stmt := some body } = .ok r →
      LoopSignals env r (runForStmt.index ev env var body failAt (x :: rest) i s)
        (runForStmt.index ev env var body failAt rest (i + 1))) ∧
    (∀ var x rest s r, s.world.Done = false →
      ev.runSingleStmt
        { s with world := (s.world.poll.DefineValue s.env var
                   (if x.unwrapInterface.kind == .ptr then x.unwrapInterface.Elem
                    else x.unwrapInterface)).1,
                 stmt := some body } = .ok r →
      LoopSignals env r (runForStmt.slice ev env var body (x :: rest) s)
        (runForStmt.slice ev env var body rest)) ∧
    (∀ (Vars : List String) (var : String) (mapId : Nat) (key val : Value)
        (rest : List (Value × Value)) (s s1 r : RunInfo), s.world.Done = false →
      s1 = (match Vars with
        | _ :: second :: _ =>
          { s with world := ((s.world.poll.DefineValue s.env var key).1.DefineValue s.env second
              (MapIndex (s.world.poll.DefineValue s.env var key).1 mapId key)).1 }
        | _ => { s with world := (s.world.poll.DefineValue s.env var key).1 }) →
      ev.runSingleStmt { s1 with stmt := some body } = .ok r →
      LoopSignals env r (runForStmt.map ev env Vars var body mapId ((key, val) :: rest) s)
        (runForStmt.map ev env Vars var body mapId rest)) ∧
    (∀ var k v sel s r, s.world.selects = .received v :: sel →
      ev.runSingleStmt
        { s with rv := (if v.unwrapInterface.kind == .ptr then v.unwrapInterface.Elem
                        else v.unwrapInterface),
                 world := (World.DefineValue { s.world with selects := sel } s.env var
                   (if v.unwrapInterface.kind == .ptr then v.unwrapInterface.Elem
                    else v.unwrapInterface)).1,
                 stmt := some body } = .ok r →
      LoopSignals env r (runForStmt.chan ev env var body (k + 1) s)
        (runForStmt.chan ev env var body k)) ∧
    (∀ Expr2 Expr3 k s c r, s.world.Done = false →
      Expr2.elim (c = { s with world := s.world.poll })
        (fun e => ev.invokeExpr { s with world := s.world.poll, expr := some e } = .ok c
          ∧ c.err = none ∧ toBool c.world c.rv = true) →
      ev.runSingleStmt { c with stmt := some body } = .ok r →
      LoopSignals env r (runCForStmt.loop ev env Expr2 Expr3 body (k + 1) s)
        (fun q => match Expr3 with
          | some e =>
            (ev.invokeExpr { q with expr := some e }).bind fun p =>
            if p.err.isSome then .ok { p with rv := nilValue, env := env }
            else runCForStmt.loop ev env Expr2 Expr3 body k p
          | none => runCForStmt.loop ev env Expr2 Expr3 body k q)) ∧
    (∀ (runInfo : RunInfo) (cond : Option Expr),
      runLoopStmt ev runInfo cond body =
        runLoopStmt.loop ev runInfo.env cond body ev.fuel
          { runInfo with world := (runInfo.world.NewEnv runInfo.env).1,
                         env := (runInfo.world.NewEnv runInfo.env).2 }) ∧
    (∀ (runInfo v : RunInfo) (var : String) (vars : List String) (Value : Expr),
      ev.invokeExpr { runInfo with expr := some Value } = .ok v → v.err = none →
      (∀ items failAt, v.rv.unwrapInterface = .index items failAt →
        runForStmt ev runInfo (var :: vars) Value body =
          runForStmt.index ev v.env var body failAt items 0
            { v with world := (v.world.NewEnv v.env).1, env := (v.world.NewEnv v.env).2 }) ∧
      (∀ elem xs, v.rv.unwrapInterface = .slice elem xs →
        runForStmt ev runInfo (var :: vars) Value body =
          runForStmt.slice ev v.env var body xs
            { v with world := (v.world.NewEnv v.env).1, env := (v.world.NewEnv v.env).2 }) ∧
      (∀ key val mapId, v.rv.unwrapInterface = .map key val mapId →
        runForStmt ev runInfo (var :: vars) Value body =
          runForStmt.map ev v.env (var :: vars) var body mapId
            ((v.world.NewEnv v.env).1.maps.getD mapId [])
            { v with world := (v.world.NewEnv v.env).1, env := (v.world.NewEnv v.env).2 }) ∧
      (∀ chanId, v.rv.unwrapInterface = .chan chanId →
        runForStmt ev runInfo (var :: vars) Value body =
          runForStmt.chan ev v.env var body ev.fuel
            { v with world := (v.world.NewEnv v.env).1, env := (v.world.NewEnv v.env).2 })) ∧
    (∀ (runInfo : RunInfo) (Expr2 Expr3 : Option Expr),
      (∀ init : Stmt, runCForStmt ev runInfo (some init) Expr2 Expr3 body =
        (ev.runSingleStmt { runInfo with world := (runInfo.world.NewEnv runInfo.env).1,
                                         env := (runInfo.world.NewEnv runInfo.env).2,
                                         stmt := some init }).bind fun r =>
          if r.err.isSome then .ok { r with env := runInfo.env }
          else runCForStmt.loop ev runInfo.env Expr2 Expr3 body ev.fuel r) ∧
      runCForStmt ev runInfo none Expr2 Expr3 body =
        runCForStmt.loop ev runInfo.env Expr2 Expr3 body ev.fuel
          { runInfo with world := (runInfo.world.NewEnv runInfo.env).1,
                         env := (runInfo.world.NewEnv runInfo.env).2 }) ∧
    (∀ (runInfo r : RunInfo) (cond : Option Expr), NoLoopSignal runInfo.err →
      (∀ e, cond = some e → KeepsNoSignal ev e) →
      runLoopStmt ev runInfo cond body = .ok r → NoLoopSignal r.err) ∧
    (∀ (runInfo r : RunInfo) (Vars : List String) (Value : Expr), NoLoopSignal runInfo.err →
      KeepsNoSignal ev Value →
      runForStmt ev runInfo Vars Value body = .ok r → NoLoopSignal r.err) ∧
    (∀ (runInfo r : RunInfo) (Stmt1 : Option Stmt) (Expr2 Expr3 : Option Expr),
      NoLoopSignal runInfo.err →
      (∀ (init : Stmt) (s q : RunInfo), Stmt1 = some init → NoLoopSignal s.err →
        ev.runSingleStmt { s with stmt := some init } = .ok q → NoLoopSignal q.err) →
      (∀ e, Expr2 = some e → KeepsNoSignal ev e) →
      (∀ e, Expr3 = some e → KeepsNoSignal ev e) →
      runCForStmt ev runInfo Stmt1 Expr2 Expr3 body = .ok r → NoLoopSignal r.err) := by
  refine ⟨?_, ?_, ?_, ?_, ?_, ?_, ?_, ?_, ?_, ?_, ?_, ?_⟩
  · intro cond k s c r hlive htest hbody
    exact runLoopStmt.loop_signals ev env cond body k s c r hlive htest hbody
  · intro var failAt x rest i s r hlive hfail hbody
    exact runForStmt.index_signals ev env var body failAt x rest i s r hlive hfail hbody
  · intro var x rest s r hlive hbody
    exact runForStmt.slice_signals ev env var body x rest s r hlive hbody
  · intro Vars var mapId key val rest s s1 r hlive hvars hbody
    exact runForStmt.map_signals ev env Vars var body mapId key val rest s s1 r hlive hvars hbody
  · intro var k v sel s r hsel hbody
    exact runForStmt.chan_signals ev env var body k v sel s r hsel hbody
  · intro Expr2 Expr3 k s c r hlive htest hbody
    have hstep := runCForStmt.loop_step ev env Expr2 Expr3 body k s c r hlive htest hbody
    refine ⟨fun h => ?_, fun h => ?_, fun h => ?_⟩
    · rw [hstep]; simp [h]
    · rw [hstep]; simp [h]
    · rw [hstep]; simp [h]
  · intro runInfo cond
    rfl
  · intro runInfo v var vars Value hv herr
    refine ⟨?_, ?_, ?_, ?_⟩
    · intro items failAt hk
      simp [runForStmt, hv, herr, hk, Outcome.bind]
    · intro elem xs hk
      simp [runForStmt, hv, herr, hk, Outcome.bind]
    · intro key val mapId hk
      simp [runForStmt, hv, herr, hk, Outcome.bind]
    · intro chanId hk
      simp [runForStmt, hv, herr, hk, Outcome.bind]
  · intro runInfo Expr2 Expr3
    refine ⟨fun init => ?_, ?_⟩
    · simp only [runCForStmt, Option.isSome_some, Bool.true_and]
    · simp [runCForStmt, Outcome.bind]
  · intro runInfo r cond hentry hcond h
    exact runLoopStmt.loop_noSignal ev runInfo.env cond body hcond ev.fuel
      { runInfo with world := (runInfo.world.NewEnv runInfo.env).1,
                     env := (runInfo.world.NewEnv runInfo.env).2 } r hentry h
  · intro runInfo r Vars Value hentry hexpr h
    exact runForStmt_noSignal ev runInfo Vars Value body hentry hexpr r h
  · intro runInfo r Stmt1 Expr2 Expr3 hentry hinit hcond hpost h
    exact runCForStmt_noSignal ev runInfo Stmt1 Expr2 Expr3 body hentry hinit hcond hpost r h

/-- Instance of C16: the body of `for { break }` ends with `ErrBreak`; the
loop, and the statement, end with no error; and the statement
`for true { break }`, whose condition is a literal, returns a state whose
error is neither `ErrBreak` nor `ErrContinue`. -/
theorem C16_loop_signals_witness :
    (runSingleStmt (eval 3) (Sample.start Sample.loopBreak)).toOption.map (fun r => r.err)
      = some none ∧
    (∃ r, (eval 3).runSingleStmt
        { Sample.plain with world := Sample.plain.world.poll,
                            stmt := some (.StmtsStmt [.BreakStmt]) } = .ok r ∧
      r.err = some .ErrBreak ∧
      runLoopStmt.loop (eval 3) 0 none (.StmtsStmt [.BreakStmt]) (0 + 1) Sample.plain
        = .ok { r with err := none, rv := nilValue, env := 0 }) ∧
    ∃ r, runLoopStmt (eval 3) Sample.plain (some (.LiteralExpr (.bool true)))
        (.StmtsStmt [.BreakStmt]) = .ok r ∧
      r.err = none ∧ NoLoopSignal r.err :=
  ⟨by decide,
    ⟨_, rfl, rfl,
      ((C16_loop_signals (eval 3) 0 (.StmtsStmt [.BreakStmt])).1 none 0 Sample.plain _ _
        (by decide) rfl rfl).1 rfl⟩,
    _, rfl, rfl,
    (C16_loop_signals (eval 3) 0 (.StmtsStmt [.BreakStmt])).2.2.2.2.2.2.2.2.2.1
      Sample.plain _ (some (.LiteralExpr (.bool true))) (NoLoopSignal.of_none rfl)
      (fun e he => by
        cases he
        intro s q hs h
        cases h
        exact hs)
      rfl⟩

/-- C17: a C-style for statement runs its init statement once, in a fresh
child environment, before the loop, and the loop itself has no init statement
to run; in every iteration entered while the context is not done the
condition is evaluated first, and when it fails or is not truthy the loop ends
without running the body; after a body that ends with no error or with
`ErrContinue` the post expression is evaluated before the next iteration,
and after a body that ends with `ErrBreak`, `ErrReturn` or any other error the
loop ends at once, whatever the post expression is. -/
theorem C17_cfor_order (ev : Eval) (env : Nat) (Expr2 Expr3 : Option Expr) (body : Stmt) :
    (∀ (runInfo : RunInfo) (init : Stmt),
      runCForStmt ev runInfo (some init) Expr2 Expr3 body =
        (ev.runSingleStmt { runInfo with world := (runInfo.world.NewEnv runInfo.env).1,
                                         env := (runInfo.world.NewEnv runInfo.env).2,
                                         stmt := some init }).bind fun r =>
          if r.err.isSome then .ok { r with env := runInfo.env }
          else runCForStmt.loop ev runInfo.env Expr2 Expr3 body ev.fuel r) ∧
    (∀ (runInfo : RunInfo),
      runCForStmt ev runInfo none Expr2 Expr3 body =
        runCForStmt.loop ev runInfo.env Expr2 Expr3 body ev.fuel
          { runInfo with world := (runInfo.world.NewEnv runInfo.env).1,
                         env := (runInfo.world.NewEnv runInfo.env).2 }) ∧
    (∀ (k : Nat) (s c : RunInfo) (e : Expr), s.world.Done = false → Expr2 = some e →
      ev.invokeExpr { s with world := s.world.poll, expr := some e } = .ok c →
      (c.err ≠ none ∨ toBool c.world c.rv = false) →
      runCForStmt.loop ev env Expr2 Expr3 body (k + 1) s = .ok { c with rv := nilValue, env := env }) ∧
    (∀ (k : Nat) (s c r : RunInfo), s.world.Done = false →
      Expr2.elim (c = { s with world := s.world.poll })
        (fun e => ev.invokeExpr { s with world := s.world.poll, expr := some e } = .ok c
          ∧ c.err = none ∧ toBool c.world c.rv = true) →
      ev.runSingleStmt { c with stmt := some body } = .ok r →
      runCForStmt.loop ev env Expr2 Expr3 body (k + 1) s =
        if r.err = none ∨ r.err = some .ErrContinue then
          match Expr3 with
          | some e =>
            (ev.invokeExpr { r with err := none, expr := some e }).bind fun q =>
            if q.err.isSome then .ok { q with rv := nilValue, env := env }
            else runCForStmt.loop ev env Expr2 Expr3 body k q
          | none => runCForStmt.loop ev env Expr2 Expr3 body k { r with err := none }
        else if r.err = some .ErrReturn then .ok { r with env := env }
        else if r.err = some .ErrBreak then .ok { r with err := none, rv := nilValue, env := env }
        else .ok { r with rv := nilValue, env := env }) := by
  refine ⟨?_, ?_, ?_, ?_⟩
  · intro runInfo init
    simp only [runCForStmt, Option.isSome_some, Bool.true_and]
  · intro runInfo
    simp only [runCForStmt, Outcome.bind_ok, Option.isSome_none, Bool.false_and,
      Bool.false_eq_true, if_false]
  · intro k s c e hlive he hc hstop
    subst he
    simp only [runCForStmt.loop, hlive, Bool.false_eq_true, if_false, hc, Outcome.bind_ok]
    cases herr : c.err with
    | some x => simp [herr]
    | none =>
      have hf : toBool c.world c.rv = false := by
        rcases hstop with h | h
        · exact absurd herr h
        · exact h
      simp [hf, herr]
  · intro k s c r hlive htest hbody
    exact runCForStmt.loop_step ev env Expr2 Expr3 body k s c r hlive htest hbody

/-- Instance of C17: in `for ; ; nope { continue }` the body ends with
`ErrContinue` and the post expression `nope` is evaluated, so the statement
fails with an undefined symbol; in `for ; ; nope { break }` the post
expression is not evaluated and the statement ends with no error. -/
theorem C17_cfor_order_witness :
    (runSingleStmt (eval 3) (Sample.start Sample.cforContinue)).toOption.map (fun r => r.err)
      = some (some (.vm "undefined symbol 'nope'")) ∧
    (runSingleStmt (eval 3) (Sample.start Sample.cforBreak)).toOption.map (fun r => r.err)
      = some none ∧
    ∃ r, (eval 3).runSingleStmt
        { Sample.plain with world := Sample.plain.world.poll,
                            stmt := some (.StmtsStmt [.ContinueStmt]) } = .ok r ∧
      r.err = some .ErrContinue ∧
      runCForStmt.loop (eval 3) 0 none (some (.IdentExpr "nope")) (.StmtsStmt [.ContinueStmt])
          (0 + 1) Sample.plain =
        if r.err = none ∨ r.err = some .ErrContinue then
          match (some (.IdentExpr "nope") : Option Expr) with
          | some e =>
            ((eval 3).invokeExpr { r with err := none, expr := some e }).bind fun q =>
            if q.err.isSome then .ok { q with rv := nilValue, env := 0 }
            else runCForStmt.loop (eval 3) 0 none (some (.IdentExpr "nope"))
              (.StmtsStmt [.ContinueStmt]) 0 q
          | none => runCForStmt.loop (eval 3) 0 none (some (.IdentExpr "nope"))
              (.StmtsStmt [.ContinueStmt]) 0 { r with err := none }
        else if r.err = some .ErrReturn then .ok { r with env := 0 }
        else if r.err = some .ErrBreak then .ok { r with err := none, rv := nilValue, env := 0 }
        else .ok { r with rv := nilValue, env := 0 } :=
  ⟨by decide, by decide, _, rfl, rfl,
    (C17_cfor_order (eval 3) 0 none (some (.IdentExpr "nope")) (.StmtsStmt [.ContinueStmt])).2.2.2
      0 Sample.plain _ _ (by decide) rfl rfl⟩

/-- C18: in a For-in statement whose iterable evaluates without error to a
sequence `xs`, when every iteration is entered while the context is not done
and every run of the body leaves no error, the body is run once per element
of `xs`, in index order, each time from the state in which the first loop
variable is defined as that element after one interface unwrap and one
pointer unwrap (a lookup of a dot-free name in a live frame finds it), and the
statement ends with no error, a nil result and the environment it was entered
with. When the iterable evaluates to a valid value that is not Index-capable
and whose kind is not slice, array, map or chan, the statement ends with the
error "for cannot loop over type" followed by the kind, whatever the body
is. -/
theorem C18_for_in_sequence (ev : Eval) (runInfo v : RunInfo) (Vars : List String)
    (Value : Expr) (body : Stmt)
    (hval : ev.invokeExpr { runInfo with expr := some Value } = .ok v)
    (herr : v.err = none) :
    (∀ (var : String) (vars : List String) (elem : GoType) (xs : List Pako.Value) (t : RunInfo),
      Vars = var :: vars → v.rv.unwrapInterface = .slice elem xs →
      Iterates ev var body xs
        { v with world := (v.world.NewEnv v.env).1, env := (v.world.NewEnv v.env).2 } t →
      runForStmt ev runInfo Vars Value body = .ok { t with rv := nilValue, env := v.env }
        ∧ t.err = none) ∧
    (∀ (var : String) (s : RunInfo) (x : Pako.Value), var.toList.contains '.' = false →
      s.env < s.world.envs.length →
      (s.world.poll.DefineValue s.env var x).1.GetValue s.env var = (x, none)) ∧
    (v.rv.unwrapInterface.IsValid = true →
      (∀ items failAt, v.rv.unwrapInterface ≠ .index items failAt) →
      v.rv.unwrapInterface.kind ≠ .slice → v.rv.unwrapInterface.kind ≠ .array →
      v.rv.unwrapInterface.kind ≠ .map → v.rv.unwrapInterface.kind ≠ .chan →
      runForStmt ev runInfo Vars Value body =
        .ok { v with
          err := some (newStringError ("for cannot loop over type "
            ++ v.rv.unwrapInterface.kind.toStr)),
          rv := nilValue, world := (v.world.NewEnv v.env).1 }) := by
  refine ⟨?_, ?_, ?_⟩
  · intro var vars elem xs t hvars hseq hiter
    subst hvars
    refine ⟨?_, Iterates.err_none ev var body xs _ t hiter herr⟩
    simp only [herr] at hiter
    simp only [runForStmt, hval, Outcome.bind_ok, herr, Option.isSome_none, Bool.false_eq_true,
      if_false, hseq]
    exact runForStmt.slice_iterates ev v.env var body xs _ t hiter
  · intro var s x hdot hp
    exact World.GetValue_DefineValue s.world.poll s.env var x hdot hp
  · intro hvalid hindex hslice harray hmap hchan
    simp only [runForStmt, hval, Outcome.bind_ok, herr, Option.isSome_none, Bool.false_eq_true,
      if_false]
    generalize v.rv.unwrapInterface = value at hvalid hindex hslice harray hmap hchan
    cases value <;>
      first
      | (simp [Pako.Value.IsValid] at hvalid; done)
      | (exact absurd rfl (hindex _ _))
      | (exact absurd rfl hslice)
      | (exact absurd rfl hmap)
      | (exact absurd rfl hchan)
      | simp [hslice, hmap, hchan]

/-- Instance of C18: `for x in [1, 2] { x }` runs its body for 1 and then for
2 and ends with no error; `for x in 5 { x }` fails with
"for cannot loop over type int64" and a loop over a host `float64` with
"for cannot loop over type float64"; in `for x in [e] { x }`, with `e` an
error value (a pointer) in an `interface{}` slot, the body sees `x` bound to
what `e` points to. -/
theorem C18_for_in_sequence_witness :
    (runSingleStmt (eval 3) (Sample.start Sample.forSequence)).toOption.map (fun r => r.err)
      = some none ∧
    (runSingleStmt (eval 3) (Sample.start Sample.forNumber)).toOption.map (fun r => r.err)
      = some (some (.vm "for cannot loop over type int64")) ∧
    (runSingleStmt (eval 3) (Sample.start Sample.forFloat)).toOption.map (fun r => r.err)
      = some (some (.vm "for cannot loop over type float64")) ∧
    (∃ t, Iterates (eval 3) "x" (.ExprStmt (.IdentExpr "x")) [.iface .iface (.error (.vm "boom"))]
        { Sample.plain with world := (Sample.plain.world.NewEnv 0).1,
                            env := (Sample.plain.world.NewEnv 0).2 } t ∧
      t.rv = .deref (.error (.vm "boom")) ∧
      (runSingleStmt (eval 3) (Sample.start Sample.forPointers)).toOption.map
          (fun r => (r.err, r.world.envs)) = some (none, t.world.envs)) ∧
    ∃ v t,
      (eval 3).invokeExpr
        { Sample.plain with expr := some (.LiteralExpr (.slice .int64 [.int 1, .int 2])) } = .ok v ∧
      v.err = none ∧
      Iterates (eval 3) "x" (.ExprStmt (.IdentExpr "x")) [.int 1, .int 2]
        { v with world := (v.world.NewEnv v.env).1, env := (v.world.NewEnv v.env).2 } t ∧
      (runForStmt (eval 3) Sample.plain ["x"] (.LiteralExpr (.slice .int64 [.int 1, .int 2]))
          (.ExprStmt (.IdentExpr "x")) = .ok { t with rv := nilValue, env := v.env }
        ∧ t.err = none) :=
  ⟨by decide, by decide, by decide,
    ⟨_, Iterates.cons (by decide) rfl rfl (Iterates.nil _), rfl, rfl⟩,
    _, _, rfl, rfl,
    Iterates.cons (by decide) rfl rfl (Iterates.cons (by decide) rfl rfl (Iterates.nil _)),
    (C18_for_in_sequence (eval 3) Sample.plain _ ["x"]
      (.LiteralExpr (.slice .int64 [.int 1, .int 2])) (.ExprStmt (.IdentExpr "x")) rfl rfl).1
      "x" [] .int64 [.int 1, .int 2] _ rfl rfl
      (Iterates.cons (by decide) rfl rfl (Iterates.cons (by decide) rfl rfl (Iterates.nil _)))⟩

/-- C19: the leading condition of an If statement is evaluated in the
environment of the statement itself. After `if func f() { } { }`, run in a root
frame that does not bind `f`, the name `f` is bound in that frame; after
`if false { } else if func g() { } { }` the name `g` is not, because an
`else if` condition is evaluated in a child frame. -/
theorem C19_leading_condition_in_enclosing_env :
    ((Sample.start Sample.ifDefines).world.GetValue 0 "f").2 = some (.host "undefined symbol 'f'") ∧
    (runSingleStmt (eval 3) (Sample.start Sample.ifDefines)).toOption.map
        (fun r => (r.env, r.err, (r.world.GetValue r.env "f").2)) = some (0, none, none) ∧
    (runSingleStmt (eval 3) (Sample.start Sample.elseIfDefines)).toOption.map
        (fun r => (r.env, r.err, (r.world.GetValue r.env "g").2))
      = some (0, none, some (.host "undefined symbol 'g'")) := by
  decide

/-- C20: in an If statement entered while the context is not done, whose
leading condition evaluates without error to state `r0`: when that condition
is truthy, the `then` branch is run in a fresh child environment and no other
condition or branch occurs in the result; when it is not truthy and the
`else if` conditions before the first truthy one all evaluate without error,
the branch of that first truthy condition is run in a fresh child
environment, whatever the later conditions and the `else` branch are; when no
condition is truthy, the `else` branch is run in a fresh child environment if
there is one and no branch is run otherwise. The statement ends with the
state the branch left and the environment of the If statement. -/
theorem C20_branch_selection (ev : Eval) (runInfo r0 : RunInfo) (If : Expr) (Then : Stmt)
    (ElseIf : List (Expr × Stmt)) (Else : Option Stmt)
    (hstmt : runInfo.stmt = some (.IfStmt If Then ElseIf Else))
    (hlive : runInfo.world.Done = false)
    (hcond : ev.invokeExpr { runInfo with expr := some If, world := runInfo.world.poll } = .ok r0)
    (hok : r0.err = none) :
    (toBool r0.world r0.rv = true →
      runSingleStmt ev runInfo =
        (ev.runSingleStmt { r0 with rv := nilValue, stmt := some Then,
                                    env := (r0.world.NewEnv r0.env).2,
                                    world := (r0.world.NewEnv r0.env).1 }).bind
          fun r => .ok { r with env := r0.env }) ∧
    (toBool r0.world r0.rv = false →
      ∀ pre cond thenStmt post t s1, ElseIf = pre ++ (cond, thenStmt) :: post →
        AllFalsy ev r0.env pre r0 t →
        ev.invokeExpr { t with expr := some cond, env := (t.world.NewEnv r0.env).2,
                               world := (t.world.NewEnv r0.env).1 } = .ok s1 →
        s1.err = none → toBool s1.world s1.rv = true →
        runSingleStmt ev runInfo =
          (ev.runSingleStmt { s1 with rv := nilValue, stmt := some thenStmt,
                                      env := (s1.world.NewEnv r0.env).2,
                                      world := (s1.world.NewEnv r0.env).1 }).bind
            fun r => .ok { r with env := r0.env }) ∧
    (toBool r0.world r0.rv = false →
      ∀ t, AllFalsy ev r0.env ElseIf r0 t →
        (∀ els, Else = some els →
          runSingleStmt ev runInfo =
            (ev.runSingleStmt { t with rv := nilValue, stmt := some els,
                                       env := (t.world.NewEnv r0.env).2,
                                       world := (t.world.NewEnv r0.env).1 }).bind
              fun r => .ok { r with env := r0.env }) ∧
        (Else = none → runSingleStmt ev runInfo = .ok { t with env := r0.env })) := by
  have hrun : runSingleStmt ev runInfo
      = runIfStmt ev { runInfo with world := runInfo.world.poll } If Then ElseIf Else := by
    simp [runSingleStmt, hlive, hstmt]
  rw [hrun]
  refine ⟨?_, ?_, ?_⟩
  · intro htrue
    simp only [runIfStmt, hcond, Outcome.bind_ok, hok, htrue]
    simp
  · intro hfalse pre cond thenStmt post t s1 hsplit hpre hc hok1 htrue
    subst hsplit
    simp only [runIfStmt, hcond, Outcome.bind_ok, hok, hfalse,
      runIfStmt.elseIf_append ev r0.env pre _ r0 t hpre]
    simp only [runIfStmt.elseIf, hc, Outcome.bind_ok, hok1, htrue]
    simp only [Option.isSome_none, Bool.false_eq_true, if_false, Bool.not_true,
      Outcome.bind_assoc, Outcome.bind_ok]
  · intro hfalse t hall
    have happ := runIfStmt.elseIf_append ev r0.env ElseIf [] r0 t hall
    rw [List.append_nil] at happ
    constructor
    · intro els hels
      subst hels
      simp only [runIfStmt, hcond, Outcome.bind_ok, hok, hfalse, happ]
      simp [runIfStmt.elseIf]
    · intro hels
      subst hels
      simp only [runIfStmt, hcond, Outcome.bind_ok, hok, hfalse, happ]
      simp [runIfStmt.elseIf]

/-- Instance of C20: in
`if false { break } else if false { break } else if true { continue }
else if nope { } else { throw "else" }` the two first conditions are not
truthy, the third is, and the statement ends as its branch does, with
`ErrContinue`; the condition `nope`, which would fail, and the `else` branch
are not reached. -/
theorem C20_branch_selection_witness :
    (runSingleStmt (eval 3) (Sample.start Sample.ifChain)).toOption.map (fun r => r.err)
      = some (some .ErrContinue) ∧
    ∃ r0 t s1,
      (eval 3).invokeExpr { Sample.start Sample.ifChain with
          expr := some (.LiteralExpr (.bool false)),
          world := (Sample.start Sample.ifChain).world.poll } = .ok r0 ∧
      r0.err = none ∧ toBool r0.world r0.rv = false ∧
      AllFalsy (eval 3) r0.env [(.LiteralExpr (.bool false), .StmtsStmt [.BreakStmt])] r0 t ∧
      (eval 3).invokeExpr { t with expr := some (.LiteralExpr (.bool true)),
                                   env := (t.world.NewEnv r0.env).2,
                                   world := (t.world.NewEnv r0.env).1 } = .ok s1 ∧
      s1.err = none ∧ toBool s1.world s1.rv = true ∧
      runSingleStmt (eval 3) (Sample.start Sample.ifChain) =
        ((eval 3).runSingleStmt { s1 with rv := nilValue, stmt := some (.StmtsStmt [.ContinueStmt]),
                                          env := (s1.world.NewEnv r0.env).2,
                                          world := (s1.world.NewEnv r0.env).1 }).bind
          fun r => .ok { r with env := r0.env } :=
  ⟨by decide, _, _, _, rfl, rfl, rfl, AllFalsy.cons rfl rfl rfl (AllFalsy.nil _), rfl, rfl, rfl,
    (C20_branch_selection (eval 3) (Sample.start Sample.ifChain) _ _ _ _ _ rfl (by decide) rfl rfl).2.1
      rfl [(.LiteralExpr (.bool false), .StmtsStmt [.BreakStmt])] (.LiteralExpr (.bool true))
      (.StmtsStmt [.ContinueStmt]) [(.IdentExpr "nope", .StmtsStmt [])] _ _ rfl
      (AllFalsy.cons rfl rfl rfl (AllFalsy.nil _)) rfl rfl rfl⟩

/-- C21: in a Switch statement whose scrutinee evaluates without error, to
the state `s0`, and whose case expressions evaluate without error: when the
case expressions before `c`, in declaration order, are not equal to the
scrutinee and `c` is, the statement is the run of the statement of the case
of `c` in the state after `c`, whatever the expressions and cases after `c`
are; when no case expression equals the scrutinee, it is the run of the
default statement if there is one, and ends with result nil if there is
none. The scrutinee is evaluated once, before the cases, and the environment
of the caller is restored at the end. -/
theorem C21_switch_first_equal (ev : Eval) (runInfo s0 : RunInfo) (e : Expr)
    (Cases : List (List Expr × Stmt)) (Default : Option Stmt)
    (hscrut : ev.invokeExpr
      { runInfo with
        world := (runInfo.world.NewEnv runInfo.env).1, env := (runInfo.world.NewEnv runInfo.env).2,
        expr := some e } = .ok s0)
    (hok : s0.err = none) :
    (∀ cs1 es1 c es2 st cs2 t s1, Cases = cs1 ++ (es1 ++ c :: es2, st) :: cs2 →
      NoneEqual ev s0.rv (SwitchStmt.allExprs cs1 ++ es1) s0 t →
      ev.invokeExpr { t with expr := some c } = .ok s1 → s1.err = none →
      equal s1.world s1.rv s0.rv = true →
      runSwitchStmt ev runInfo e Cases Default
        = (ev.runSingleStmt { s1 with stmt := some st }).bind
            fun r => .ok { r with env := runInfo.env }) ∧
    (∀ t d, NoneEqual ev s0.rv (SwitchStmt.allExprs Cases) s0 t → Default = some d →
      runSwitchStmt ev runInfo e Cases Default
        = (ev.runSingleStmt { t with stmt := some d }).bind
            fun r => .ok { r with env := runInfo.env }) ∧
    (∀ t, NoneEqual ev s0.rv (SwitchStmt.allExprs Cases) s0 t → Default = none →
      runSwitchStmt ev runInfo e Cases Default
        = .ok { t with rv := nilValue, env := runInfo.env }) := by
  have hrun : runSwitchStmt ev runInfo e Cases Default
      = (runSwitchStmt.cases ev runInfo.env s0.rv Cases s0).bind fun y =>
          match y with
          | .error r => .ok r
          | .ok q =>
            match Default with
            | none => .ok { q with rv := nilValue, env := runInfo.env }
            | some d =>
              (ev.runSingleStmt { q with stmt := some d }).bind fun r =>
              .ok { r with env := runInfo.env } := by
    simp only [runSwitchStmt, hscrut, Outcome.bind_ok, hok, Option.isSome_none, Bool.false_eq_true,
      if_false]
  rw [hrun]
  refine ⟨?_, ?_, ?_⟩
  · intro cs1 es1 c es2 st cs2 t s1 hcases hnone hc hok1 heq
    obtain ⟨m, h1, h2⟩ := NoneEqual.of_append ev s0.rv _ _ s0 t hnone
    rw [hcases, runSwitchStmt.cases_noneEqual ev runInfo.env s0.rv cs1 _ s0 m h1]
    simp only [runSwitchStmt.cases,
      runSwitchStmt.exprs_noneEqual ev runInfo.env s0.rv st es1 _ m t h2,
      runSwitchStmt.exprs, hc, Outcome.bind_ok, hok1, Option.isSome_none, Bool.false_eq_true,
      if_false, heq, if_true, Outcome.bind_assoc]
  · intro t d hnone hd
    have h := runSwitchStmt.cases_noneEqual ev runInfo.env s0.rv Cases [] s0 t hnone
    simp only [List.append_nil] at h
    rw [h, hd]
    rfl
  · intro t hnone hd
    have h := runSwitchStmt.cases_noneEqual ev runInfo.env s0.rv Cases [] s0 t hnone
    simp only [List.append_nil] at h
    rw [h, hd]
    rfl

/-- Instance of C21: in `switch 2 { case 1: 10  case 2, 3: 20  default: 30 }`
the first case is passed over and the statement of the second case runs. -/
theorem C21_switch_first_equal_witness :
    (eval 2).invokeExpr
      { RunContext.start World.root0 0 none none with
        world := (World.root0.NewEnv 0).1, env := (World.root0.NewEnv 0).2,
        expr := some (.LiteralExpr (.int 2)) } = .ok Sample.switchScrutinee ∧
    Sample.switchScrutinee.err = none ∧
    NoneEqual (eval 2) Sample.switchScrutinee.rv
      (SwitchStmt.allExprs [([.LiteralExpr (.int 1)], .ExprStmt (.LiteralExpr (.int 10)))] ++ [])
      Sample.switchScrutinee Sample.switchPassed ∧
    (eval 2).invokeExpr { Sample.switchPassed with expr := some (.LiteralExpr (.int 2)) }
      = .ok Sample.switchMatched ∧
    Sample.switchMatched.err = none ∧
    equal Sample.switchMatched.world Sample.switchMatched.rv Sample.switchScrutinee.rv = true ∧
    runSwitchStmt (eval 2) (RunContext.start World.root0 0 none none) (.LiteralExpr (.int 2))
        ([([.LiteralExpr (.int 1)], .ExprStmt (.LiteralExpr (.int 10)))]
          ++ ([] ++ .LiteralExpr (.int 2) :: [.LiteralExpr (.int 3)],
              .ExprStmt (.LiteralExpr (.int 20))) :: [])
        (some (.ExprStmt (.LiteralExpr (.int 30))))
      = ((eval 2).runSingleStmt
          { Sample.switchMatched with stmt := some (.ExprStmt (.LiteralExpr (.int 20))) }).bind
          fun r => .ok { r with env := 0 } :=
  ⟨rfl, rfl,
    .cons (.LiteralExpr (.int 1)) [] Sample.switchScrutinee Sample.switchPassed Sample.switchPassed
      rfl rfl ((equal_int _ 1 2).trans (by decide)) (.nil _),
    rfl, rfl,
    (equal_int _ 2 2).trans (by decide),
    (C21_switch_first_equal (eval 2) (RunContext.start World.root0 0 none none)
      Sample.switchScrutinee (.LiteralExpr (.int 2))
      ([([.LiteralExpr (.int 1)], .ExprStmt (.LiteralExpr (.int 10)))]
          ++ ([] ++ .LiteralExpr (.int 2) :: [.LiteralExpr (.int 3)],
              .ExprStmt (.LiteralExpr (.int 20))) :: [])
      (some (.ExprStmt (.LiteralExpr (.int 30)))) rfl rfl).1
      [([.LiteralExpr (.int 1)], .ExprStmt (.LiteralExpr (.int 10)))] []
      (.LiteralExpr (.int 2)) [.LiteralExpr (.int 3)] (.ExprStmt (.LiteralExpr (.int 20))) []
      Sample.switchPassed Sample.switchMatched rfl
      (.cons (.LiteralExpr (.int 1)) [] Sample.switchScrutinee Sample.switchPassed
        Sample.switchPassed rfl rfl ((equal_int _ 1 2).trans (by decide)) (.nil _))
      rfl rfl ((equal_int _ 2 2).trans (by decide))⟩

/-- C22: in a Var statement whose right-hand expressions all evaluate without
error, to the values `rvs` in the state `t` (one value per expression): with
fewer names than right-hand expressions the statement fails with
`Unassigned right values` in the state `t`, so it has defined none of its
names; with at least as many names as expressions and at least one expression
it ends without error, and with at least as many names no run of it ends with
an error. -/
theorem C22_var_unassigned_values (ev : Eval) (runInfo t : RunInfo) (Names : List String)
    (Exprs : List Expr) (rvs : List Value)
    (hrhs : evalRightSide ev Exprs runInfo [] = .ok (.ok (t, rvs))) :
    rvs.length = Exprs.length ∧
    (Names.length < Exprs.length →
      runVarStmt ev runInfo Names Exprs
        = .ok { t with err := some (newStringError "Unassigned right values") }) ∧
    (Exprs.length ≤ Names.length → Exprs ≠ [] →
      ∃ r, runVarStmt ev runInfo Names Exprs = .ok r ∧ r.err = none ∧ r.env = t.env) ∧
    (Exprs.length ≤ Names.length →
      ∀ r, runVarStmt ev runInfo Names Exprs = .ok r → r.err = none) := by
  have hlen : rvs.length = Exprs.length := by
    simpa using evalRightSide_length ev Exprs runInfo t [] rvs hrhs
  have hsome : Exprs.length ≤ Names.length → Exprs ≠ [] →
      ∃ r, runVarStmt ev runInfo Names Exprs = .ok r ∧ r.err = none ∧ r.env = t.env := by
    intro hle hne
    have herr : t.err = none := evalRightSide_err ev Exprs runInfo t [] rvs hrhs (Or.inr hne)
    cases hc : (rvs.length == 1 && decide (Names.length > 1)
        && ((rvs.headD nilValue).unwrapInterface.kind == .slice
          || (rvs.headD nilValue).unwrapInterface.kind == .array)
        && decide ((rvs.headD nilValue).unwrapInterface.Len > 0)) with
    | false =>
      have hrvs : rvs ≠ [] := by
        intro h
        rw [h] at hlen
        exact hne (List.length_eq_zero.mp hlen.symm)
      obtain ⟨last, hlast⟩ : ∃ last, rvs.getLast? = some last := by
        cases h : rvs.getLast? with
        | some x => exact ⟨x, rfl⟩
        | none => exact absurd (List.getLast?_eq_none_iff.mp h) hrvs
      exact ⟨_, runVarStmt_plain ev runInfo t Names Exprs rvs last hrhs (hlen ▸ hle) hc hlast,
        herr, rfl⟩
    | true =>
      simp only [Bool.and_eq_true, beq_iff_eq, decide_eq_true_eq] at hc
      obtain ⟨⟨⟨hone, hk⟩, hkind⟩, hl⟩ := hc
      obtain ⟨el, xs, hslice, hxs⟩ :=
        Value.slice_of_kind_len _ (by simpa using hkind) hl
      exact ⟨_, runVarStmt_destructure ev runInfo t Names Exprs rvs el xs hrhs hone hk hslice hxs,
        herr, rfl⟩
  refine ⟨hlen, ?_, hsome, ?_⟩
  · intro hlt
    exact runVarStmt_fewer ev runInfo t Names Exprs rvs hrhs (hlen ▸ hlt)
  · intro hle r hr
    by_cases hne : Exprs = []
    · subst hne
      simp only [evalRightSide, Outcome.ok.injEq, Except.ok.injEq, Prod.mk.injEq] at hrhs
      obtain ⟨h1, h2⟩ := hrhs
      subst h1 h2
      simp [runVarStmt, evalRightSide] at hr
    · obtain ⟨r2, h2, herr, _⟩ := hsome hle hne
      rw [h2] at hr
      cases hr
      exact herr

/-- Instance of C22: `var a = 1, 2` fails and defines nothing. -/
theorem C22_var_unassigned_values_witness :
    ∃ t,
      evalRightSide (eval 1) Sample.twoArgs Sample.plain [] = .ok (.ok (t, [.int 1, .int 2])) ∧
      runVarStmt (eval 1) Sample.plain ["a"] Sample.twoArgs
        = .ok { t with err := some (newStringError "Unassigned right values") } ∧
      (t.world.GetValue 0 "a").2 = some (.host "undefined symbol 'a'") :=
  ⟨_, rfl,
    (C22_var_unassigned_values (eval 1) Sample.plain _ ["a"] Sample.twoArgs [.int 1, .int 2]
      rfl).2.1 (by decide),
    by decide⟩

/-- C23: in a Var statement whose right-hand expressions evaluate without
error, to the values `rvs` in the state `t` (one value per expression): with
exactly one expression and two or more names, when the value is, after one
interface unwrap, a sequence `xs` with at least one element, the statement
ends in `t` with the names defined from `xs` in the innermost frame and with
the last element of `xs` as result; in every other case with at least as many
names as expressions (and at least one expression) it ends in `t` with the
names defined from `rvs` and with the last of `rvs` as result. Defining the
names from a list of values leaves every name other than the first
`min(names, values)` names as it was, seen from any frame, and, for names
without a dot that differ from one another, name `i` is then found in the
frame as value `i`. -/
theorem C23_var_destructuring (ev : Eval) (runInfo t : RunInfo) (Names : List String)
    (Exprs : List Expr) (rvs : List Value)
    (hrhs : evalRightSide ev Exprs runInfo [] = .ok (.ok (t, rvs))) :
    rvs.length = Exprs.length ∧
    (Exprs.length = 1 → 2 ≤ Names.length →
      ∀ el xs, (rvs.headD nilValue).unwrapInterface = .slice el xs → xs ≠ [] →
        ∃ last, xs.getLast? = some last ∧
          runVarStmt ev runInfo Names Exprs
            = .ok { t with world := defineEach t.env Names xs t.world, rv := last }) ∧
    (Exprs.length ≤ Names.length → Exprs ≠ [] →
      ¬ (Exprs.length = 1 ∧ 2 ≤ Names.length
        ∧ ((rvs.headD nilValue).unwrapInterface.kind = .slice
          ∨ (rvs.headD nilValue).unwrapInterface.kind = .array)
        ∧ 0 < (rvs.headD nilValue).unwrapInterface.Len) →
      ∃ last, rvs.getLast? = some last ∧
        runVarStmt ev runInfo Names Exprs
          = .ok { t with world := defineEach t.env Names rvs t.world, rv := last }) ∧
    (∀ (vs : List Value) (w : World),
      (∀ q other, other ∉ Names.take vs.length →
        (defineEach t.env Names vs w).GetValue q other = w.GetValue q other) ∧
      (Names.Nodup → (∀ m ∈ Names, m.toList.contains '.' = false) → t.env < w.envs.length →
        ∀ (i : Nat) (n : String) (v : Value), Names[i]? = some n → vs[i]? = some v →
          (defineEach t.env Names vs w).GetValue t.env n = (v, none))) := by
  have hlen : rvs.length = Exprs.length := by
    simpa using evalRightSide_length ev Exprs runInfo t [] rvs hrhs
  refine ⟨hlen, ?_, ?_, ?_⟩
  · intro hone hk el xs hslice hxs
    obtain ⟨last, hlast⟩ : ∃ last, xs.getLast? = some last := by
      cases h : xs.getLast? with
      | some x => exact ⟨x, rfl⟩
      | none => exact absurd (List.getLast?_eq_none_iff.mp h) hxs
    refine ⟨last, hlast, ?_⟩
    rw [runVarStmt_destructure ev runInfo t Names Exprs rvs el xs hrhs (hlen.trans hone)
      (by omega) hslice hxs]
    rw [List.getLastD_eq_getLast?, hlast]
    rfl
  · intro hle hne hnot
    have hrvs : rvs ≠ [] := by
      intro h
      rw [h] at hlen
      exact hne (List.length_eq_zero.mp hlen.symm)
    obtain ⟨last, hlast⟩ : ∃ last, rvs.getLast? = some last := by
      cases h : rvs.getLast? with
      | some x => exact ⟨x, rfl⟩
      | none => exact absurd (List.getLast?_eq_none_iff.mp h) hrvs
    refine ⟨last, hlast, runVarStmt_plain ev runInfo t Names Exprs rvs last hrhs (hlen ▸ hle) ?_ hlast⟩
    rw [Bool.eq_false_iff]
    intro hc
    simp only [Bool.and_eq_true, beq_iff_eq, decide_eq_true_eq, Bool.or_eq_true] at hc
    obtain ⟨⟨⟨h1, hk⟩, hkind⟩, hl⟩ := hc
    exact hnot ⟨hlen ▸ h1, hk, hkind, hl⟩
  · intro vs w
    refine ⟨fun q other h => defineEach_other t.env Names vs w q other h, ?_⟩
    intro hnodup hdot hp i n v hn hv
    exact defineEach_found t.env Names vs w i n v hnodup hdot hp hn hv

/-- Instance of C23: `var a, b = [1, 2]` defines `a` and `b` from the
elements and has the last element as result. -/
theorem C23_var_destructuring_witness :
    ∃ t,
      evalRightSide (eval 1) [.LiteralExpr (.slice .int64 [.int 1, .int 2])] Sample.plain []
        = .ok (.ok (t, [.slice .int64 [.int 1, .int 2]])) ∧
      ∃ last, [Value.int 1, Value.int 2].getLast? = some last ∧
        runVarStmt (eval 1) Sample.plain ["a", "b"] [.LiteralExpr (.slice .int64 [.int 1, .int 2])]
          = .ok { t with
              world := defineEach t.env ["a", "b"] [.int 1, .int 2] t.world, rv := last } :=
  ⟨_, rfl,
    (C23_var_destructuring (eval 1) Sample.plain _ ["a", "b"]
      [.LiteralExpr (.slice .int64 [.int 1, .int 2])] [.slice .int64 [.int 1, .int 2]] rfl).2.1
      rfl (by decide) .int64 [.int 1, .int 2] rfl (List.cons_ne_nil _ _)⟩

/-- C24 (counterexample): with `a` bound, the statement `delete("a", false)`,
a string with a second argument that is not boolean true, ends with no error
and deletes the binding of `a`. -/
theorem C24_string_with_false_deletes :
    ((RunContext.start Sample.boundWorld 0 none (some Sample.deleteWithFalse)).world.GetValue 0 "a").2
      = none ∧
    (runSingleStmt (eval 2)
        (RunContext.start Sample.boundWorld 0 none (some Sample.deleteWithFalse))).toOption.map
      (fun r => (r.err, (r.world.GetValue 0 "a").2))
      = some (none, some (.host "undefined symbol 'a'")) := by
  decide

/-- C24 (amended): in a Delete statement whose arguments evaluate without
error, by the first argument after one interface unwrap: for a string, the
statement ends with no error and deletes the name from the root environment
when the second argument is present and is boolean true, and the innermost
binding otherwise (also when a second argument of another kind or value is
present); for a map without a key it fails; for a map with a key that is
coerced to the key type the entry of that key is removed, and it fails when
the key cannot be coerced, and for a nil map with a key nothing is removed and
there is no error; for a value of any kind other than string and map it
fails. A failing statement leaves the memory as the evaluation of the
arguments left it. -/
theorem C24_delete_arguments (ev : Eval) (runInfo s1 s2 : RunInfo) (Item : Expr)
    (Key : Option Expr)
    (hitem : ev.invokeExpr { runInfo with expr := some Item } = .ok s1)
    (hok : s1.err = none)
    (hkey : Key.elim (s2 = s1)
      (fun k => ev.invokeExpr { s1 with expr := some k } = .ok s2 ∧ s2.err = none)) :
    (∀ name, s1.rv.unwrapInterface = .str name →
      runDeleteStmt ev runInfo Item Key
        = .ok { s2 with
            rv := nilValue,
            world := if Key.isSome && s2.rv.kind == .bool && s2.rv.asBool
              then s2.world.DeleteGlobal s2.env name else s2.world.Delete s2.env name }) ∧
    (∀ kt vt id, s1.rv.unwrapInterface = .map kt vt id → Key = none →
      runDeleteStmt ev runInfo Item Key
        = .ok { s2 with
            err := some (newStringError "second argument to delete cannot be nil for map"),
            rv := nilValue }) ∧
    (∀ kt vt id k, s1.rv.unwrapInterface = .map kt vt id → Key.isSome = true →
      convertReflectValueToType s2.rv kt = (k, none) →
      runDeleteStmt ev runInfo Item Key
        = .ok { s2 with
            err := none, rv := nilValue,
            world := { s2.world with
              maps := s2.world.maps.set id
                ((s2.world.maps.getD id []).filter (fun kv => !Value.same kv.1 k)) } }) ∧
    (∀ kt vt id k e, s1.rv.unwrapInterface = .map kt vt id → Key.isSome = true →
      convertReflectValueToType s2.rv kt = (k, some e) →
      runDeleteStmt ev runInfo Item Key
        = .ok { s2 with
            err := some (newStringError ("cannot use type " ++ kt.String ++ " as type "
              ++ k.TypeOf.String ++ " in delete")),
            rv := nilValue }) ∧
    (∀ ty, s1.rv.unwrapInterface = .nil ty → ty.kind = .map → Key.isSome = true →
      runDeleteStmt ev runInfo Item Key = .ok { s2 with rv := nilValue }) ∧
    (s1.rv.unwrapInterface.kind ≠ .string → s1.rv.unwrapInterface.kind ≠ .map →
      runDeleteStmt ev runInfo Item Key
        = .ok { s2 with
            err := some (newStringError ("first argument to delete cannot be type "
              ++ s1.rv.unwrapInterface.kind.toStr)),
            rv := nilValue }) := by
  cases Key with
  | none =>
    simp only [Option.elim] at hkey
    subst hkey
    refine ⟨?_, ?_, ?_, ?_, ?_, ?_⟩
    · intro name hname
      simp [runDeleteStmt, hitem, hok, hname]
    · intro kt vt id hmap _
      simp [runDeleteStmt, hitem, hok, hmap]
    · intro kt vt id k _ hsome
      simp at hsome
    · intro kt vt id k e _ hsome
      simp at hsome
    · intro ty _ _ hsome
      simp at hsome
    · intro hstr hmap
      simp only [runDeleteStmt, hitem, Outcome.bind_ok, hok]
      generalize s2.rv.unwrapInterface = item at hstr hmap
      cases item <;>
        first
        | (exact absurd rfl hstr)
        | (exact absurd rfl hmap)
        | simp_all [Value.kind]
  | some key =>
    simp only [Option.elim] at hkey
    obtain ⟨hk, hok2⟩ := hkey
    have hk1 := hk
    simp only [hok] at hk1
    refine ⟨?_, ?_, ?_, ?_, ?_, ?_⟩
    · intro name hname
      simp [runDeleteStmt, hitem, hok, hname, hk1, hok2]
      split <;> rfl
    · intro kt vt id _ hnone
      simp at hnone
    · intro kt vt id k hmap _ hconv
      simp [runDeleteStmt, hitem, hok, hmap, hk1, hok2, hconv]
    · intro kt vt id k e hmap _ hconv
      simp [runDeleteStmt, hitem, hok, hmap, hk1, hok2, hconv]
    · intro ty hnil hty _
      simp [runDeleteStmt, hitem, hok, hnil, hk1, hok2, Value.kind, Value.TypeOf, hty]
    · intro hstr hmap
      simp only [runDeleteStmt, hitem, Outcome.bind_ok, hok, hk]
      generalize s1.rv.unwrapInterface = item at hstr hmap
      cases item <;>
        first
        | (exact absurd rfl hstr)
        | (exact absurd rfl hmap)
        | simp_all [Value.kind]

/-- Instance of C24 (amended): `delete(f)` with `f` a host `float64` fails
with "first argument to delete cannot be type float64"; `delete("a", false)`
with `a` bound deletes the innermost binding. -/
theorem C24_delete_arguments_witness :
    runDeleteStmt (eval 1) (RunContext.start Sample.boundWorld 0 none none)
        (.LiteralExpr (.foreign (.other "float64" .float64) 0)) none
      = .ok { RunContext.start Sample.boundWorld 0 none none with
          expr := some (.LiteralExpr (.foreign (.other "float64" .float64) 0)),
          err := some (.vm "first argument to delete cannot be type float64"),
          rv := nilValue } ∧
    ∃ s1 s2,
      (eval 1).invokeExpr
        { RunContext.start Sample.boundWorld 0 none none with
          expr := some (.LiteralExpr (.str "a")) } = .ok s1 ∧
      s1.err = none ∧
      (eval 1).invokeExpr { s1 with expr := some (.LiteralExpr (.bool false)) } = .ok s2 ∧
      s2.err = none ∧
      s1.rv.unwrapInterface = .str "a" ∧
      runDeleteStmt (eval 1) (RunContext.start Sample.boundWorld 0 none none)
          (.LiteralExpr (.str "a")) (some (.LiteralExpr (.bool false)))
        = .ok { s2 with
            rv := nilValue,
            world := if (some (Expr.LiteralExpr (.bool false))).isSome && s2.rv.kind == .bool
                && s2.rv.asBool
              then s2.world.DeleteGlobal s2.env "a" else s2.world.Delete s2.env "a" } :=
  ⟨(C24_delete_arguments (eval 1) (RunContext.start Sample.boundWorld 0 none none) _ _
      (.LiteralExpr (.foreign (.other "float64" .float64) 0)) none rfl rfl rfl).2.2.2.2.2
      (by decide) (by decide),
    _, _, rfl, rfl, rfl, rfl, rfl,
    (C24_delete_arguments (eval 1) (RunContext.start Sample.boundWorld 0 none none) _ _
      (.LiteralExpr (.str "a")) (some (.LiteralExpr (.bool false))) rfl rfl ⟨rfl, rfl⟩).1 "a" rfl⟩

/-- C25 (counterexample): with `v = 7` and a closed channel `ch`, the
statement `v, ok <- ch` ends with no error, binds `ok` to false and leaves `v`
as it was: the value target is not assigned the zero value. -/
theorem C25_value_target_kept_on_close :
    (runSingleStmt (eval 2)
        (RunContext.start Sample.closedChanWorld 0 none (some Sample.receive))).toOption.map
      (fun r => (r.err, (r.world.GetValue 0 "v").1.Sprint, (r.world.GetValue 0 "ok").2,
        (r.world.GetValue 0 "ok").1.asBool, r.rv.IsNil))
      = some (none, "7", none, false, true) := by
  decide

/-- C25 (amended): in a channel-receive statement whose right-hand side
evaluates without error to a channel, by the outcome of the select: when the
cancellation handle fires, the statement ends with `ErrInterrupt` and a nil
result and assigns neither target; when the channel is closed, the ok target
(if there is one) is assigned false, the value target is not assigned and the
result is nil; when a value `x` is received, the ok target (if there is one)
is assigned true and then the value target is assigned `x`. -/
theorem C25_channel_receive (ev : Eval) (runInfo s1 : RunInfo) (LHS RHS : Expr)
    (OkExpr : Option Expr) (outcome : SelectOutcome) (sel : List SelectOutcome)
    (hrhs : ev.invokeExpr { runInfo with expr := some RHS } = .ok s1)
    (hok : s1.err = none)
    (hchan : s1.rv.unwrapInterface.kind = .chan)
    (hsel : s1.world.selects = outcome :: sel) :
    (outcome = .cancelled →
      runChanStmt ev runInfo LHS OkExpr RHS
        = .ok { s1 with err := some .ErrInterrupt, rv := nilValue,
                        world := { s1.world with selects := sel } }) ∧
    (outcome = .closed →
      runChanStmt ev runInfo LHS OkExpr RHS
        = match OkExpr with
          | some okExpr =>
            (ev.invokeLetExpr { s1 with rv := falseValue, expr := some okExpr,
                                        world := { s1.world with selects := sel } }).bind
              fun r => .ok { r with rv := nilValue }
          | none => .ok { s1 with rv := nilValue, world := { s1.world with selects := sel } }) ∧
    (∀ x, outcome = .received x →
      runChanStmt ev runInfo LHS OkExpr RHS
        = match OkExpr with
          | some okExpr =>
            (ev.invokeLetExpr { s1 with rv := trueValue, expr := some okExpr,
                                        world := { s1.world with selects := sel } }).bind
              fun r => ev.invokeLetExpr { r with rv := x, expr := some LHS }
          | none =>
            ev.invokeLetExpr { s1 with rv := x, expr := some LHS,
                                       world := { s1.world with selects := sel } }) := by
  refine ⟨?_, ?_, ?_⟩
  · intro ho
    subst ho
    simp [runChanStmt, hrhs, hok, hchan, hsel]
  · intro ho
    subst ho
    cases OkExpr <;> simp [runChanStmt, hrhs, hok, hchan, hsel]
  · intro x ho
    subst ho
    cases OkExpr <;> simp [runChanStmt, hrhs, hok, hchan, hsel]

/-- Instance of C25: for the closed channel `ch`, the statement `v, ok <- ch`
assigns false to `ok` and ends with a nil result; `v` is not assigned. -/
theorem C25_channel_receive_witness :
    ∃ s1,
      (eval 1).invokeExpr
        { RunContext.start Sample.closedChanWorld 0 none none with expr := some (.IdentExpr "ch") }
        = .ok s1 ∧
      s1.err = none ∧ s1.rv.unwrapInterface.kind = .chan ∧ s1.world.selects = .closed :: [] ∧
      runChanStmt (eval 1) (RunContext.start Sample.closedChanWorld 0 none none)
          (.IdentExpr "v") (some (.IdentExpr "ok")) (.IdentExpr "ch")
        = ((eval 1).invokeLetExpr
            { s1 with rv := falseValue, expr := some (.IdentExpr "ok"),
                      world := { s1.world with selects := [] } }).bind
            fun r => .ok { r with rv := nilValue } :=
  ⟨_, rfl, rfl, rfl, rfl,
    (C25_channel_receive (eval 1) (RunContext.start Sample.closedChanWorld 0 none none) _
      (.IdentExpr "v") (.IdentExpr "ch") (some (.IdentExpr "ok")) .closed [] rfl rfl rfl rfl).2.1 rfl⟩

/-- C26 (evaluation at the failing input): with a package registered as
`github.com/x/y`, the statement `import "github.com/x/y"` succeeds and binds
the package environment under `com/x/y`, the part after the last dot; the name
`y` stays undefined. -/
theorem C26_bound_after_last_dot :
    (runSingleStmt (eval 2)
        (RunContext.start Sample.githubWorld 0 none (some Sample.importGithub))).toOption.map
      (fun r => (r.err, (r.world.GetValue r.env "com/x/y").1.asEnv, (r.world.GetValue r.env "y").2))
      = some (none, some 1, some (.host "undefined symbol 'y'")) := by
  decide

/-- C27: an Import statement marked local whose import name is not empty,
whether the name is read off the expression or is the string the expression
evaluates to, run in an environment with no import resolver, fails with
`cannot import local packages`; the memory is the one the name was obtained
in, so no name is bound, and no resolver takes part in the result. -/
theorem C27_local_without_resolver (ev : Eval) (runInfo : RunInfo) (Name : Expr) (As : String) :
    (∀ name, getNameFromExpr Name = .ok name → name.length ≠ 0 →
      (runInfo.world.envs.get? runInfo.env).bind (fun f => f.Import) = none →
      runImportStmt ev runInfo Name As true
        = .ok { runInfo with
            rv := nilValue, err := some (newStringError "cannot import local packages") }) ∧
    (∀ r name, getNameFromExpr Name = .ok "" →
      ev.invokeExpr { runInfo with expr := some Name } = .ok r → r.err = none →
      convertReflectValueToType r.rv stringType = (.str name, none) → name.length ≠ 0 →
      (r.world.envs.get? r.env).bind (fun f => f.Import) = none →
      runImportStmt ev runInfo Name As true
        = .ok { r with
            rv := nilValue, err := some (newStringError "cannot import local packages") }) := by
  refine ⟨?_, ?_⟩
  · intro name hname hlen hres
    simp only [List.get?_eq_getElem?] at hres
    simp [runImportStmt, hname, hlen]
    rw [hres]
  · intro r name hname hev hok hconv hlen hres
    simp only [List.get?_eq_getElem?] at hres
    simp [runImportStmt, hname, hev, hok, hconv, hlen]
    rw [hres]

/-- Instance of C27: the statement `import local lib` in a root environment
without a resolver. -/
theorem C27_local_without_resolver_witness :
    getNameFromExpr (.IdentExpr "lib") = .ok "lib" ∧ "lib".length ≠ 0 ∧
    ((RunContext.start World.root0 0 none none).world.envs.get? 0).bind (fun f => f.Import) = none ∧
    runImportStmt (eval 1) (RunContext.start World.root0 0 none none) (.IdentExpr "lib") "" true
      = .ok { RunContext.start World.root0 0 none none with
          rv := nilValue, err := some (newStringError "cannot import local packages") } :=
  ⟨rfl, by decide, rfl,
    (C27_local_without_resolver (eval 1) (RunContext.start World.root0 0 none none)
      (.IdentExpr "lib") "").1 "lib" rfl (by decide) rfl⟩

/-- C28 (evaluation at the failing input): for a host function `pair()` that
returns the two values 1 and 2, neither of them an error, the plain call
`pair()` ends with no error, and the error-propagating call `pair()?` raises
the error "1": `callErr` is 0 from the start of the run, `callExpr` records
nothing, and `handleError` consults slot 0. -/
theorem C28_unrecorded_index_consulted :
    (RunContext.start Sample.pairWorld 0 none none).callErr = 0 ∧
    (RunContext noDecls 6 Sample.pairWorld 0 none
        (some (.ExprStmt (.CallExpr .invalid "pair" [] false false)))).toOption.map
      (fun r => (r.1.unwrapInterface.Len, r.2.1)) = some (2, none) ∧
    (RunContext noDecls 6 Sample.pairWorld 0 none
        (some (.ExprStmt (.CallErrExpr .invalid "pair" [] false)))).toOption.map
      (fun r => r.2.1) = some (some (.vm "1")) := by
  decide

/-- C29 (counterexample): the statement `try { return 1 } catch e { e }` ends
with no error, not with `ErrReturn`: the signal of the `return` is caught, the
catch block is run and `e` is bound to the signal in the frame of the try
block. -/
theorem C29_return_caught_by_try :
    (runSingleStmt (eval 4) (Sample.start Sample.tryReturn)).toOption.map
      (fun r => (r.err, (r.world.GetValue 1 "e").1.asError))
      = some (none, some .ErrReturn) := by
  decide

/-- C29 (amended): in a Try statement entered while the context is not done,
whose try block is a statement sequence that reaches a `break`, `continue` or
`return` statement after statements that all run without error (and whose
`return` statement runs without error), the control signal is caught like any
other error that is not `ErrInterrupt`: the statement goes on with the catch
part, run from the state the try block left, with the signal as the error to
bind to the catch variable; the signal is cleared before the catch block
runs. -/
theorem C29_control_signal_caught (ev ev0 : Eval) (runInfo t : RunInfo) (pre post : List Stmt)
    (ctrl : Stmt) (Var : String) (Catch Finally : Option Stmt)
    (hev : ev.runSingleStmt = runSingleStmt ev0)
    (hstmt : runInfo.stmt = some (.TryStmt (.StmtsStmt (pre ++ ctrl :: post)) Var Catch Finally))
    (hpre : ∀ st ∈ pre, st.isControl = false)
    (hlive : runInfo.world.Done = false)
    (hlive1 : (runInfo.world.poll.NewEnv runInfo.env).1.Done = false)
    (hrun : RunsAll ev0 pre
      { runInfo with env := (runInfo.world.poll.NewEnv runInfo.env).2,
                     stmt := some (.StmtsStmt (pre ++ ctrl :: post)),
                     world := (runInfo.world.poll.NewEnv runInfo.env).1.poll } t) :
    (ctrl = .BreakStmt →
      runSingleStmt ev runInfo
        = runTryStmt.caught ev runInfo.env Var Catch Finally { t with err := some .ErrBreak }
            .ErrBreak) ∧
    (ctrl = .ContinueStmt →
      runSingleStmt ev runInfo
        = runTryStmt.caught ev runInfo.env Var Catch Finally { t with err := some .ErrContinue }
            .ErrContinue) ∧
    (∀ es r, ctrl = .ReturnStmt es →
      ev0.runSingleStmt { t with stmt := some (.ReturnStmt es) } = .ok r → r.err = none →
      runSingleStmt ev runInfo
        = runTryStmt.caught ev runInfo.env Var Catch Finally { r with err := some .ErrReturn }
            .ErrReturn) ∧
    (∀ (r1 : RunInfo) (e : GoError),
      runTryStmt.caught ev runInfo.env Var Catch Finally r1 e
        = (ev.runSingleStmt
            { r1 with stmt := Catch, err := none,
                      world := if Var != "" then (r1.world.DefineValue r1.env Var (.error e)).1
                               else r1.world }).bind
          fun r2 =>
            if r2.err.isSome then .ok { r2 with env := runInfo.env }
            else
              match Finally with
              | some fin =>
                (ev.runSingleStmt { r2 with stmt := some fin }).bind fun r3 =>
                .ok { r3 with env := runInfo.env }
              | none => .ok { r2 with env := runInfo.env }) := by
  have hrun0 : runSingleStmt ev runInfo
      = runTryStmt ev { runInfo with world := runInfo.world.poll }
          (.StmtsStmt (pre ++ ctrl :: post)) Var Catch Finally := by
    simp [runSingleStmt, hlive, hstmt]
  have hblock : ev.runSingleStmt
      { runInfo with world := (runInfo.world.poll.NewEnv runInfo.env).1,
                     env := (runInfo.world.poll.NewEnv runInfo.env).2,
                     stmt := some (.StmtsStmt (pre ++ ctrl :: post)) }
      = runStmtsStmt ev0 (ctrl :: post) t := by
    rw [hev]
    simp only [runSingleStmt, hlive1, Bool.false_eq_true, if_false]
    exact runStmtsStmt_append ev0 pre (ctrl :: post) _ t hpre hrun
  refine ⟨?_, ?_, ?_, ?_⟩
  · intro hc
    subst hc
    rw [hrun0]
    exact runTryStmt_caught ev _ _ _ Var Catch Finally .ErrBreak
      (by rw [hblock]; simp [runStmtsStmt]) rfl (by decide)
  · intro hc
    subst hc
    rw [hrun0]
    exact runTryStmt_caught ev _ _ _ Var Catch Finally .ErrContinue
      (by rw [hblock]; simp [runStmtsStmt]) rfl (by decide)
  · intro es r hc hret hok
    subst hc
    rw [hrun0]
    exact runTryStmt_caught ev _ _ _ Var Catch Finally .ErrReturn
      (by rw [hblock]; simp [runStmtsStmt, hret, hok]) rfl (by decide)
  · intro r1 e
    by_cases hv : Var = ""
    · subst hv
      simp [runTryStmt.caught]
    · have hv2 : (Var != "") = true := by simpa using hv
      simp [runTryStmt.caught, hv2]

/-- Instance of C29: in `try { return 1 } catch e { e }` the `return`
statement runs without error and the statement goes on with the catch part,
with `ErrReturn` as the error to bind to `e`. -/
theorem C29_control_signal_caught_witness :
    ∃ t r,
      RunsAll (eval 3) []
        { Sample.start Sample.tryReturn with
          env := ((Sample.start Sample.tryReturn).world.poll.NewEnv 0).2,
          stmt := some (.StmtsStmt ([] ++ .ReturnStmt [.LiteralExpr (.int 1)] :: [])),
          world := ((Sample.start Sample.tryReturn).world.poll.NewEnv 0).1.poll } t ∧
      (eval 3).runSingleStmt { t with stmt := some (.ReturnStmt [.LiteralExpr (.int 1)]) } = .ok r ∧
      r.err = none ∧
      runSingleStmt (eval 4) (Sample.start Sample.tryReturn)
        = runTryStmt.caught (eval 4) (Sample.start Sample.tryReturn).env "e"
            (some (.StmtsStmt [.ExprStmt (.IdentExpr "e")])) none
            { r with err := some .ErrReturn } .ErrReturn :=
  ⟨_, _, RunsAll.nil _, rfl, rfl,
    (C29_control_signal_caught (eval 4) (eval 3) (Sample.start Sample.tryReturn) _ [] []
      (.ReturnStmt [.LiteralExpr (.int 1)]) "e" (some (.StmtsStmt [.ExprStmt (.IdentExpr "e")])) none
      rfl rfl (by simp) (by decide) (by decide) (RunsAll.nil _)).2.2.1
      [.LiteralExpr (.int 1)] _ rfl rfl rfl⟩

/-- C30 (evaluation at the failing input): the statement `import nothere`,
for a name the registry does not hold, ends with the error
"package not found: nothere" and all the same binds `nothere` in the current
environment, to a fresh empty environment. -/
theorem C30_alias_bound_after_failure :
    ((Sample.start Sample.importMissing).world.GetValue 0 "nothere").2
      = some (.host "undefined symbol 'nothere'") ∧
    (runSingleStmt (eval 2) (Sample.start Sample.importMissing)).toOption.map
      (fun r => (r.err, (r.world.GetValue r.env "nothere").1.asEnv,
        (r.world.GetValue r.env "nothere").2))
      = some (some (.vm "package not found: nothere"), some 1, none) := by
  decide


/-- C31: for a variadic script function with `p ≥ 1` declared parameters,
called not variadically with at least `p + 1` argument expressions that
evaluate without error to `vs`, the type `funcType` builds has `p - 1` carrier
parameters before the variadic `[]interface{}` parameter, with and without a
receiver, and `checkIfRunVMFunction` recognises it. Without a receiver
`makeCallArgs` returns the context, the first `p - 1` values in carriers and
the other values as they are. With a receiver (and one pending)
`makeCallArgs` returns the context, the receiver, the first `p` values in
carriers and the other values as they are: value `p - 1`, the first element of
the variadic tail, is in a carrier and the later elements of the tail are
not. -/
theorem C31_receiver_variadic_wrapping (ev : Eval) (runInfo t : RunInfo) (p : Nat)
    (SubExprs : List Expr) (vs : List Value)
    (hp : 1 ≤ p) (hm : p + 1 ≤ SubExprs.length) :
    (funcType p false true).ins
      = contextType :: (List.replicate (p - 1) reflectValueType ++ [interfaceSliceType]) ∧
    (funcType p true true).ins
      = contextType :: vmStructType
          :: (List.replicate (p - 1) reflectValueType ++ [interfaceSliceType]) ∧
    checkIfRunVMFunction (funcType p false true) = true ∧
    checkIfRunVMFunction (funcType p true true) = true ∧
    (EvalsTo ev SubExprs runInfo vs t →
      makeCallArgs ev runInfo (funcType p false true) true SubExprs false
        = .ok (t, .ctx :: ((vs.take (p - 1)).map Value.carrier ++ vs.drop (p - 1)), false) ∧
      ∀ i, p - 1 ≤ i →
        (Value.ctx :: ((vs.take (p - 1)).map Value.carrier ++ vs.drop (p - 1)))[i + 1]? = vs[i]?) ∧
    (runInfo.recv.IsValid = true →
      EvalsTo ev SubExprs (makeCallArgs.wrapRecv runInfo true) vs t →
      makeCallArgs ev runInfo (funcType p true true) true SubExprs false
        = .ok (t, .ctx :: (makeCallArgs.wrapRecv runInfo true).recv
            :: ((vs.take p).map Value.carrier ++ vs.drop p), false) ∧
      (Value.ctx :: (makeCallArgs.wrapRecv runInfo true).recv
          :: ((vs.take p).map Value.carrier ++ vs.drop p))[(p - 1) + 2]?
        = (vs[p - 1]?).map Value.carrier ∧
      ∀ i, p ≤ i →
        (Value.ctx :: (makeCallArgs.wrapRecv runInfo true).recv
            :: ((vs.take p).map Value.carrier ++ vs.drop p))[i + 2]? = vs[i]?) := by
  obtain ⟨n, rfl⟩ : ∃ n, p = n + 1 := ⟨p - 1, by omega⟩
  simp only [Nat.add_sub_cancel]
  refine ⟨?_, ?_, checkIfRunVMFunction_variadic n false, checkIfRunVMFunction_variadic n true,
    ?_, ?_⟩
  · simpa using funcType_ins_variadic n false
  · simpa using funcType_ins_variadic n true
  · intro hev
    have hlen := EvalsTo.values_length ev SubExprs _ t vs hev
    have h := makeCallArgs_script_variadic ev runInfo t n false SubExprs vs (by omega)
      (by simpa [makeCallArgs.wrapRecv] using hev)
    refine ⟨by simpa using h, ?_⟩
    intro i hi
    have hA : ((vs.take n).map Value.carrier).length = n := by
      simp only [List.length_map, List.length_take]; omega
    rw [List.getElem?_cons_succ, List.getElem?_append_right (by omega), hA, List.getElem?_drop]
    congr 1
    omega
  · intro hrecv hev
    have hlen := EvalsTo.values_length ev SubExprs _ t vs hev
    have h := makeCallArgs_script_variadic ev runInfo t n true SubExprs vs (by omega)
      (by simpa [hrecv] using hev)
    have hA : ((vs.take (n + 1)).map Value.carrier).length = n + 1 := by
      simp only [List.length_map, List.length_take]; omega
    refine ⟨by simpa [hrecv] using h, ?_, ?_⟩
    · rw [List.getElem?_cons_succ, List.getElem?_cons_succ, List.getElem?_append_left (by omega),
        List.getElem?_map, List.getElem?_take]
      simp
    · intro i hi
      rw [List.getElem?_cons_succ, List.getElem?_cons_succ, List.getElem?_append_right (by omega),
        hA, List.getElem?_drop]
      congr 1
      omega

/-- Instance of C31: for a variadic method `func (T) f(xs...)` called as
`obj.f(1, 2)` the arguments are the context, the receiver, the carrier of 1
and the plain 2; for the function `func f(xs...)` called as `f(1, 2)` they
are the context and the plain 1 and 2. -/
theorem C31_receiver_variadic_wrapping_witness :
    ∃ vs vs0 t t0, Sample.withRecv.recv.IsValid = true ∧
      EvalsTo (eval 1) Sample.twoArgs (makeCallArgs.wrapRecv Sample.withRecv true) vs t ∧
      EvalsTo (eval 1) Sample.twoArgs Sample.withRecv vs0 t0 ∧
      vs = [.int 1, .int 2] ∧ vs0 = [.int 1, .int 2] ∧
      makeCallArgs (eval 1) Sample.withRecv (funcType 1 true true) true Sample.twoArgs false
        = .ok (t, [.ctx, .vmStruct (.str "obj"), .carrier (.int 1), .int 2], false) ∧
      makeCallArgs (eval 1) Sample.withRecv (funcType 1 false true) true Sample.twoArgs false
        = .ok (t0, [.ctx, .int 1, .int 2], false) :=
  ⟨_, _, _, _, rfl,
    EvalsTo.cons rfl rfl (EvalsTo.cons rfl rfl (EvalsTo.nil _)),
    EvalsTo.cons rfl rfl (EvalsTo.cons rfl rfl (EvalsTo.nil _)),
    rfl, rfl,
    ((C31_receiver_variadic_wrapping (eval 1) Sample.withRecv _ 1 Sample.twoArgs _
      (by decide) (by decide)).2.2.2.2.2 rfl
      (EvalsTo.cons rfl rfl (EvalsTo.cons rfl rfl (EvalsTo.nil _)))).1,
    ((C31_receiver_variadic_wrapping (eval 1) Sample.withRecv _ 1 Sample.twoArgs _
      (by decide) (by decide)).2.2.2.2.1
      (EvalsTo.cons rfl rfl (EvalsTo.cons rfl rfl (EvalsTo.nil _)))).1⟩

/-- C32 (evaluation at the failing input): for no parameter and `varArg`, the
type `funcType` builds without a receiver has the `[]interface{}` type as its
only parameter, not the context type, and `checkIfRunVMFunction` returns false
for it; with a receiver its second parameter is the `[]interface{}` type, not
the `vmStruct` type. -/
theorem C32_context_slot_overwritten :
    (funcType 0 false true).ins = [interfaceSliceType] ∧
    (funcType 0 false true).In 0 ≠ contextType ∧
    checkIfRunVMFunction (funcType 0 false true) = false ∧
    (funcType 0 true true).ins = [contextType, interfaceSliceType] ∧
    (funcType 0 true true).In 1 ≠ vmStructType := by
  decide

end Pako
